import Mathlib

/-! # Game_Actor (EasyRPG Player, `src/game_actor.cpp`)

A shallow embedding of the actor core: experience/level progression, the stat
resolver, the five equipment slots, the skill registry and the battle
placement, followed by the properties proved about them.

Conventions of the embedding

* C++ `int` values are `Int`; the two narrowing stores of the source
  (`(int16_t)skill_id`, `(short)new_item_id`) are modelled by `toInt16`, and the
  `int` arithmetic of the experience curve, whose sums can leave the 32-bit
  range, wraps through `wrapInt32`. Elsewhere `int` arithmetic is taken
  without overflow.
* The macros `min` and `max` of `util_macro.h` are the binary minimum and
  maximum.
* Floating point: the `double` arithmetic of the RPG2k experience curve is
  binary64 arithmetic on rationals (every operation is the exact result rounded
  to nearest, ties to even, to 53 significant bits); the `float` positions of
  the battle placement are exact rationals, converted to `int` by truncation.
* `std::vector` is `List`; an index the source guards is read with `vecGet`.
* The static database (`Data::actors[data.ID - 1]`, `Data::classes`,
  `Data::items`, `Data::skills`, `Data::terms`) and the engine flag
  `Player::IsRPG2k()` are the fields of `Env`.
* The persisted record `data` (an `RPG::SaveActor`) and the member `exp_list`
  are the fields of `Game_Actor`; the global `Game_Message` is passed
  explicitly.
-/

namespace GameActor

/-! ## Machine integers and vectors -/

/-- The narrowing conversion `(int16_t)x` / `(short)x`: the value is reduced
modulo `2^16` into `[-32768, 32767]`. -/
def toInt16 (x : Int) : Int := (x + 32768) % 65536 - 32768

/-- Read of `v[i]` on a `std::vector`. The source only reads indices it has
guarded or that the database guarantees; outside the vector the read has no
defined value and the model returns `default`. -/
def vecGet {α : Type} [Inhabited α] (v : List α) (i : Int) : α :=
  if i < 0 then default else v.getD i.toNat default

/-- The value a 32-bit `int` holds after an arithmetic result `x`: the result
reduced modulo `2^32` into `[-2147483648, 2147483647]`. -/
def wrapInt32 (x : Int) : Int := (x + 2147483648) % 4294967296 - 2147483648

/-- The values a 32-bit `int` holds. -/
def InInt32 (x : Int) : Prop := -2147483648 ≤ x ∧ x ≤ 2147483647

instance (x : Int) : Decidable (InInt32 x) := by
  unfold InInt32; infer_instance

/-! ## Binary64 arithmetic (`double`)

A `double` is a value of `Option ℚ`: `some q` is the finite value `q`, `none` is
an infinity or a NaN. The operations used by the source (`+`, `-`, `*`) never
lead from an infinity or a NaN back to a finite value, and the only
observation made of a `double` is its conversion to `int`, so the three are
not told apart; neither are the two signed zeros. Every operation is rounded
on its own. -/

/-- The conversion of a floating-point value to `int`: truncation toward zero. -/
def truncToInt (q : ℚ) : Int := if 0 ≤ q then ⌊q⌋ else ⌈q⌉

/-- Rounding to the nearest integer, ties to the even one. -/
def roundHalfEven (q : ℚ) : Int :=
  if q - ⌊q⌋ < 1 / 2 then ⌊q⌋
  else if 1 / 2 < q - ⌊q⌋ then ⌊q⌋ + 1
  else if ⌊q⌋ % 2 = 0 then ⌊q⌋ else ⌊q⌋ + 1

/-- The exponent of the last significant bit a binary64 value near `q` has: 52
below the exponent of `q`, and never below -1074 (gradual underflow). -/
def ulpExp (q : ℚ) : Int := max (Int.log 2 |q| - 52) (-1074)

/-- Rounding of an exact result to 53 significant bits, to nearest, ties to
even. -/
def roundF64 (q : ℚ) : ℚ := (roundHalfEven (q / 2 ^ ulpExp q) : ℚ) * 2 ^ ulpExp q

/-- The `double` an exact result `q` is delivered as: the rounded value, or an
infinity (`none`) when the rounded value reaches `2^1024`. -/
def toDouble (q : ℚ) : Option ℚ := if |roundF64 q| < 2 ^ 1024 then some (roundF64 q) else none

/-- The `double` addition `x + y`. -/
def dadd (x y : Option ℚ) : Option ℚ :=
  match x, y with
  | some a, some b => toDouble (a + b)
  | _, _ => none

/-- The `double` subtraction `x - y`. -/
def dsub (x y : Option ℚ) : Option ℚ :=
  match x, y with
  | some a, some b => toDouble (a - b)
  | _, _ => none

/-- The `double` multiplication `x * y`. -/
def dmul (x y : Option ℚ) : Option ℚ :=
  match x, y with
  | some a, some b => toDouble (a * b)
  | _, _ => none

/-- The conversion of an `int` to `double`, exact for every 32-bit value. -/
def intToDouble (n : Int) : Option ℚ := some (n : ℚ)

/-- The conversion `(int)d`: truncation toward zero. For a value whose
truncation is outside the range of `int`, an infinity or a NaN, the conversion
is undefined in C++; the value here is the one the x86 conversion instruction
delivers, `INT_MIN`. -/
def doubleToInt (d : Option ℚ) : Int :=
  match d with
  | some q => if -2147483649 < q ∧ q < 2147483648 then truncToInt q else -2147483648
  | none => -2147483648

/-- The conversion `(int)d` is defined: `d` is finite and its truncation lies
in the range of `int`. -/
def DoubleFitsInt (d : Option ℚ) : Prop :=
  match d with
  | some q => -2147483649 < q ∧ q < 2147483648
  | none => False

/-- A `double` that is non-negative when finite. -/
def DNonneg (x : Option ℚ) : Prop := ∀ q, x = some q → 0 ≤ q

/-- A `double` that is at least 1 when finite. -/
def DGeOne (x : Option ℚ) : Prop := ∀ q, x = some q → 1 ≤ q

/-- The order of two `double`s in which an infinity on the right is above
everything: when `y` is finite, `x` is finite and at most `y`. -/
def DLe (x y : Option ℚ) : Prop := ∀ q', y = some q' → ∃ q, x = some q ∧ q ≤ q'

/-! ## Static database (`Data::`, `RPG::`) -/

/-- The item categories `RPG::Item::Type_*`. -/
inductive ItemType where
  | Type_normal | Type_weapon | Type_shield | Type_armor | Type_helmet
  | Type_accessory | Type_medicine | Type_book | Type_material
  | Type_special | Type_switch
  deriving DecidableEq, Repr, Inhabited

/-- The fields of `RPG::Item` that `game_actor.cpp` reads. -/
structure Item where
  type : ItemType := ItemType.Type_normal
  skill_id : Int := 0
  max_hp_points : Int := 0
  max_sp_points : Int := 0
  atk_points1 : Int := 0
  def_points1 : Int := 0
  spi_points1 : Int := 0
  agi_points1 : Int := 0
  atk_points2 : Int := 0
  def_points2 : Int := 0
  spi_points2 : Int := 0
  agi_points2 : Int := 0
  actor_set : List Bool := []
  deriving DecidableEq, Repr, Inhabited

/-- One entry of an archetype's skill list, `RPG::Learning`. -/
structure Learning where
  level : Int
  skill_id : Int
  deriving DecidableEq, Repr, Inhabited

/-- The per-level stat tables `RPG::Parameters`; entry `level - 1` belongs to
`level`. -/
structure Parameters where
  maxhp : List Int := []
  maxsp : List Int := []
  attack : List Int := []
  defense : List Int := []
  spirit : List Int := []
  agility : List Int := []
  deriving DecidableEq, Repr, Inhabited

/-- The fields of `RPG::Actor` read here (`Data::actors[data.ID - 1]`). -/
structure Actor where
  final_level : Int := 1
  parameters : Parameters := {}
  skills : List Learning := []
  exp_base : Int := 0
  exp_inflation : Int := 0
  exp_correction : Int := 0
  battle_x : Int := 0
  battle_y : Int := 0
  deriving DecidableEq, Repr, Inhabited

/-- The fields of `RPG::Class` read here (`Data::classes[data.class_id - 1]`). -/
structure Class where
  parameters : Parameters := {}
  exp_base : Int := 0
  exp_inflation : Int := 0
  exp_correction : Int := 0
  deriving DecidableEq, Repr, Inhabited

/-- The field of `RPG::Skill` read here. -/
structure Skill where
  name : String := ""
  deriving DecidableEq, Repr, Inhabited

/-- The strings of `Data::terms` used by the level-up message. -/
structure Terms where
  level : String := ""
  level_up : String := ""
  skill_learned : String := ""
  deriving DecidableEq, Repr, Inhabited

/-- Everything `game_actor.cpp` reads but does not own: the engine variant
`Player::IsRPG2k()`, the archetype `Data::actors[data.ID - 1]` of this actor,
and the class, item, skill and term tables. -/
structure Env where
  is_rpg2k : Bool := true
  actor : Actor := {}
  classes : List Class := []
  items : List Item := []
  skills : List Skill := []
  terms : Terms := {}

/-! ## Mutable state -/

/-- The actor: the persisted record `data` (flattened) and the cached table
`exp_list`. -/
structure Game_Actor where
  ID : Int := 1
  name : String := ""
  level : Int := 1
  exp : Int := 0
  current_hp : Int := 0
  current_sp : Int := 0
  hp_mod : Int := 0
  sp_mod : Int := 0
  attack_mod : Int := 0
  defense_mod : Int := 0
  spirit_mod : Int := 0
  agility_mod : Int := 0
  equipped : List Int := [0, 0, 0, 0, 0]
  skills : List Int := []
  status : List Int := []
  changed_class : Bool := false
  class_id : Int := 0
  two_weapon : Bool := false
  row : Int := 0
  exp_list : List Int := []
  deriving DecidableEq, Repr, Inhabited

/-- The global message queue `Game_Message::texts` with its flag
`Game_Message::message_waiting`. -/
structure Game_Message where
  texts : List String := []
  message_waiting : Bool := false
  deriving DecidableEq, Repr, Inhabited

/-! ## Constants -/

/-- Embeds `max_hp_value()`. -/
def max_hp_value (env : Env) : Int := if env.is_rpg2k then 999 else 9999

/-- Embeds `max_other_stat_value()`. -/
def max_other_stat_value : Int := 999

/-- Embeds `max_exp_value()`. -/
def max_exp_value (env : Env) : Int := if env.is_rpg2k then 999999 else 9999999

/-! ## Skill registry -/

/-- Embeds `Game_Actor::IsSkillLearned`: `std::find` over the stored 16-bit ids,
compared as `int`. -/
def IsSkillLearned (a : Game_Actor) (skill_id : Int) : Bool :=
  decide (skill_id ∈ a.skills)

/-- Embeds `Game_Actor::LearnSkill`: returns the result flag and the new state. The
id is stored through `(int16_t)` and the vector is re-sorted ascending. -/
def LearnSkill (a : Game_Actor) (skill_id : Int) : Bool × Game_Actor :=
  if skill_id > 0 ∧ IsSkillLearned a skill_id = false then
    (true, { a with skills := List.insertionSort (fun x y => x ≤ y)
                                (a.skills ++ [toInt16 skill_id]) })
  else
    (false, a)

/-! ## Equipment slots -/

/-- Embeds `Game_Actor::GetEquipment`. -/
def GetEquipment (env : Env) (a : Game_Actor) (equip_type : Int) : Int :=
  if equip_type < 0 ∨ equip_type ≥ (a.equipped.length : Int) then -1
  else
    let item_id := vecGet a.equipped equip_type
    if item_id ≤ (env.items.length : Int) then item_id else 0

/-- Embeds `Game_Actor::SetEquipment`: returns the result and the new state; the new
id is stored through `(short)`. -/
def SetEquipment (env : Env) (a : Game_Actor) (equip_type new_item_id : Int) :
    Int × Game_Actor :=
  if equip_type < 0 ∨ equip_type ≥ (a.equipped.length : Int) then (-1, a)
  else
    let old_item_id := vecGet a.equipped equip_type
    let old_item_id := if old_item_id > (env.items.length : Int) then 0 else old_item_id
    (old_item_id,
      { a with equipped := a.equipped.set equip_type.toNat (toInt16 new_item_id) })

/-! ## Stat resolver -/

/-- The table set of the effective archetype: the class
`Data::classes[data.class_id - 1]` when `data.changed_class`, the actor
`Data::actors[data.ID - 1]` otherwise. -/
def effectiveParameters (env : Env) (a : Game_Actor) : Parameters :=
  if a.changed_class then (vecGet env.classes (a.class_id - 1)).parameters
  else env.actor.parameters

/-- The loop over `data.equipped` shared by the four equipment-aware getters:
every stored id `it` with `it > 0 && it <= Data::items.size()` adds the bonus
`f` of `Data::items[it - 1]`. -/
def addEquipped (env : Env) (f : Item → Int) (equipped : List Int) (n : Int) : Int :=
  equipped.foldl
    (fun n it =>
      if it > 0 ∧ it ≤ (env.items.length : Int) then n + f (vecGet env.items (it - 1))
      else n)
    n

/-- Embeds `Game_Actor::GetBaseMaxHp(bool mod)`. -/
def GetBaseMaxHp (env : Env) (a : Game_Actor) (mod : Bool) : Int :=
  let n := vecGet (effectiveParameters env a).maxhp (a.level - 1)
  let n := if mod then n + a.hp_mod else n
  min (max n 1) (max_hp_value env)

/-- Embeds `Game_Actor::GetBaseMaxSp(bool mod)`. -/
def GetBaseMaxSp (env : Env) (a : Game_Actor) (mod : Bool) : Int :=
  let n := vecGet (effectiveParameters env a).maxsp (a.level - 1)
  let n := if mod then n + a.sp_mod else n
  min (max n 0) max_other_stat_value

/-- Embeds `Game_Actor::GetBaseAtk(bool mod, bool equip)`. -/
def GetBaseAtk (env : Env) (a : Game_Actor) (mod equip : Bool) : Int :=
  let n := vecGet (effectiveParameters env a).attack (a.level - 1)
  let n := if mod then n + a.attack_mod else n
  let n := if equip then addEquipped env (fun i => i.atk_points1) a.equipped n else n
  min (max n 1) max_other_stat_value

/-- Embeds `Game_Actor::GetBaseDef(bool mod, bool equip)`. -/
def GetBaseDef (env : Env) (a : Game_Actor) (mod equip : Bool) : Int :=
  let n := vecGet (effectiveParameters env a).defense (a.level - 1)
  let n := if mod then n + a.defense_mod else n
  let n := if equip then addEquipped env (fun i => i.def_points1) a.equipped n else n
  min (max n 1) max_other_stat_value

/-- Embeds `Game_Actor::GetBaseSpi(bool mod, bool equip)`. -/
def GetBaseSpi (env : Env) (a : Game_Actor) (mod equip : Bool) : Int :=
  let n := vecGet (effectiveParameters env a).spirit (a.level - 1)
  let n := if mod then n + a.spirit_mod else n
  let n := if equip then addEquipped env (fun i => i.spi_points1) a.equipped n else n
  min (max n 1) max_other_stat_value

/-- Embeds `Game_Actor::GetBaseAgi(bool mod, bool equip)`. -/
def GetBaseAgi (env : Env) (a : Game_Actor) (mod equip : Bool) : Int :=
  let n := vecGet (effectiveParameters env a).agility (a.level - 1)
  let n := if mod then n + a.agility_mod else n
  let n := if equip then addEquipped env (fun i => i.agi_points1) a.equipped n else n
  min (max n 1) max_other_stat_value

/-- Modelled from the spec: `Game_Battler::GetMaxHp` is not part of this file's
source; the spec's `maxHp` is the stat resolver's maximum HP with the modifier
included, `GetBaseMaxHp()`. -/
def GetMaxHp (env : Env) (a : Game_Actor) : Int := GetBaseMaxHp env a true

/-- Modelled from the spec: `Game_Battler::GetMaxSp` is not part of this file's
source; the spec's `maxSp` is the stat resolver's maximum SP with the modifier
included, `GetBaseMaxSp()`. -/
def GetMaxSp (env : Env) (a : Game_Actor) : Int := GetBaseMaxSp env a true

/-! ## HP and SP -/

/-- Embeds `Game_Actor::GetHp`. -/
def GetHp (a : Game_Actor) : Int := a.current_hp

/-- Embeds `Game_Actor::GetSp`. -/
def GetSp (a : Game_Actor) : Int := a.current_sp

/-- Embeds `Game_Actor::SetHp`. -/
def SetHp (env : Env) (a : Game_Actor) (hp : Int) : Game_Actor :=
  { a with current_hp := min (max hp 0) (GetMaxHp env a) }

/-- Embeds `Game_Actor::SetSp`. -/
def SetSp (env : Env) (a : Game_Actor) (sp : Int) : Game_Actor :=
  { a with current_sp := min (max sp 0) (GetMaxSp env a) }

/-! ## Level and experience -/

/-- Embeds `Game_Actor::GetLevel`. -/
def GetLevel (a : Game_Actor) : Int := a.level

/-- Embeds `Game_Actor::GetMaxLevel`. -/
def GetMaxLevel (env : Env) : Int := env.actor.final_level

/-- Embeds `Game_Actor::GetExp`. -/
def GetExp (a : Game_Actor) : Int := a.exp

/-- Embeds `Game_Actor::GetNextExp(int level)`: the sentinel `-1` outside
`0 < level < GetMaxLevel()`, the table entry `exp_list[level]` otherwise. -/
def GetNextExp (env : Env) (a : Game_Actor) (level : Int) : Int :=
  if level ≥ GetMaxLevel env ∨ level ≤ 0 then -1 else vecGet a.exp_list level

/-- Embeds `Game_Actor::GetBaseExp(int level)`. -/
def GetBaseExp (env : Env) (a : Game_Actor) (level : Int) : Int :=
  GetNextExp env a (level - 1)

/-- Embeds `Game_Actor::SetExp`. -/
def SetExp (env : Env) (a : Game_Actor) (_exp : Int) : Game_Actor :=
  { a with exp := min (max _exp 0) (max_exp_value env) }

/-- Embeds `Game_Actor::SetLevel`. -/
def SetLevel (env : Env) (a : Game_Actor) (_level : Int) : Game_Actor :=
  { a with level := min (max _level 1) (GetMaxLevel env) }

/-- Embeds `texts.back().append(s)`: the last queued line gets `s` appended. -/
def appendToBack : List String → String → List String
  | [], _ => []
  | [x], s => [x ++ s]
  | x :: y :: rest, s => x :: appendToBack (y :: rest) s

/-- The level-up line `data.name " " terms.level " " new_level terms.level_up`. -/
def levelUpLine (env : Env) (a : Game_Actor) (new_level : Int) : String :=
  a.name ++ " " ++ env.terms.level ++ " " ++ toString new_level ++ env.terms.level_up

/-- The skill line `Data::skills[skill_id - 1].name terms.skill_learned`. -/
def skillLine (env : Env) (skill_id : Int) : String :=
  (vecGet env.skills (skill_id - 1)).name ++ env.terms.skill_learned

/-- The mutable variables of the skill loop in `ChangeLevel`: the actor, the
message queue and the local flag `level_up`. -/
structure LevelLoop where
  actor : Game_Actor
  msg : Game_Message
  level_up : Bool
  deriving DecidableEq, Repr, Inhabited

/-- One iteration of the loop `for (it = skills.begin(); ...)` of
`ChangeLevel`. -/
def learnStep (env : Env) (old_level new_level : Int) (level_up_message : Bool)
    (st : LevelLoop) (it : Learning) : LevelLoop :=
  if it.level > old_level ∧ it.level ≤ new_level then
    let r := LearnSkill st.actor it.skill_id
    if r.1 = true ∧ level_up_message = true then
      { actor := r.2
        msg := { st.msg with texts := st.msg.texts ++ [skillLine env it.skill_id] }
        level_up := true }
    else
      { st with actor := r.2 }
  else st

/-- The level-up block of `ChangeLevel` up to the end of the skill loop: the
level-up line is queued when `level_up_message` is set, then the loop over the
archetype's skill list runs. -/
def levelUpLoop (env : Env) (a : Game_Actor) (m : Game_Message)
    (old_level new_level : Int) (level_up_message : Bool) : LevelLoop :=
  let st : LevelLoop :=
    if level_up_message then
      { actor := a
        msg := { m with texts := m.texts ++ [levelUpLine env a new_level] }
        level_up := true }
    else { actor := a, msg := m, level_up := false }
  env.actor.skills.foldl (learnStep env old_level new_level level_up_message) st

/-- The block `if (level_up) { texts.back().append("\f"); message_waiting = true; }`
of `ChangeLevel`. -/
def levelUpFlush (st : LevelLoop) : Game_Message :=
  if st.level_up then
    { texts := appendToBack st.msg.texts "\x0c", message_waiting := true }
  else st.msg

/-- Embeds `Game_Actor::ChangeLevel`. -/
def ChangeLevel (env : Env) (a : Game_Actor) (m : Game_Message) (new_level : Int)
    (level_up_message : Bool) : Game_Actor × Game_Message :=
  let old_level := GetLevel a
  let a := SetLevel env a new_level
  let new_level := GetLevel a
  if new_level > old_level then
    let st := levelUpLoop env a m old_level new_level level_up_message
    let m := levelUpFlush st
    let a := st.actor
    (SetExp env a (max (GetBaseExp env a (GetLevel a)) (GetExp a)), m)
  else if new_level < old_level then
    let a := SetHp env a (GetHp a)
    let a := SetSp env a (GetSp a)
    if GetExp a ≥ GetNextExp env a (GetLevel a) then
      (SetExp env a (GetBaseExp env a (GetLevel a)), m)
    else (a, m)
  else (a, m)

/-- The upward loop of `ChangeExp`,
`for (i = GetLevel() + 1; i <= GetMaxLevel(); ++i)`: the first argument is the
number of iterations left, `GetMaxLevel() - i + 1`; the loop variable itself is
not read by the body. -/
def scanUp (env : Env) (a : Game_Actor) (new_exp : Int) : Nat → Int → Int
  | 0, new_level => new_level
  | k + 1, new_level =>
    if GetNextExp env a new_level ≠ -1 ∧ GetNextExp env a new_level > new_exp then new_level
    else scanUp env a new_exp k (new_level + 1)

/-- The downward loop of `ChangeExp`, `for (i = GetLevel(); i > 1; --i)`: the
first argument is the number of iterations left, `i - 1`. -/
def scanDown (env : Env) (a : Game_Actor) (new_exp : Int) : Nat → Int → Int → Int
  | 0, _, new_level => new_level
  | k + 1, i, new_level =>
    if new_exp ≥ GetNextExp env a (i - 1) then new_level
    else scanDown env a new_exp k (i - 1) (new_level - 1)

/-- Embeds `Game_Actor::ChangeExp`. -/
def ChangeExp (env : Env) (a : Game_Actor) (m : Game_Message) (exp : Int)
    (level_up_message : Bool) : Game_Actor × Game_Message :=
  let new_level := GetLevel a
  let new_exp := min (max exp 0) (max_exp_value env)
  let new_level :=
    if new_exp > GetExp a then
      scanUp env a new_exp (GetMaxLevel env - GetLevel a).toNat new_level
    else if new_exp < GetExp a then
      scanDown env a new_exp (GetLevel a - 1).toNat (GetLevel a) new_level
    else new_level
  let a := SetExp env a new_exp
  if new_level ≠ a.level then ChangeLevel env a m new_level level_up_message
  else (a, m)

/-! ## Experience table -/

/-- The `double` factor `(level+1) * 0.002 + 0.8` of the RPG2k loop of
`CalculateExp`. -/
def inflationFactor (level : Int) : Option ℚ :=
  dadd (dmul (intToDouble (wrapInt32 (level + 1))) (toDouble (2 / 1000))) (toDouble (8 / 10))

/-- The update `inflation = ((level+1) * 0.002 + 0.8) * (inflation - 1) + 1` of
the RPG2k loop of `CalculateExp`. -/
def nextInflation (level : Int) (inflation : Option ℚ) : Option ℚ :=
  dadd (dmul (inflationFactor level) (dsub inflation (intToDouble 1))) (intToDouble 1)

/-- Embeds the RPG2k loop of `CalculateExp`
(`for (int i = level; i >= 1; i--)`), `n` iterations from the state `result`,
`base`, `inflation`: the truncated `correction + base` is added to `result`,
`base` is multiplied by `inflation`, and `inflation` is updated. -/
def expLoopRpg2k (level : Int) (correction : Option ℚ) :
    Nat → Int → Option ℚ → Option ℚ → Int
  | 0, result, _, _ => result
  | n + 1, result, base, inflation =>
    expLoopRpg2k level correction n
      (wrapInt32 (result + doubleToInt (dadd correction base)))
      (dmul base inflation)
      (nextInflation level inflation)

/-- Embeds the RPG2k3 loop of `CalculateExp` (`for (int i = 1; i <= level; i++)`)
run to `level`: three `+=` on the 32-bit `result`. The `double` locals hold the
integer database values, which `(int)` gives back. -/
def expLoopRpg2k3 (base inflation correction : Int) (level : Nat) : Int :=
  (List.range' 1 level).foldl
    (fun (result : Int) (i : Nat) =>
      wrapInt32 (wrapInt32 (wrapInt32 (result + base) + wrapInt32 ((i : Int) * inflation)) +
        correction))
    0

/-- Embeds `Game_Actor::CalculateExp`. -/
def CalculateExp (env : Env) (a : Game_Actor) (level : Int) : Int :=
  let base := if a.changed_class then (vecGet env.classes (a.class_id - 1)).exp_base
    else env.actor.exp_base
  let inflation := if a.changed_class then (vecGet env.classes (a.class_id - 1)).exp_inflation
    else env.actor.exp_inflation
  let correction := if a.changed_class then (vecGet env.classes (a.class_id - 1)).exp_correction
    else env.actor.exp_correction
  let result :=
    if env.is_rpg2k then
      expLoopRpg2k level (intToDouble correction) level.toNat 0 (intToDouble base)
        (dadd (toDouble (15 / 10)) (dmul (intToDouble inflation) (toDouble (1 / 100))))
    else expLoopRpg2k3 base inflation correction level.toNat
  min result (max_exp_value env)

/-- Embeds `std::vector::resize(n, value)`. -/
def vecResize (v : List Int) (n : Int) (value : Int) : List Int :=
  v.take n.toNat ++ List.replicate (n.toNat - v.length) value

/-- Embeds `Game_Actor::MakeExpList`. -/
def MakeExpList (env : Env) (a : Game_Actor) : Game_Actor :=
  let final_level := env.actor.final_level
  let exp_list := vecResize a.exp_list final_level 0
  let exp_list := (List.range' 1 (final_level.toNat - 1)).foldl
    (fun l i => l.set i (CalculateExp env a i)) exp_list
  { a with exp_list := exp_list }

/-- Embeds `Game_Actor::SetClass`. -/
def SetClass (env : Env) (a : Game_Actor) (_class_id : Int) : Game_Actor :=
  MakeExpList env { a with class_id := _class_id }

/-! ## Status conditions (generic battler) -/

/-- Modelled from the spec: `Game_Battler::RemoveAllStates` is not part of this
file's source; the set of active state ids becomes empty. -/
def RemoveAllStates (a : Game_Actor) : Game_Actor := { a with status := [] }

/-- Modelled from the spec: `Game_Battler::AddState` is not part of this file's
source; the id joins the set of active state ids. -/
def AddState (a : Game_Actor) (state_id : Int) : Game_Actor :=
  if state_id ∈ a.status then a
  else { a with status := List.insertionSort (fun x y => x ≤ y) (a.status ++ [state_id]) }

/-- Modelled from the spec: `Game_Battler::RemoveState` is not part of this
file's source; the id leaves the set of active state ids. -/
def RemoveState (a : Game_Actor) (state_id : Int) : Game_Actor :=
  { a with status := a.status.filter (fun s => s ≠ state_id) }

/-- Modelled from the spec: `Game_Battler::IsDead` is not part of this file's
source; the actor is incapacitated when it carries the death state, id 1, the
state `ChangeHp` adds at 0 HP. -/
def IsDead (a : Game_Actor) : Bool := decide ((1 : Int) ∈ a.status)

/-! ## Mutators of HP, SP and the permanent modifiers -/

/-- Embeds `Game_Actor::ChangeHp`. -/
def ChangeHp (env : Env) (a : Game_Actor) (hp : Int) : Game_Actor :=
  let a := SetHp env a (GetHp a + hp)
  if a.current_hp = 0 then
    AddState (RemoveAllStates a) 1
  else
    let a := RemoveState a 1
    if GetHp a ≤ 0 then SetHp env a 1 else a

/-- Embeds `Game_Actor::SetBaseMaxHp`. -/
def SetBaseMaxHp (env : Env) (a : Game_Actor) (maxhp : Int) : Game_Actor :=
  let a := { a with hp_mod := a.hp_mod + (maxhp - GetBaseMaxHp env a true) }
  SetHp env a a.current_hp

/-- Embeds `Game_Actor::SetBaseMaxSp`. -/
def SetBaseMaxSp (env : Env) (a : Game_Actor) (maxsp : Int) : Game_Actor :=
  let a := { a with sp_mod := a.sp_mod + (maxsp - GetBaseMaxSp env a true) }
  SetSp env a a.current_sp

/-- Embeds `Game_Actor::SetBaseAtk`. -/
def SetBaseAtk (env : Env) (a : Game_Actor) (atk : Int) : Game_Actor :=
  { a with attack_mod := a.attack_mod + (atk - GetBaseAtk env a true true) }

/-- Embeds `Game_Actor::SetBaseDef`. -/
def SetBaseDef (env : Env) (a : Game_Actor) (_def : Int) : Game_Actor :=
  { a with defense_mod := a.defense_mod + (_def - GetBaseDef env a true true) }

/-- Embeds `Game_Actor::SetBaseSpi`. -/
def SetBaseSpi (env : Env) (a : Game_Actor) (spi : Int) : Game_Actor :=
  { a with spirit_mod := a.spirit_mod + (spi - GetBaseSpi env a true true) }

/-- Embeds `Game_Actor::SetBaseAgi`. -/
def SetBaseAgi (env : Env) (a : Game_Actor) (agi : Int) : Game_Actor :=
  { a with agility_mod := a.agility_mod + (agi - GetBaseAgi env a true true) }

/-- Embeds `Game_Actor::UseItem`. The generic path `Game_Battler::UseItem` is not part
of this file's source and is the parameter `battlerUseItem`. The unguarded read
`Data::items[item_id - 1]` makes the result `none` for an id outside the
catalog. -/
def UseItem (env : Env) (battlerUseItem : Game_Actor → Int → Bool × Game_Actor)
    (a : Game_Actor) (item_id : Int) : Option (Bool × Game_Actor) :=
  if item_id < 1 ∨ item_id > (env.items.length : Int) then none
  else
    let item := vecGet env.items (item_id - 1)
    if IsDead a = true ∧ item.type ≠ ItemType.Type_medicine then some (false, a)
    else if item.type = ItemType.Type_book then some (LearnSkill a item.skill_id)
    else if item.type = ItemType.Type_material then
      let a := SetBaseMaxHp env a (GetBaseMaxHp env a true + item.max_hp_points)
      let a := SetBaseMaxSp env a (GetBaseMaxSp env a true + item.max_sp_points)
      let a := SetBaseAtk env a (GetBaseAtk env a true true + item.atk_points2)
      let a := SetBaseDef env a (GetBaseDef env a true true + item.def_points2)
      let a := SetBaseAgi env a (GetBaseAgi env a true true + item.agi_points2)
      let a := SetBaseSpi env a (GetBaseSpi env a true true + item.spi_points2)
      some (true, a)
    else some (battlerUseItem a item_id)

/-! ## Predicates and sample data -/

/-- The level `ChangeExp` hands to `ChangeLevel`: the result of the scan that
applies to the clamped target `e`. -/
def scannedLevel (env : Env) (a : Game_Actor) (e : Int) : Int :=
  if e > a.exp then scanUp env a e (GetMaxLevel env - a.level).toNat a.level
  else if e < a.exp then scanDown env a e (a.level - 1).toNat a.level a.level
  else a.level

/-- The spec's `minExpForLevel(L)`: the table entry `exp_list[L - 1]`. -/
def minExpForLevel (a : Game_Actor) (L : Int) : Int := vecGet a.exp_list (L - 1)

/-- The experience table is non-decreasing. -/
def ExpListNonDecreasing (a : Game_Actor) : Prop := a.exp_list.Sorted (fun x y => x ≤ y)

instance (a : Game_Actor) : Decidable (ExpListNonDecreasing a) := by
  unfold ExpListNonDecreasing; infer_instance

/-- The level is within `[1, maxLevel]`. -/
def LevelInRange (env : Env) (a : Game_Actor) : Prop :=
  1 ≤ a.level ∧ a.level ≤ GetMaxLevel env

instance (env : Env) (a : Game_Actor) : Decidable (LevelInRange env a) := by
  unfold LevelInRange; infer_instance

/-- Level/experience consistency: `experience >= minExpForLevel(level)` and
(`level == maxLevel` or `experience < minExpForLevel(level + 1)`). -/
def LevelExpConsistent (env : Env) (a : Game_Actor) : Prop :=
  minExpForLevel a a.level ≤ a.exp ∧
    (a.level = GetMaxLevel env ∨ a.exp < minExpForLevel a (a.level + 1))

instance (env : Env) (a : Game_Actor) : Decidable (LevelExpConsistent env a) := by
  unfold LevelExpConsistent; infer_instance

/-- What `MakeExpList` establishes about `exp_list`: it has `final_level`
entries, entry 0 (level 1) is 0, and every entry is at most `max_exp_value()`
(the `min` at the end of `CalculateExp`). -/
def ExpListWF (env : Env) (a : Game_Actor) : Prop :=
  (a.exp_list.length : Int) = GetMaxLevel env ∧ a.exp_list.head? = some 0 ∧
    ∀ x ∈ a.exp_list, x ≤ max_exp_value env

instance (env : Env) (a : Game_Actor) : Decidable (ExpListWF env a) := by
  unfold ExpListWF; infer_instance

/-- A three-level archetype. -/
def threeLevelEnv : Env :=
  { actor := { final_level := 3
               parameters := { maxhp := [10, 20, 30], maxsp := [5, 8, 11],
                               attack := [3, 4, 5], defense := [3, 4, 5],
                               spirit := [3, 4, 5], agility := [3, 4, 5] } } }

/-- A level-1 actor over the table `[0, 10, 10]`, whose last two thresholds coincide. -/
def plateauActor : Game_Actor := { level := 1, exp := 0, exp_list := [0, 10, 10] }

/-- A level-1 actor over the strictly increasing table `[0, 10, 20]`. -/
def strictActor : Game_Actor := { level := 1, exp := 0, exp_list := [0, 10, 20] }

/-- A level-3 actor with experience 30 over the table `[0, 10, 20]`. -/
def topActor : Game_Actor := { level := 3, exp := 30, exp_list := [0, 10, 20] }

/-- The HP/SP invariant: `0 <= currentHp <= maxHp` and `0 <= currentSp <= maxSp`. -/
def HpSpWithinMax (env : Env) (a : Game_Actor) : Prop :=
  0 ≤ a.current_hp ∧ a.current_hp ≤ GetMaxHp env a ∧
    0 ≤ a.current_sp ∧ a.current_sp ≤ GetMaxSp env a

instance (env : Env) (a : Game_Actor) : Decidable (HpSpWithinMax env a) := by
  unfold HpSpWithinMax; infer_instance

/-- The maximum-HP and maximum-SP tables of the effective archetype cover every
level up to `final_level` and are non-decreasing in the level. -/
def StatTablesNonDecreasing (env : Env) (a : Game_Actor) : Prop :=
  (effectiveParameters env a).maxhp.Sorted (fun x y => x ≤ y) ∧
  (effectiveParameters env a).maxsp.Sorted (fun x y => x ≤ y) ∧
  GetMaxLevel env ≤ ((effectiveParameters env a).maxhp.length : Int) ∧
  GetMaxLevel env ≤ ((effectiveParameters env a).maxsp.length : Int)

instance (env : Env) (a : Game_Actor) : Decidable (StatTablesNonDecreasing env a) := by
  unfold StatTablesNonDecreasing; infer_instance

/-- A two-level archetype whose maxima rise with the level, and two classes with
lower maxima. -/
def statEnv : Env :=
  { actor := { final_level := 2, parameters := { maxhp := [10, 20], maxsp := [5, 8] } }
    classes := [{ parameters := { maxhp := [3, 3], maxsp := [1, 1] } },
                { parameters := { maxhp := [2, 2], maxsp := [1, 1] } }] }

/-- A level-2 actor of `statEnv` at full HP and SP. -/
def fullActor : Game_Actor := { level := 2, current_hp := 20, current_sp := 8, exp_list := [0, 10] }

/-- A level-2 actor of `statEnv` whose class was changed to class 1, at full HP
and SP of that class. -/
def classedActor : Game_Actor :=
  { level := 2, current_hp := 3, current_sp := 1, changed_class := true, class_id := 1,
    exp_list := [0, 10] }

/-- A two-level archetype whose maximum HP falls from level 1 to level 2. -/
def fallingEnv : Env :=
  { actor := { final_level := 2, parameters := { maxhp := [20, 10], maxsp := [5, 5] } } }

/-- A level-1 actor of `fallingEnv` at full HP and SP. -/
def freshActor : Game_Actor := { level := 1, current_hp := 20, current_sp := 5, exp_list := [0, 10] }

/-- An archetype whose level-2 skill has an id beyond the 16-bit storage. -/
def wideSkillEnv : Env :=
  { actor := { final_level := 2, skills := [{ level := 2, skill_id := 40000 }] } }

/-- A level-1 actor over the table `[0, 10]`. -/
def noviceActor : Game_Actor := { level := 1, exp := 0, exp_list := [0, 10] }

/-- A level-1 actor whose stored experience is above `max_exp_value()`. -/
def overflowingActor : Game_Actor := { level := 1, exp := 2000000, exp_list := [0, 10] }

/-- An archetype that teaches skill 7 at level 2. -/
def teachingEnv : Env :=
  { actor := { final_level := 2, skills := [{ level := 2, skill_id := 7 }]
               parameters := { maxhp := [10, 20], maxsp := [5, 8] } }
    skills := [{ name := "s1" }, { name := "s2" }, { name := "s3" }, { name := "s4" },
               { name := "s5" }, { name := "s6" }, { name := "Heal" }] }

/-- The condition under which one iteration of the skill loop learns a skill. -/
def learnFires (o n : Int) (st : LevelLoop) (it : Learning) : Prop :=
  (it.level > o ∧ it.level ≤ n) ∧ it.skill_id > 0 ∧ it.skill_id ∉ st.actor.skills

instance (o n : Int) (st : LevelLoop) (it : Learning) : Decidable (learnFires o n st it) := by
  unfold learnFires; infer_instance

/-- A three-level archetype over thresholds `[0, 10, 20]` that teaches skill 7 at
level 2 and skills 5 and 7 at level 3. -/
def schoolEnv : Env :=
  { actor := { final_level := 3
               skills := [{ level := 2, skill_id := 7 }, { level := 3, skill_id := 5 },
                          { level := 3, skill_id := 7 }] }
    skills := [{ name := "s1" }, { name := "s2" }, { name := "s3" }, { name := "s4" },
               { name := "Fire" }, { name := "s6" }, { name := "Heal" }]
    terms := { level := "Lv", level_up := " up!", skill_learned := " learned" } }

/-- A three-level archetype whose level-2 skill has an id beyond the 16-bit
storage, over a skill catalog of 40000 entries, so that the id names a skill of
the catalog. -/
def wideSchoolEnv : Env :=
  { actor := { final_level := 3, skills := [{ level := 2, skill_id := 40000 }]
               parameters := { maxhp := [10, 20, 30], maxsp := [5, 8, 11] } }
    skills := List.replicate 40000 { name := "Spell" }
    terms := { level := "Lv", level_up := " up!", skill_learned := " learned" } }

/-- A named level-1 actor over the table `[0, 10, 20]`. -/
def heroActor : Game_Actor := { name := "Hero", level := 1, exp := 0, exp_list := [0, 10, 20] }

/-- Spec wording: `clamp(x, lo, hi)`. -/
def clampSpec (x lo hi : Int) : Int := if x < lo then lo else if hi < x then hi else x

/-- Spec wording: the bonus one slot contributes, counting only an id `i` with
`0 < i <= item catalog size`. -/
def slotBonusSpec (env : Env) (f : Item → Int) (item_id : Int) : Int :=
  if 0 < item_id ∧ item_id ≤ (env.items.length : Int) then f (vecGet env.items (item_id - 1))
  else 0

/-- Spec wording: the sum over the five slots of the item's bonus for one stat. -/
def equipSumSpec (env : Env) (f : Item → Int) (a : Game_Actor) : Int :=
  ((List.range 5).map (fun slot => slotBonusSpec env f (vecGet a.equipped slot))).sum

/-- Spec wording: the stat tables of the effective archetype: those of the
class the actor has changed to (class number `class_id` of the catalog) when it
has changed class, those of its actor entry otherwise; `none` when the class id
names no class of the catalog. -/
def effectiveArchetypeSpec (env : Env) (a : Game_Actor) : Option Parameters :=
  if a.changed_class then
    if 1 ≤ a.class_id then
      (env.classes.get? (a.class_id - 1).toNat).map (fun k => k.parameters)
    else none
  else some env.actor.parameters

/-- Spec wording: `tableValue(level)`, the entry a per-level table holds for
`level` (the entry of index `level - 1`); `none` when the level is outside the
table. -/
def tableValueSpec (table : List Int) (level : Int) : Option Int :=
  if 1 ≤ level then table.get? (level - 1).toNat else none

/-- Spec wording: the clamped layered sum `clamp(tableValue + (modifier if mod) +
(equipment sum if equip), lo, hi)`. -/
def layeredStatSpec (env : Env) (a : Game_Actor) (tableValue : Int) (modifier : Int)
    (f : Item → Int) (mod equip : Bool) (lo hi : Int) : Int :=
  clampSpec
    (tableValue + (if mod then modifier else 0) +
      (if equip then equipSumSpec env f a else 0))
    lo hi

/-- A catalog of two items (a sword with attack bonus 10, a charm with spirit
bonus 4) and a two-level archetype. -/
def gearEnv : Env :=
  { actor := { final_level := 2
               parameters := { maxhp := [10, 20], maxsp := [5, 8], attack := [3, 6],
                               defense := [2, 4], spirit := [1, 2], agility := [7, 9] } }
    items := [{ type := ItemType.Type_weapon, atk_points1 := 10 },
              { type := ItemType.Type_accessory, spi_points1 := 4 }] }

/-- A level-2 actor of `gearEnv` holding the sword, an id beyond the catalog in
the shield slot, and the charm. -/
def gearedActor : Game_Actor :=
  { level := 2, attack_mod := 1, equipped := [1, 9, 0, 0, 2], exp_list := [0, 10] }

/-- A catalog of one class, whose tables differ from the actor entry's, and the
items of `gearEnv`. -/
def guildEnv : Env :=
  { actor := { final_level := 2
               parameters := { maxhp := [10, 20], maxsp := [5, 8], attack := [3, 6],
                               defense := [2, 4], spirit := [1, 2], agility := [7, 9] } }
    classes := [{ parameters := { maxhp := [100, 200], maxsp := [50, 80], attack := [30, 60],
                                  defense := [20, 40], spirit := [11, 12],
                                  agility := [70, 90] } }]
    items := [{ type := ItemType.Type_weapon, atk_points1 := 10 },
              { type := ItemType.Type_accessory, spi_points1 := 4 }] }

/-- A level-2 actor that has changed to class 1, holding the sword, an id
beyond the catalog in the shield slot, and the charm. -/
def knightActor : Game_Actor :=
  { level := 2, attack_mod := 1, hp_mod := 5, equipped := [1, 9, 0, 0, 2],
    changed_class := true, class_id := 1, exp_list := [0, 10] }

/-- A catalog of 40000 items, more than a 16-bit slot can name. -/
def hugeCatalogEnv : Env := { items := List.replicate 40000 {} }

/-- An actor with five empty slots. -/
def bareActor : Game_Actor := { equipped := [0, 0, 0, 0, 0] }

/-- An actor that knows skills 3 and 9. -/
def skilledActor : Game_Actor := { skills := [3, 9] }

/-- Embeds `Game_Actor::UnlearnSkill`: `std::find` locates the first stored id
equal to `skill_id` and `erase` removes that element. -/
def UnlearnSkill (a : Game_Actor) (skill_id : Int) : Bool × Game_Actor :=
  if skill_id ∈ a.skills then (true, { a with skills := a.skills.erase skill_id })
  else (false, a)

/-- The registry is strictly ascending: sorted and without duplicates. -/
def StrictlyAscending (a : Game_Actor) : Prop := a.skills.Sorted (fun x y => x < y)

instance (a : Game_Actor) : Decidable (StrictlyAscending a) := by
  unfold StrictlyAscending; infer_instance

/-- An actor that knows skill 5 only. -/
def oneSkillActor : Game_Actor := { skills := [5] }

/-- The `base` local of `CalculateExp`. -/
def expBase (env : Env) (a : Game_Actor) : Int :=
  if a.changed_class then (vecGet env.classes (a.class_id - 1)).exp_base
  else env.actor.exp_base

/-- The `inflation` local of `CalculateExp` before the loop. -/
def expInflation (env : Env) (a : Game_Actor) : Int :=
  if a.changed_class then (vecGet env.classes (a.class_id - 1)).exp_inflation
  else env.actor.exp_inflation

/-- The `correction` local of `CalculateExp`. -/
def expCorrection (env : Env) (a : Game_Actor) : Int :=
  if a.changed_class then (vecGet env.classes (a.class_id - 1)).exp_correction
  else env.actor.exp_correction

/-- The value of `result` in `CalculateExp` before the final `min`. -/
def expCurve (env : Env) (a : Game_Actor) (level : Int) : Int :=
  if env.is_rpg2k then
    expLoopRpg2k level (intToDouble (expCorrection env a)) level.toNat 0
      (intToDouble (expBase env a))
      (dadd (toDouble (15 / 10)) (dmul (intToDouble (expInflation env a)) (toDouble (1 / 100))))
  else expLoopRpg2k3 (expBase env a) (expInflation env a) (expCorrection env a) level.toNat

/-- Spec wording: the linear accumulation of Variant B in exact integers, for
each level `1..target` the sum `base + level * inflation + correction`. -/
def linearAccumulation (base inflation correction : Int) (target : Nat) : Int :=
  (List.range' 1 target).foldl
    (fun (result : Int) (i : Nat) => result + base + (i : Int) * inflation + correction) 0

/-- No 32-bit overflow in `n` iterations of the RPG2k loop from a state: every
`double` that is converted fits an `int`, and so does every sum. -/
def expLoopRpg2kInRange (level : Int) (correction : Option ℚ) :
    Nat → Int → Option ℚ → Option ℚ → Prop
  | 0, _, _, _ => True
  | n + 1, result, base, inflation =>
    DoubleFitsInt (dadd correction base) ∧
    InInt32 (result + doubleToInt (dadd correction base)) ∧
    expLoopRpg2kInRange level correction n
      (wrapInt32 (result + doubleToInt (dadd correction base)))
      (dmul base inflation)
      (nextInflation level inflation)

/-- No 32-bit overflow in the RPG2k3 loop run to `level`: in every iteration
the product `i * inflation` and the three sums fit an `int`. -/
def expLoopRpg2k3InRange (base inflation correction : Int) (level : Nat) : Prop :=
  ∀ i : Nat, i < level →
    InInt32 (expLoopRpg2k3 base inflation correction i + base) ∧
    InInt32 (((i : Int) + 1) * inflation) ∧
    InInt32 (expLoopRpg2k3 base inflation correction i + base + ((i : Int) + 1) * inflation) ∧
    InInt32 (expLoopRpg2k3 base inflation correction i + base + ((i : Int) + 1) * inflation +
      correction)

instance (base inflation correction : Int) (level : Nat) :
    Decidable (expLoopRpg2k3InRange base inflation correction level) := by
  unfold expLoopRpg2k3InRange; infer_instance

/-- No 32-bit overflow occurs in `CalculateExp(level)`. -/
def CalculateExpInRange (env : Env) (a : Game_Actor) (level : Int) : Prop :=
  if env.is_rpg2k then
    InInt32 (level + 1) ∧
    expLoopRpg2kInRange level (intToDouble (expCorrection env a)) level.toNat 0
      (intToDouble (expBase env a))
      (dadd (toDouble (15 / 10)) (dmul (intToDouble (expInflation env a)) (toDouble (1 / 100))))
  else expLoopRpg2k3InRange (expBase env a) (expInflation env a) (expCorrection env a)
    level.toNat

instance (d : Option ℚ) : Decidable (DoubleFitsInt d) :=
  match d with
  | some q => inferInstanceAs (Decidable (-2147483649 < q ∧ q < 2147483648))
  | none => isFalse (fun h => h)

/-- The predicate `expLoopRpg2kInRange` is decidable, by the recursion that
defines it. -/
def decExpLoopRpg2kInRange (level : Int) (correction : Option ℚ) :
    (n : Nat) → (result : Int) → (base inflation : Option ℚ) →
      Decidable (expLoopRpg2kInRange level correction n result base inflation)
  | 0, _, _, _ => isTrue trivial
  | n + 1, result, base, inflation =>
    have := decExpLoopRpg2kInRange level correction n
      (wrapInt32 (result + doubleToInt (dadd correction base)))
      (dmul base inflation) (nextInflation level inflation)
    inferInstanceAs (Decidable (DoubleFitsInt (dadd correction base) ∧
      InInt32 (result + doubleToInt (dadd correction base)) ∧
      expLoopRpg2kInRange level correction n
        (wrapInt32 (result + doubleToInt (dadd correction base)))
        (dmul base inflation) (nextInflation level inflation)))

instance (level : Int) (correction : Option ℚ) (n : Nat) (result : Int)
    (base inflation : Option ℚ) :
    Decidable (expLoopRpg2kInRange level correction n result base inflation) :=
  decExpLoopRpg2kInRange level correction n result base inflation

instance (env : Env) (a : Game_Actor) (level : Int) :
    Decidable (CalculateExpInRange env a level) := by
  unfold CalculateExpInRange; infer_instance

/-- The RPG2k archetype of the reference curve: five levels, base 40,
inflation 30, correction 0. -/
def goldenEnv : Env :=
  { is_rpg2k := true
    actor := { final_level := 5, exp_base := 40, exp_inflation := 30, exp_correction := 0 } }

/-- An RPG2k3 archetype with four levels and base 2000000000, whose second
accumulation leaves the range of a 32-bit `int`. -/
def steepEnv : Env :=
  { is_rpg2k := false
    actor := { final_level := 4, exp_base := 2000000000, exp_inflation := 0,
               exp_correction := 0 } }

/-- An RPG2k3 archetype with five levels, base 10, inflation 3, correction 1. -/
def curveEnv : Env :=
  { is_rpg2k := false
    actor := { final_level := 5, exp_base := 10, exp_inflation := 3, exp_correction := 1 } }

/-- A newly constructed actor: no table yet. -/
def newActor : Game_Actor := { exp_list := [] }

/-- The curve before the cap is non-negative and non-decreasing over the levels
the table stores. -/
def CurveNonDecreasing (env : Env) (a : Game_Actor) : Prop :=
  (∀ L : Int, 1 ≤ L → L < GetMaxLevel env → 0 ≤ expCurve env a L) ∧
  (∀ L : Int, 1 ≤ L → L + 1 < GetMaxLevel env → expCurve env a L ≤ expCurve env a (L + 1))

/-- A catalog with a potion (medicine), a skill book teaching skill 7, a seed
(material: +5 max HP, +1 max SP, +3 attack, +2 defense, +4 agility, +6 spirit)
and a key item. -/
def shopEnv : Env :=
  { actor := { final_level := 2
               parameters := { maxhp := [10, 20], maxsp := [5, 8], attack := [3, 6],
                               defense := [2, 4], spirit := [1, 2], agility := [7, 9] } }
    items := [{ type := ItemType.Type_medicine },
              { type := ItemType.Type_book, skill_id := 7 },
              { type := ItemType.Type_material, max_hp_points := 5, max_sp_points := 1,
                atk_points2 := 3, def_points2 := 2, agi_points2 := 4, spi_points2 := 6 },
              { type := ItemType.Type_special }] }

/-- A living level-1 actor of `shopEnv`. -/
def aliveActor : Game_Actor := { level := 1, current_hp := 10, current_sp := 5 }

/-- A generic item path that reports failure and changes nothing. -/
def idleBattler : Game_Actor → Int → Bool × Game_Actor := fun a _ => (false, a)

/-- State `b` is state `a` with the six permanent modifiers raised by the given
amounts and level, experience, equipment and skills unchanged. -/
def ModsRaised (a b : Game_Actor) (hp sp atk de agi spi : Int) : Prop :=
  b.hp_mod = a.hp_mod + hp ∧ b.sp_mod = a.sp_mod + sp ∧
  b.attack_mod = a.attack_mod + atk ∧ b.defense_mod = a.defense_mod + de ∧
  b.agility_mod = a.agility_mod + agi ∧ b.spirit_mod = a.spirit_mod + spi ∧
  b.level = a.level ∧ b.exp = a.exp ∧ b.equipped = a.equipped ∧ b.skills = a.skills

instance (a b : Game_Actor) (hp sp atk de agi spi : Int) :
    Decidable (ModsRaised a b hp sp atk de agi spi) := by
  unfold ModsRaised; infer_instance

/-- The index expression `rand() % (skills.size() + 1)` of `GetRandomSkill`,
for the value `r` returned by `rand()`. -/
def randomSkillIndex (a : Game_Actor) (r : Nat) : Nat := r % (a.skills.length + 1)

/-- Embeds `Game_Actor::GetRandomSkill`, for the value `r` returned by `rand()`:
`Data::skills[skills[index] - 1]`. Both reads are unguarded; the result is
`none` when one of them falls outside its vector. -/
def GetRandomSkill (env : Env) (a : Game_Actor) (r : Nat) : Option Skill :=
  match a.skills.get? (randomSkillIndex a r) with
  | none => none
  | some skill_id =>
    if skill_id < 1 ∨ skill_id > (env.skills.length : Int) then none
    else env.skills.get? (skill_id - 1).toNat

/-- The narrowing conversion `(unsigned)x` to 32 bits. -/
def toUInt32 (x : Int) : Int := x % 4294967296

/-- Embeds `Game_Actor::IsItemUsable`. The unguarded read `Data::items[item_id - 1]`
makes the result `none` for an id outside the catalog. -/
def IsItemUsable (env : Env) (a : Game_Actor) (item_id : Int) : Option Bool :=
  if item_id < 1 ∨ item_id > (env.items.length : Int) then none
  else
    let item := vecGet env.items (item_id - 1)
    if (item.actor_set.length : Int) ≤ toUInt32 (a.ID - 1) then some true
    else some (vecGet item.actor_set (a.ID - 1))

/-- Embeds `Game_Actor::IsEquippable`. -/
def IsEquippable (env : Env) (a : Game_Actor) (item_id : Int) : Option Bool :=
  if item_id < 1 ∨ item_id > (env.items.length : Int) then none
  else if a.two_weapon = true ∧ (vecGet env.items (item_id - 1)).type = ItemType.Type_shield then
    some false
  else IsItemUsable env a item_id

/-- A call made on the party collaborator `Main_Data::game_party`. -/
inductive PartyCall where
  | AddItem (item_id amount : Int)
  | RemoveItem (item_id amount : Int)
  deriving DecidableEq, Repr, Inhabited

/-- Embeds `Game_Actor::ChangeEquipment`: returns the new state and the calls
made on the party, in order. -/
def ChangeEquipment (env : Env) (a : Game_Actor) (equip_type item_id : Int) :
    Game_Actor × List PartyCall :=
  let r := SetEquipment env a equip_type item_id
  let prev_item := r.1
  let calls : List PartyCall := if prev_item ≠ 0 then [PartyCall.AddItem prev_item 1] else []
  let calls := if item_id ≠ 0 then calls ++ [PartyCall.RemoveItem item_id 1] else calls
  (r.2, calls)

/-- A catalog holding a shield without usability mask and a sword usable by
actor 1 only. -/
def armoryEnv : Env :=
  { items := [{ type := ItemType.Type_shield },
              { type := ItemType.Type_weapon, actor_set := [true, false] }] }

/-- Actor 2 with the two-weapon style. -/
def dualWielder : Game_Actor := { ID := 2, two_weapon := true }

/-- The fields of `RPG::Terrain` read by the placement code. -/
structure Terrain where
  grid_a : Int := 0
  grid_b : Int := 0
  grid_c : Int := 0
  deriving DecidableEq, Repr, Inhabited

/-- The enumeration `Game_Battle::BattleMode`. -/
inductive BattleMode where
  | BattleNormal | BattleInitiative | BattleBackAttack | BattlePincer | BattleSurround
  deriving DecidableEq, Repr, Inhabited

/-- The global state the placement code reads: whether
`Data::battlecommands.placement` is `Placement_automatic`, the terrain
`Data::terrains[Game_Battle::GetTerrainId() - 1]`, the mode
`Game_Battle::GetBattleMode()`, the party answers
`GetActorPositionInParty(data.ID)` and `GetBattlerCount()`, and the screen
constants `SCREEN_TARGET_WIDTH` and `SCREEN_TARGET_HEIGHT`, whose header is not
part of this file's source. -/
structure BattleScene where
  placement_automatic : Bool := true
  terrain : Terrain := {}
  battle_mode : BattleMode := BattleMode.BattleNormal
  party_pos : Int := 0
  party_size : Int := 1
  SCREEN_TARGET_WIDTH : Int := 320
  SCREEN_TARGET_HEIGHT : Int := 240
  deriving DecidableEq, Repr, Inhabited

/-- Embeds `Game_Actor::GetBattleRow`. -/
def GetBattleRow (a : Game_Actor) : Int := a.row

/-- The `float` local `left` of `GetBattleX`. -/
def battleLeft (a : Game_Actor) : ℚ := if GetBattleRow a = 1 then 25 else 50

/-- The `float` local `right` of `GetBattleX`: `left + grid_c / 1103`, the
quotient being the C++ `int` division. -/
def battleRight (sc : BattleScene) (a : Game_Actor) : ℚ :=
  battleLeft a + ((Int.tdiv sc.terrain.grid_c 1103 : Int) : ℚ)

/-- The value of the local `position` of `GetBattleX` after
`switch (party_size)`. The cases 2, 3 and 4 of the source have no `break`
between them, so control falls from each into the next. The `float` and
`double` values are modelled by exact rationals. -/
def battleXPosition (sc : BattleScene) (a : Game_Actor) : ℚ :=
  let party_pos := sc.party_pos
  let party_size := sc.party_size
  let left := battleLeft a
  let right := battleRight sc a
  let position : ℚ := 0
  if party_size = 1 then left + ((right - left) / 2)
  else
    let position :=
      if party_size = 2 then
        (if party_pos = 0 then right else if party_pos = 1 then left else position)
      else position
    let position :=
      if party_size = 2 ∨ party_size = 3 then
        (if party_pos = 0 then right
         else if party_pos = 1 then left + ((right - left) / 2)
         else if party_pos = 2 then left
         else position)
      else position
    let position :=
      if party_size = 2 ∨ party_size = 3 ∨ party_size = 4 then
        (if party_pos = 0 then right
         else if party_pos = 1 then left + ((right - left) * 2 / 3)
         else if party_pos = 2 then left + ((right - left) * 1 / 3)
         else if party_pos = 3 then left
         else position)
      else position
    position

/-- Embeds `Game_Actor::GetBattleX`. -/
def GetBattleX (sc : BattleScene) (env : Env) (a : Game_Actor) : Int :=
  if env.actor.battle_x = 0 ∨ sc.placement_automatic = true then
    let position := battleXPosition sc a
    match sc.battle_mode with
    | BattleMode.BattleNormal => truncToInt ((sc.SCREEN_TARGET_WIDTH : ℚ) - position)
    | BattleMode.BattleInitiative => truncToInt ((sc.SCREEN_TARGET_WIDTH : ℚ) - position)
    | BattleMode.BattleBackAttack => truncToInt position
    | BattleMode.BattlePincer => truncToInt ((sc.SCREEN_TARGET_WIDTH : ℚ) - position)
    | BattleMode.BattleSurround => truncToInt ((sc.SCREEN_TARGET_WIDTH : ℚ) - position)
  else
    let position : ℚ :=
      ((Int.tdiv (env.actor.battle_x * sc.SCREEN_TARGET_WIDTH) 320 : Int) : ℚ)
    truncToInt position

/-- The `float` local `top` of `GetBattleY`. -/
def battleTop (sc : BattleScene) : ℚ := (sc.terrain.grid_a : ℚ)

/-- The `float` local `bottom` of `GetBattleY`: `top + grid_b / 13`, the
quotient being the C++ `int` division. -/
def battleBottom (sc : BattleScene) : ℚ :=
  battleTop sc + ((Int.tdiv sc.terrain.grid_b 13 : Int) : ℚ)

/-- The value of the local `position` of `GetBattleY` after
`switch (party_size)`, before `position -= 24`; the cases 2, 3 and 4 fall
through as in `GetBattleX`. -/
def battleYPosition (sc : BattleScene) : ℚ :=
  let party_pos := sc.party_pos
  let party_size := sc.party_size
  let top := battleTop sc
  let bottom := battleBottom sc
  let position : ℚ := 0
  if party_size = 1 then top + ((bottom - top) / 2)
  else
    let position :=
      if party_size = 2 then
        (if party_pos = 0 then top else if party_pos = 1 then bottom else position)
      else position
    let position :=
      if party_size = 2 ∨ party_size = 3 then
        (if party_pos = 0 then top
         else if party_pos = 1 then top + ((bottom - top) / 2)
         else if party_pos = 2 then bottom
         else position)
      else position
    let position :=
      if party_size = 2 ∨ party_size = 3 ∨ party_size = 4 then
        (if party_pos = 0 then top
         else if party_pos = 1 then top + ((bottom - top) * 1 / 3)
         else if party_pos = 2 then top + ((bottom - top) * 2 / 3)
         else if party_pos = 3 then bottom
         else position)
      else position
    position

/-- Embeds `Game_Actor::GetBattleY`. -/
def GetBattleY (sc : BattleScene) (env : Env) (_a : Game_Actor) : Int :=
  if env.actor.battle_y = 0 ∨ sc.placement_automatic = true then
    truncToInt (battleYPosition sc - 24)
  else
    truncToInt ((Int.tdiv (env.actor.battle_y * sc.SCREEN_TARGET_HEIGHT) 240 : Int) : ℚ)

/-- A party of three on a terrain whose bands are 60 wide (`grid_c = 60 * 1103`)
and 60 high (`grid_b = 60 * 13`, `grid_a = 100`), seen from ordinal 1. -/
def trioScene : BattleScene :=
  { party_size := 3, party_pos := 1, terrain := { grid_a := 100, grid_b := 780, grid_c := 66180 } }

/-- An actor standing in battle row 1. -/
def backRowActor : Game_Actor := { row := 1 }

/-- A party of two in a back attack, seen from ordinal 0. -/
def ambushScene : BattleScene :=
  { party_size := 2, party_pos := 0, battle_mode := BattleMode.BattleBackAttack,
    terrain := { grid_a := 100, grid_b := 780, grid_c := 66180 } }

/-- Level and experience are within their ranges: `1 <= level <= maxLevel` and
`0 <= experience <= maxExperience`. -/
def LevelExpInRange (env : Env) (a : Game_Actor) : Prop :=
  1 ≤ a.level ∧ a.level ≤ GetMaxLevel env ∧ 0 ≤ a.exp ∧ a.exp ≤ max_exp_value env

instance (env : Env) (a : Game_Actor) : Decidable (LevelExpInRange env a) := by
  unfold LevelExpInRange; infer_instance

/-- The value of `n` before the clamp in `GetBaseAtk(true, true)`. -/
def unclampedAtk (env : Env) (a : Game_Actor) : Int :=
  addEquipped env (fun i => i.atk_points1) a.equipped
    (vecGet (effectiveParameters env a).attack (a.level - 1) + a.attack_mod)

/-- The value of `n` before the clamp in `GetBaseDef(true, true)`. -/
def unclampedDef (env : Env) (a : Game_Actor) : Int :=
  addEquipped env (fun i => i.def_points1) a.equipped
    (vecGet (effectiveParameters env a).defense (a.level - 1) + a.defense_mod)

/-- The value of `n` before the clamp in `GetBaseSpi(true, true)`. -/
def unclampedSpi (env : Env) (a : Game_Actor) : Int :=
  addEquipped env (fun i => i.spi_points1) a.equipped
    (vecGet (effectiveParameters env a).spirit (a.level - 1) + a.spirit_mod)

/-- The value of `n` before the clamp in `GetBaseAgi(true, true)`. -/
def unclampedAgi (env : Env) (a : Game_Actor) : Int :=
  addEquipped env (fun i => i.agi_points1) a.equipped
    (vecGet (effectiveParameters env a).agility (a.level - 1) + a.agility_mod)

/-- The value of `n` before the clamp in `GetBaseMaxSp(true)`. -/
def unclampedMaxSp (env : Env) (a : Game_Actor) : Int :=
  vecGet (effectiveParameters env a).maxsp (a.level - 1) + a.sp_mod

/-- The value of `n` before the clamp in `GetBaseMaxHp(true)`. -/
def unclampedMaxHp (env : Env) (a : Game_Actor) : Int :=
  vecGet (effectiveParameters env a).maxhp (a.level - 1) + a.hp_mod

/-- The condition under which a setter followed by its getter returns `v`: the
unclamped sum `raw` before the call lies within `[lo, hi]`, or lies above it and
`v` is the ceiling, or lies below it and `v` is the floor. -/
def RoundTrips (raw v lo hi : Int) : Prop :=
  (lo ≤ raw ∧ raw ≤ hi) ∨ (hi < raw ∧ v = hi) ∨ (raw < lo ∧ v = lo)

instance (raw v lo hi : Int) : Decidable (RoundTrips raw v lo hi) := by
  unfold RoundTrips; infer_instance

/-- An archetype with attack 990 at level 1 and a sword with attack bonus 50. -/
def strongEnv : Env :=
  { actor := { final_level := 1
               parameters := { maxhp := [100], maxsp := [10], attack := [990], defense := [5],
                               spirit := [5], agility := [5] } }
    items := [{ type := ItemType.Type_weapon, atk_points1 := 50 }] }

/-- A level-1 actor of `strongEnv` holding the sword. -/
def strongActor : Game_Actor := { level := 1, equipped := [1, 0, 0, 0, 0] }

/-! # Lemmas -/

theorem scanUp_spec (env : Env) (a : Game_Actor) (e : Int) : ∀ (k : Nat) (nl : Int),
    nl ≤ scanUp env a e k nl ∧ scanUp env a e k nl ≤ nl + k ∧
    (∀ j, nl ≤ j → j < scanUp env a e k nl →
      ¬(GetNextExp env a j ≠ -1 ∧ GetNextExp env a j > e)) ∧
    (scanUp env a e k nl = nl + k ∨
      (GetNextExp env a (scanUp env a e k nl) ≠ -1 ∧
        GetNextExp env a (scanUp env a e k nl) > e)) := by
  intro k
  induction k with
  | zero =>
    intro nl
    refine ⟨by simp [scanUp], by simp [scanUp], ?_, by simp [scanUp]⟩
    intro j h1 h2
    simp [scanUp] at h2
    omega
  | succ k ih =>
    intro nl
    by_cases hb : GetNextExp env a nl ≠ -1 ∧ GetNextExp env a nl > e
    · have hs : scanUp env a e (k + 1) nl = nl := by simp [scanUp, hb]
      rw [hs]
      refine ⟨le_refl _, by omega, ?_, Or.inr hb⟩
      intro j h1 h2
      omega
    · have hs : scanUp env a e (k + 1) nl = scanUp env a e k (nl + 1) := by
        simp only [scanUp, if_neg hb]
      rw [hs]
      obtain ⟨h1, h2, h3, h4⟩ := ih (nl + 1)
      refine ⟨by omega, by push_cast; omega, ?_, ?_⟩
      · intro j hj1 hj2
        by_cases hj : j = nl
        · subst hj; exact hb
        · exact h3 j (by omega) hj2
      · rcases h4 with h4 | h4
        · left; push_cast; omega
        · right; exact h4

theorem scanDown_spec (env : Env) (a : Game_Actor) (e : Int) : ∀ (k : Nat) (i : Int),
    scanDown env a e k i i ≤ i ∧ i - k ≤ scanDown env a e k i i ∧
    (∀ j, scanDown env a e k i i < j → j ≤ i → e < GetNextExp env a (j - 1)) ∧
    (scanDown env a e k i i = i - k ∨
      e ≥ GetNextExp env a (scanDown env a e k i i - 1)) := by
  intro k
  induction k with
  | zero =>
    intro i
    refine ⟨by simp [scanDown], by simp [scanDown], ?_, by simp [scanDown]⟩
    intro j h1 h2
    simp [scanDown] at h1
    omega
  | succ k ih =>
    intro i
    by_cases hb : e ≥ GetNextExp env a (i - 1)
    · have hs : scanDown env a e (k + 1) i i = i := by simp [scanDown, hb]
      rw [hs]
      refine ⟨le_refl _, by omega, ?_, Or.inr hb⟩
      intro j h1 h2
      omega
    · have hs : scanDown env a e (k + 1) i i = scanDown env a e k (i - 1) (i - 1) := by
        simp only [scanDown, if_neg hb]
      rw [hs]
      obtain ⟨h1, h2, h3, h4⟩ := ih (i - 1)
      refine ⟨by omega, by push_cast; omega, ?_, ?_⟩
      · intro j hj1 hj2
        by_cases hj : j = i
        · subst hj; omega
        · exact h3 j hj1 (by omega)
      · rcases h4 with h4 | h4
        · left; push_cast; omega
        · right; exact h4

theorem GetNextExp_congr (env : Env) {a b : Game_Actor} (h : a.exp_list = b.exp_list)
    (l : Int) : GetNextExp env a l = GetNextExp env b l := by
  simp [GetNextExp, h]

theorem LearnSkill_frame (a : Game_Actor) (id : Int) :
    (LearnSkill a id).2 = { a with skills := (LearnSkill a id).2.skills } := by
  unfold LearnSkill
  split <;> rfl

theorem learnStep_actor (env : Env) (o n : Int) (b : Bool) (st : LevelLoop) (it : Learning) :
    (learnStep env o n b st it).actor =
      if it.level > o ∧ it.level ≤ n then (LearnSkill st.actor it.skill_id).2 else st.actor := by
  simp only [learnStep]
  split_ifs <;> rfl

theorem learnStep_frame (env : Env) (o n : Int) (b : Bool) (st : LevelLoop) (it : Learning) :
    (learnStep env o n b st it).actor =
      { st.actor with skills := (learnStep env o n b st it).actor.skills } := by
  rw [learnStep_actor]
  split_ifs
  · exact LearnSkill_frame _ _
  · rfl

theorem foldl_learnStep_frame (env : Env) (o n : Int) (b : Bool) :
    ∀ (l : List Learning) (st : LevelLoop),
      (l.foldl (learnStep env o n b) st).actor =
        { st.actor with skills := (l.foldl (learnStep env o n b) st).actor.skills } := by
  intro l
  induction l with
  | nil => intro st; rfl
  | cons it l ih =>
    intro st
    simp only [List.foldl_cons]
    have h1 := ih (learnStep env o n b st it)
    have h2 := learnStep_frame env o n b st it
    rw [h1]
    conv_lhs => rw [h2]

theorem levelUpLoop_frame (env : Env) (a : Game_Actor) (m : Game_Message) (o n : Int)
    (b : Bool) :
    (levelUpLoop env a m o n b).actor =
      { a with skills := (levelUpLoop env a m o n b).actor.skills } := by
  unfold levelUpLoop
  rw [foldl_learnStep_frame]
  cases b <;> rfl

theorem levelUpLoop_level (env : Env) (a : Game_Actor) (m : Game_Message) (o n : Int)
    (b : Bool) : (levelUpLoop env a m o n b).actor.level = a.level := by
  rw [levelUpLoop_frame]

theorem levelUpLoop_exp (env : Env) (a : Game_Actor) (m : Game_Message) (o n : Int)
    (b : Bool) : (levelUpLoop env a m o n b).actor.exp = a.exp := by
  rw [levelUpLoop_frame]

theorem levelUpLoop_exp_list (env : Env) (a : Game_Actor) (m : Game_Message) (o n : Int)
    (b : Bool) : (levelUpLoop env a m o n b).actor.exp_list = a.exp_list := by
  rw [levelUpLoop_frame]

theorem ChangeLevel_level (env : Env) (a : Game_Actor) (m : Game_Message) (n : Int) (b : Bool) :
    (ChangeLevel env a m n b).1.level = min (max n 1) (GetMaxLevel env) := by
  simp only [ChangeLevel, GetLevel]
  split_ifs
  · simp [SetExp, levelUpLoop_level, SetLevel]
  all_goals simp [SetExp, SetSp, SetHp, SetLevel]

theorem ChangeLevel_exp_list (env : Env) (a : Game_Actor) (m : Game_Message) (n : Int) (b : Bool) :
    (ChangeLevel env a m n b).1.exp_list = a.exp_list := by
  simp only [ChangeLevel, GetLevel]
  split_ifs
  · simp [SetExp, levelUpLoop_exp_list, SetLevel]
  all_goals simp [SetExp, SetSp, SetHp, SetLevel]

/-- Experience after a level increase through `ChangeLevel`. -/
theorem ChangeLevel_exp_up (env : Env) (a : Game_Actor) (m : Game_Message) (n : Int) (b : Bool)
    (h : a.level < min (max n 1) (GetMaxLevel env)) :
    (ChangeLevel env a m n b).1.exp =
      min (max (max (GetNextExp env a (min (max n 1) (GetMaxLevel env) - 1)) a.exp) 0)
        (max_exp_value env) := by
  have hl : (SetLevel env a n).level = min (max n 1) (GetMaxLevel env) := rfl
  simp only [ChangeLevel, GetLevel, hl]
  rw [if_pos (by omega)]
  simp only [SetExp, GetBaseExp, GetExp, levelUpLoop_level, levelUpLoop_exp, hl]
  rw [GetNextExp_congr env (b := a)]
  · rfl
  · rw [levelUpLoop_exp_list]; rfl

/-- Experience after a level decrease through `ChangeLevel`. -/
theorem ChangeLevel_exp_down (env : Env) (a : Game_Actor) (m : Game_Message) (n : Int) (b : Bool)
    (h : min (max n 1) (GetMaxLevel env) < a.level) :
    (ChangeLevel env a m n b).1.exp =
      if a.exp ≥ GetNextExp env a (min (max n 1) (GetMaxLevel env)) then
        min (max (GetNextExp env a (min (max n 1) (GetMaxLevel env) - 1)) 0) (max_exp_value env)
      else a.exp := by
  have hl : (SetLevel env a n).level = min (max n 1) (GetMaxLevel env) := rfl
  simp only [ChangeLevel, GetLevel, hl]
  rw [if_neg (by omega), if_pos (by omega)]
  have e1 : ∀ l, GetNextExp env (SetSp env (SetHp env (SetLevel env a n) (GetHp (SetLevel env a n)))
      (GetSp (SetHp env (SetLevel env a n) (GetHp (SetLevel env a n))))) l = GetNextExp env a l :=
    fun l => GetNextExp_congr env rfl l
  simp only [e1, GetExp, GetBaseExp]
  have e2 : (SetSp env (SetHp env (SetLevel env a n) (GetHp (SetLevel env a n)))
      (GetSp (SetHp env (SetLevel env a n) (GetHp (SetLevel env a n))))).exp = a.exp := rfl
  have e3 : (SetSp env (SetHp env (SetLevel env a n) (GetHp (SetLevel env a n)))
      (GetSp (SetHp env (SetLevel env a n) (GetHp (SetLevel env a n))))).level =
        min (max n 1) (GetMaxLevel env) := rfl
  simp only [e2, e3]
  split_ifs <;> rfl

/-- Embeds `ChangeLevel` to the current level changes nothing. -/
theorem ChangeLevel_same (env : Env) (a : Game_Actor) (m : Game_Message) (n : Int) (b : Bool)
    (h : min (max n 1) (GetMaxLevel env) = a.level) :
    ChangeLevel env a m n b = (a, m) := by
  have hl : (SetLevel env a n).level = min (max n 1) (GetMaxLevel env) := rfl
  simp only [ChangeLevel, GetLevel, hl]
  rw [if_neg (by omega), if_neg (by omega)]
  simp only [SetLevel, h]

theorem max_exp_value_pos (env : Env) : 0 < max_exp_value env := by
  unfold max_exp_value; split <;> decide

theorem scannedLevel_range (env : Env) (a : Game_Actor) (e : Int)
    (h1 : 1 ≤ a.level) (h2 : a.level ≤ GetMaxLevel env) :
    1 ≤ scannedLevel env a e ∧ scannedLevel env a e ≤ GetMaxLevel env := by
  unfold scannedLevel
  split_ifs
  · obtain ⟨p1, p2, -, -⟩ := scanUp_spec env a e (GetMaxLevel env - a.level).toNat a.level
    constructor <;> omega
  · obtain ⟨p1, p2, -, -⟩ := scanDown_spec env a e (a.level - 1).toNat a.level
    constructor <;> omega
  · exact ⟨h1, h2⟩

/-- State after `ChangeExp`, under `1 ≤ level ≤ maxLevel`: experience is the
clamped target and the level is the scanned one. -/
theorem ChangeExp_level_exp (env : Env) (a : Game_Actor) (m : Game_Message) (v : Int) (b : Bool)
    (h1 : 1 ≤ a.level) (h2 : a.level ≤ GetMaxLevel env) :
    (ChangeExp env a m v b).1.level = scannedLevel env a (min (max v 0) (max_exp_value env)) ∧
    (ChangeExp env a m v b).1.exp = min (max v 0) (max_exp_value env) ∧
    (ChangeExp env a m v b).1.exp_list = a.exp_list := by
  have hM := max_exp_value_pos env
  obtain ⟨r1, r2⟩ := scannedLevel_range env a (min (max v 0) (max_exp_value env)) h1 h2
  have hfold : ChangeExp env a m v b =
      if scannedLevel env a (min (max v 0) (max_exp_value env)) ≠ a.level then
        ChangeLevel env (SetExp env a (min (max v 0) (max_exp_value env))) m
          (scannedLevel env a (min (max v 0) (max_exp_value env))) b
      else (SetExp env a (min (max v 0) (max_exp_value env)), m) := rfl
  rw [hfold]
  generalize he : min (max v 0) (max_exp_value env) = e at *
  have he0 : 0 ≤ e := by rw [← he]; omega
  have heM : e ≤ max_exp_value env := by rw [← he]; omega
  have hclamp : min (max e 0) (max_exp_value env) = e := by omega
  set a1 := SetExp env a e with ha1
  have a1l : a1.level = a.level := rfl
  have a1e : a1.exp = e := by simp [ha1, SetExp, hclamp]
  have a1t : a1.exp_list = a.exp_list := rfl
  have hG : ∀ l, GetNextExp env a1 l = GetNextExp env a l := fun l => GetNextExp_congr env a1t l
  set nl := scannedLevel env a e with hnl
  have hcl : min (max nl 1) (GetMaxLevel env) = nl := by omega
  by_cases hne : nl = a.level
  · rw [if_neg (by simpa using hne)]
    exact ⟨by rw [a1l, hne], a1e, a1t⟩
  · rw [if_pos hne]
    refine ⟨by rw [ChangeLevel_level, hcl], ?_, by rw [ChangeLevel_exp_list, a1t]⟩
    by_cases hup : e > a.exp
    · have hs : nl = scanUp env a e (GetMaxLevel env - a.level).toNat a.level := by
        rw [hnl, scannedLevel, if_pos hup]
      obtain ⟨p1, p2, p3, -⟩ := scanUp_spec env a e (GetMaxLevel env - a.level).toNat a.level
      rw [← hs] at p1 p2 p3
      have hlt : a.level < nl := by omega
      rw [ChangeLevel_exp_up env a1 m nl b (by rw [hcl, a1l]; exact hlt), hcl, hG, a1e]
      have := p3 (nl - 1) (by omega) (by omega)
      omega
    · by_cases hdn : e < a.exp
      · have hs : nl = scanDown env a e (a.level - 1).toNat a.level a.level := by
          rw [hnl, scannedLevel, if_neg hup, if_pos hdn]
        obtain ⟨p1, p2, p3, -⟩ := scanDown_spec env a e (a.level - 1).toNat a.level
        rw [← hs] at p1 p2 p3
        have hlt : nl < a.level := by omega
        rw [ChangeLevel_exp_down env a1 m nl b (by rw [hcl, a1l]; exact hlt), hcl, hG, a1e]
        have := p3 (nl + 1) (by omega) (by omega)
        rw [if_neg]
        simp only [add_sub_cancel_right] at this
        omega
      · exfalso
        apply hne
        rw [hnl, scannedLevel, if_neg hup, if_neg hdn]

theorem vecGet_eq_getElem {α : Type} [Inhabited α] (v : List α) (i : Int) (h0 : 0 ≤ i)
    (h1 : i < v.length) : ∃ h : i.toNat < v.length, vecGet v i = v[i.toNat] := by
  have h : i.toNat < v.length := by omega
  refine ⟨h, ?_⟩
  unfold vecGet
  rw [if_neg (by omega), List.getD_eq_getElem _ _ h]

theorem vecGet_mem {α : Type} [Inhabited α] (v : List α) (i : Int) (h0 : 0 ≤ i)
    (h1 : i < v.length) : vecGet v i ∈ v := by
  obtain ⟨h, e⟩ := vecGet_eq_getElem v i h0 h1
  rw [e]; exact List.getElem_mem h

theorem vecGet_zero_of_head (v : List Int) (h : v.head? = some 0) : vecGet v 0 = 0 := by
  cases v with
  | nil => simp at h
  | cons x xs => simp at h; simp [vecGet, h]

theorem vecGet_mono (v : List Int) (hs : v.Sorted (fun x y => x ≤ y)) (i j : Int)
    (h0 : 0 ≤ i) (hij : i ≤ j) (hj : j < v.length) : vecGet v i ≤ vecGet v j := by
  obtain ⟨hi', ei⟩ := vecGet_eq_getElem v i h0 (by omega)
  obtain ⟨hj', ej⟩ := vecGet_eq_getElem v j (by omega) hj
  rw [ei, ej]
  rcases Nat.lt_or_ge i.toNat j.toNat with hlt | hge
  · exact (List.pairwise_iff_getElem.mp hs) _ _ hi' hj' hlt
  · have : i.toNat = j.toNat := by omega
    simp [this]

theorem GetNextExp_eq (env : Env) (a : Game_Actor) (l : Int) (h0 : 0 < l)
    (h1 : l < GetMaxLevel env) : GetNextExp env a l = minExpForLevel a (l + 1) := by
  unfold GetNextExp minExpForLevel
  rw [if_neg (by omega)]
  simp

/-- The result of `ChangeExp` on a consistent state over a well-shaped,
non-decreasing table: the level is in range, its threshold is met by the clamped
experience, and no higher level's threshold is. -/
theorem ChangeExp_greatest (env : Env) (a : Game_Actor) (m : Game_Message) (v : Int) (b : Bool)
    (hwf : ExpListWF env a) (hmono : ExpListNonDecreasing a)
    (hrange : LevelInRange env a) (hcons : LevelExpConsistent env a) :
    (ChangeExp env a m v b).1.exp = min (max v 0) (max_exp_value env) ∧
    (ChangeExp env a m v b).1.exp_list = a.exp_list ∧
    1 ≤ (ChangeExp env a m v b).1.level ∧
    (ChangeExp env a m v b).1.level ≤ GetMaxLevel env ∧
    minExpForLevel a (ChangeExp env a m v b).1.level ≤ min (max v 0) (max_exp_value env) ∧
    ∀ L : Int, 1 ≤ L → L ≤ GetMaxLevel env →
      minExpForLevel a L ≤ min (max v 0) (max_exp_value env) →
      L ≤ (ChangeExp env a m v b).1.level := by
  obtain ⟨h1, h2⟩ := hrange
  obtain ⟨hlen, hhead, -⟩ := hwf
  obtain ⟨hc1, hc2⟩ := hcons
  have hM := max_exp_value_pos env
  obtain ⟨el, ee, et⟩ := ChangeExp_level_exp env a m v b h1 h2
  obtain ⟨r1, r2⟩ := scannedLevel_range env a (min (max v 0) (max_exp_value env)) h1 h2
  rw [el, ee, et]
  generalize he : min (max v 0) (max_exp_value env) = e at *
  have he0 : 0 ≤ e := by rw [← he]; omega
  have hT0 : minExpForLevel a 1 = 0 := by
    unfold minExpForLevel; simpa using vecGet_zero_of_head _ hhead
  have mono : ∀ i j : Int, 1 ≤ i → i ≤ j → j ≤ GetMaxLevel env →
      minExpForLevel a i ≤ minExpForLevel a j := by
    intro i j hi hij hj
    exact vecGet_mono _ hmono _ _ (by omega) (by omega) (by omega)
  -- levels above the old one are out of reach of the old experience
  have above : ∀ L : Int, a.level < L → L ≤ GetMaxLevel env → a.exp < minExpForLevel a L := by
    intro L hL1 hL2
    rcases hc2 with hc2 | hc2
    · omega
    · have := mono (a.level + 1) L (by omega) (by omega) hL2
      omega
  refine ⟨rfl, rfl, r1, r2, ?_, ?_⟩
  · -- threshold of the new level is met
    unfold scannedLevel
    split_ifs with hup hdn
    · obtain ⟨p1, p2, p3, -⟩ := scanUp_spec env a e (GetMaxLevel env - a.level).toNat a.level
      generalize scanUp env a e (GetMaxLevel env - a.level).toNat a.level = nl at *
      by_cases hnl : nl = a.level
      · rw [hnl]; omega
      · have := p3 (nl - 1) (by omega) (by omega)
        rw [GetNextExp_eq env a (nl - 1) (by omega) (by omega)] at this
        simp only [sub_add_cancel] at this
        omega
    · obtain ⟨p1, p2, -, p4⟩ := scanDown_spec env a e (a.level - 1).toNat a.level
      generalize scanDown env a e (a.level - 1).toNat a.level a.level = nl at *
      by_cases hnl : nl = 1
      · rw [hnl, hT0]; exact he0
      · rcases p4 with p4 | p4
        · omega
        · rw [GetNextExp_eq env a (nl - 1) (by omega) (by omega)] at p4
          simp only [sub_add_cancel] at p4
          omega
    · have : e = a.exp := by omega
      rw [this]; exact hc1
  · -- no higher level's threshold is met
    intro L hL1 hL2 hLe
    by_contra hcon
    unfold scannedLevel at hcon
    split_ifs at hcon with hup hdn
    · obtain ⟨p1, p2, -, p4⟩ := scanUp_spec env a e (GetMaxLevel env - a.level).toNat a.level
      generalize scanUp env a e (GetMaxLevel env - a.level).toNat a.level = nl at *
      rcases p4 with p4 | p4
      · omega
      · rw [GetNextExp_eq env a nl (by omega) (by omega)] at p4
        have := mono (nl + 1) L (by omega) (by omega) hL2
        omega
    · obtain ⟨p1, p2, p3, -⟩ := scanDown_spec env a e (a.level - 1).toNat a.level
      generalize scanDown env a e (a.level - 1).toNat a.level a.level = nl at *
      by_cases hLl : L ≤ a.level
      · have := p3 L (by omega) hLl
        rw [GetNextExp_eq env a (L - 1) (by omega) (by omega)] at this
        simp only [sub_add_cancel] at this
        omega
      · have := above L (by omega) hL2
        omega
    · have := above L (by omega) hL2
      omega

theorem minExpForLevel_le_max (env : Env) (a : Game_Actor) (h : ExpListWF env a) (L : Int)
    (h1 : 1 ≤ L) (h2 : L ≤ GetMaxLevel env) : minExpForLevel a L ≤ max_exp_value env := by
  apply h.2.2
  exact vecGet_mem _ _ (by omega) (by have := h.1; omega)

theorem minExpForLevel_nonneg (env : Env) (a : Game_Actor) (h : ExpListWF env a)
    (hmono : ExpListNonDecreasing a) (L : Int)
    (h1 : 1 ≤ L) (h2 : L ≤ GetMaxLevel env) : 0 ≤ minExpForLevel a L := by
  have h0 : minExpForLevel a 1 = 0 := by
    unfold minExpForLevel; simpa using vecGet_zero_of_head _ h.2.1
  have := vecGet_mono _ hmono (1 - 1) (L - 1) (by omega) (by omega) (by have := h.1; omega)
  unfold minExpForLevel at h0 ⊢
  omega

/-- Embeds `ChangeLevel` keeps level and experience consistent when the clamped target
level has a threshold strictly below the next level's (or is the last level). -/
theorem ChangeLevel_consistent (env : Env) (a : Game_Actor) (m : Game_Message) (n : Int)
    (b : Bool) (hwf : ExpListWF env a) (hmono : ExpListNonDecreasing a)
    (hrange : LevelInRange env a) (hcons : LevelExpConsistent env a)
    (hgap : min (max n 1) (GetMaxLevel env) = GetMaxLevel env ∨
      minExpForLevel a (min (max n 1) (GetMaxLevel env)) <
        minExpForLevel a (min (max n 1) (GetMaxLevel env) + 1)) :
    LevelExpConsistent env (ChangeLevel env a m n b).1 := by
  obtain ⟨h1, h2⟩ := hrange
  obtain ⟨hc1, hc2⟩ := hcons
  have hM := max_exp_value_pos env
  have hlen := hwf.1
  have mono : ∀ i j : Int, 1 ≤ i → i ≤ j → j ≤ GetMaxLevel env →
      minExpForLevel a i ≤ minExpForLevel a j := by
    intro i j hi hij hj
    exact vecGet_mono _ hmono _ _ (by omega) (by omega) (by omega)
  have hT0 : minExpForLevel a 1 = 0 := by
    unfold minExpForLevel; simpa using vecGet_zero_of_head _ hwf.2.1
  unfold LevelExpConsistent
  have hmin : ∀ L, minExpForLevel (ChangeLevel env a m n b).1 L = minExpForLevel a L := by
    intro L; unfold minExpForLevel; rw [ChangeLevel_exp_list]
  rw [hmin, hmin, ChangeLevel_level]
  generalize hnl : min (max n 1) (GetMaxLevel env) = nl at *
  have r1 : 1 ≤ nl := by omega
  have r2 : nl ≤ GetMaxLevel env := by omega
  have hlo := minExpForLevel_nonneg env a hwf hmono nl r1 r2
  have hhi := minExpForLevel_le_max env a hwf nl r1 r2
  -- in every changing case the experience ends at the threshold of the new level
  rcases lt_trichotomy a.level nl with hlt | heq | hgt
  · have e := ChangeLevel_exp_up env a m n b (by rw [hnl]; exact hlt)
    rw [hnl, GetNextExp_eq env a (nl - 1) (by omega) (by omega)] at e
    simp only [sub_add_cancel] at e
    have hexp : a.exp < minExpForLevel a nl := by
      rcases hc2 with hc2 | hc2
      · omega
      · have := mono (a.level + 1) nl (by omega) (by omega) r2
        omega
    have e' : (ChangeLevel env a m n b).1.exp = minExpForLevel a nl := by rw [e]; omega
    rw [e']
    exact ⟨le_refl _, hgap⟩
  · have e := ChangeLevel_same env a m n b (by rw [hnl]; exact heq.symm)
    rw [e, ← heq]
    exact ⟨hc1, hc2⟩
  · have e := ChangeLevel_exp_down env a m n b (by rw [hnl]; exact hgt)
    rw [hnl, GetNextExp_eq env a nl (by omega) (by omega)] at e
    have hexp : minExpForLevel a (nl + 1) ≤ a.exp := by
      have := mono (nl + 1) a.level (by omega) (by omega) h2
      omega
    rw [if_pos hexp] at e
    have e' : (ChangeLevel env a m n b).1.exp = minExpForLevel a nl := by
      rw [e]
      by_cases h1' : nl = 1
      · subst h1'
        have : GetNextExp env a (1 - 1) = -1 := by simp [GetNextExp]
        rw [this, hT0]; omega
      · rw [GetNextExp_eq env a (nl - 1) (by omega) (by omega)]
        simp only [sub_add_cancel]
        omega
    rw [e']
    exact ⟨le_refl _, hgap⟩

theorem max_hp_value_pos (env : Env) : 1 ≤ max_hp_value env := by
  unfold max_hp_value; split <;> decide

theorem GetMaxHp_eq (env : Env) (a : Game_Actor) :
    GetMaxHp env a =
      min (max (vecGet (effectiveParameters env a).maxhp (a.level - 1) + a.hp_mod) 1)
        (max_hp_value env) := by
  simp [GetMaxHp, GetBaseMaxHp]

theorem GetMaxSp_eq (env : Env) (a : Game_Actor) :
    GetMaxSp env a =
      min (max (vecGet (effectiveParameters env a).maxsp (a.level - 1) + a.sp_mod) 0) 999 := by
  simp [GetMaxSp, GetBaseMaxSp, max_other_stat_value]

theorem GetMaxHp_pos (env : Env) (a : Game_Actor) : 1 ≤ GetMaxHp env a := by
  have := max_hp_value_pos env
  rw [GetMaxHp_eq]; omega

theorem GetMaxSp_nonneg (env : Env) (a : Game_Actor) : 0 ≤ GetMaxSp env a := by
  rw [GetMaxSp_eq]; omega

theorem effectiveParameters_congr (env : Env) {a b : Game_Actor}
    (h3 : a.changed_class = b.changed_class) (h4 : a.class_id = b.class_id) :
    effectiveParameters env a = effectiveParameters env b := by
  simp [effectiveParameters, h3, h4]

theorem GetMaxHp_congr (env : Env) {a b : Game_Actor} (h1 : a.level = b.level)
    (h2 : a.hp_mod = b.hp_mod) (h3 : a.changed_class = b.changed_class)
    (h4 : a.class_id = b.class_id) : GetMaxHp env a = GetMaxHp env b := by
  rw [GetMaxHp_eq, GetMaxHp_eq, effectiveParameters_congr env h3 h4, h1, h2]

theorem GetMaxSp_congr (env : Env) {a b : Game_Actor} (h1 : a.level = b.level)
    (h2 : a.sp_mod = b.sp_mod) (h3 : a.changed_class = b.changed_class)
    (h4 : a.class_id = b.class_id) : GetMaxSp env a = GetMaxSp env b := by
  rw [GetMaxSp_eq, GetMaxSp_eq, effectiveParameters_congr env h3 h4, h1, h2]

/-- The invariant only reads the HP/SP values and the inputs of the two maxima. -/
theorem HpSpWithinMax_congr (env : Env) {a b : Game_Actor}
    (e1 : a.current_hp = b.current_hp) (e2 : a.current_sp = b.current_sp)
    (h1 : a.level = b.level) (h2 : a.hp_mod = b.hp_mod) (h2' : a.sp_mod = b.sp_mod)
    (h3 : a.changed_class = b.changed_class) (h4 : a.class_id = b.class_id) :
    HpSpWithinMax env a ↔ HpSpWithinMax env b := by
  unfold HpSpWithinMax
  rw [GetMaxHp_congr env h1 h2 h3 h4, GetMaxSp_congr env h1 h2' h3 h4, e1, e2]

theorem SetHp_keeps (env : Env) (a : Game_Actor) (hp : Int) (h : HpSpWithinMax env a) :
    HpSpWithinMax env (SetHp env a hp) := by
  have hp1 := GetMaxHp_pos env a
  have e1 : GetMaxHp env (SetHp env a hp) = GetMaxHp env a := GetMaxHp_congr env rfl rfl rfl rfl
  have e2 : GetMaxSp env (SetHp env a hp) = GetMaxSp env a := GetMaxSp_congr env rfl rfl rfl rfl
  have e3 : (SetHp env a hp).current_hp = min (max hp 0) (GetMaxHp env a) := rfl
  have e4 : (SetHp env a hp).current_sp = a.current_sp := rfl
  unfold HpSpWithinMax at h ⊢
  rw [e1, e2, e3, e4]
  omega

theorem SetSp_keeps (env : Env) (a : Game_Actor) (sp : Int) (h : HpSpWithinMax env a) :
    HpSpWithinMax env (SetSp env a sp) := by
  have hp1 := GetMaxSp_nonneg env a
  have e1 : GetMaxHp env (SetSp env a sp) = GetMaxHp env a := GetMaxHp_congr env rfl rfl rfl rfl
  have e2 : GetMaxSp env (SetSp env a sp) = GetMaxSp env a := GetMaxSp_congr env rfl rfl rfl rfl
  have e3 : (SetSp env a sp).current_sp = min (max sp 0) (GetMaxSp env a) := rfl
  have e4 : (SetSp env a sp).current_hp = a.current_hp := rfl
  unfold HpSpWithinMax at h ⊢
  rw [e1, e2, e3, e4]
  omega

/-- Re-clamping both values restores the invariant from any state. -/
theorem reclamp_establishes (env : Env) (a : Game_Actor) :
    HpSpWithinMax env (SetSp env (SetHp env a (GetHp a)) (GetSp (SetHp env a (GetHp a)))) := by
  have hp1 := GetMaxHp_pos env a
  have hp2 := GetMaxSp_nonneg env a
  have e1 : GetMaxHp env (SetSp env (SetHp env a (GetHp a)) (GetSp (SetHp env a (GetHp a)))) =
      GetMaxHp env a := GetMaxHp_congr env rfl rfl rfl rfl
  have e2 : GetMaxSp env (SetSp env (SetHp env a (GetHp a)) (GetSp (SetHp env a (GetHp a)))) =
      GetMaxSp env a := GetMaxSp_congr env rfl rfl rfl rfl
  have e2' : GetMaxSp env (SetHp env a (GetHp a)) = GetMaxSp env a :=
    GetMaxSp_congr env rfl rfl rfl rfl
  have e3 : (SetSp env (SetHp env a (GetHp a)) (GetSp (SetHp env a (GetHp a)))).current_sp =
      min (max a.current_sp 0) (GetMaxSp env (SetHp env a (GetHp a))) := rfl
  have e4 : (SetSp env (SetHp env a (GetHp a)) (GetSp (SetHp env a (GetHp a)))).current_hp =
      min (max a.current_hp 0) (GetMaxHp env a) := rfl
  unfold HpSpWithinMax
  rw [e1, e2, e3, e4, e2']
  omega

theorem ChangeHp_keeps (env : Env) (a : Game_Actor) (hp : Int) (h : HpSpWithinMax env a) :
    HpSpWithinMax env (ChangeHp env a hp) := by
  have h1 := SetHp_keeps env a (GetHp a + hp) h
  unfold ChangeHp
  simp only
  split_ifs with c1 c2
  · refine (HpSpWithinMax_congr env ?_ ?_ ?_ ?_ ?_ ?_ ?_).mp h1 <;>
      (unfold AddState RemoveAllStates; split_ifs <;> rfl)
  · have h2 : HpSpWithinMax env (RemoveState (SetHp env a (GetHp a + hp)) 1) :=
      (HpSpWithinMax_congr env rfl rfl rfl rfl rfl rfl rfl).mp h1
    exact SetHp_keeps env _ 1 h2
  · exact (HpSpWithinMax_congr env rfl rfl rfl rfl rfl rfl rfl).mp h1

theorem SetBaseMaxHp_keeps (env : Env) (a : Game_Actor) (v : Int) (h : HpSpWithinMax env a) :
    HpSpWithinMax env (SetBaseMaxHp env a v) := by
  unfold SetBaseMaxHp
  simp only
  set a1 : Game_Actor := { a with hp_mod := a.hp_mod + (v - GetBaseMaxHp env a true) } with ha1
  have hp1 := GetMaxHp_pos env a1
  have e1 : GetMaxHp env (SetHp env a1 a1.current_hp) = GetMaxHp env a1 :=
    GetMaxHp_congr env rfl rfl rfl rfl
  have e2 : GetMaxSp env (SetHp env a1 a1.current_hp) = GetMaxSp env a :=
    GetMaxSp_congr env rfl rfl rfl rfl
  have e3 : (SetHp env a1 a1.current_hp).current_hp =
      min (max a.current_hp 0) (GetMaxHp env a1) := rfl
  have e4 : (SetHp env a1 a1.current_hp).current_sp = a.current_sp := rfl
  unfold HpSpWithinMax at h ⊢
  rw [e1, e2, e3, e4]
  omega

theorem SetBaseMaxSp_keeps (env : Env) (a : Game_Actor) (v : Int) (h : HpSpWithinMax env a) :
    HpSpWithinMax env (SetBaseMaxSp env a v) := by
  unfold SetBaseMaxSp
  simp only
  set a1 : Game_Actor := { a with sp_mod := a.sp_mod + (v - GetBaseMaxSp env a true) } with ha1
  have hp1 := GetMaxSp_nonneg env a1
  have e1 : GetMaxHp env (SetSp env a1 a1.current_sp) = GetMaxHp env a :=
    GetMaxHp_congr env rfl rfl rfl rfl
  have e2 : GetMaxSp env (SetSp env a1 a1.current_sp) = GetMaxSp env a1 :=
    GetMaxSp_congr env rfl rfl rfl rfl
  have e3 : (SetSp env a1 a1.current_sp).current_sp =
      min (max a.current_sp 0) (GetMaxSp env a1) := rfl
  have e4 : (SetSp env a1 a1.current_sp).current_hp = a.current_hp := rfl
  unfold HpSpWithinMax at h ⊢
  rw [e1, e2, e3, e4]
  omega

theorem LearnSkill_keeps (env : Env) (a : Game_Actor) (id : Int) (h : HpSpWithinMax env a) :
    HpSpWithinMax env (LearnSkill a id).2 := by
  rw [LearnSkill_frame]
  exact (HpSpWithinMax_congr env rfl rfl rfl rfl rfl rfl rfl).mp h

theorem UseItem_keeps (env : Env) (battler : Game_Actor → Int → Bool × Game_Actor)
    (a : Game_Actor) (id : Int) (r : Bool × Game_Actor)
    (hb : ∀ x i, HpSpWithinMax env x → HpSpWithinMax env (battler x i).2)
    (hr : UseItem env battler a id = some r) (h : HpSpWithinMax env a) :
    HpSpWithinMax env r.2 := by
  unfold UseItem at hr
  simp only at hr
  split_ifs at hr with c1 c2 c3 c4
  · cases hr; exact h
  · cases hr; exact LearnSkill_keeps env a _ h
  · cases hr
    have s1 := SetBaseMaxHp_keeps env a
      (GetBaseMaxHp env a true + (vecGet env.items (id - 1)).max_hp_points) h
    have s2 := SetBaseMaxSp_keeps env _
      (GetBaseMaxSp env (SetBaseMaxHp env a
        (GetBaseMaxHp env a true + (vecGet env.items (id - 1)).max_hp_points)) true +
        (vecGet env.items (id - 1)).max_sp_points) s1
    exact (HpSpWithinMax_congr env rfl rfl rfl rfl rfl rfl rfl).mp s2
  · cases hr; exact hb a id h

theorem MakeExpList_frame (env : Env) (a : Game_Actor) :
    MakeExpList env a = { a with exp_list := (MakeExpList env a).exp_list } := rfl

theorem SetClass_keeps (env : Env) (a : Game_Actor) (c : Int) (hc : a.changed_class = false)
    (h : HpSpWithinMax env a) : HpSpWithinMax env (SetClass env a c) := by
  have e3 : (SetClass env a c).changed_class = false := hc
  have p : effectiveParameters env (SetClass env a c) = effectiveParameters env a := by
    simp [effectiveParameters, hc, e3]
  have e1 : GetMaxHp env (SetClass env a c) = GetMaxHp env a := by
    rw [GetMaxHp_eq, GetMaxHp_eq, p]; rfl
  have e2 : GetMaxSp env (SetClass env a c) = GetMaxSp env a := by
    rw [GetMaxSp_eq, GetMaxSp_eq, p]; rfl
  unfold HpSpWithinMax at h ⊢
  rw [e1, e2]
  exact h

theorem GetMaxHp_mono (env : Env) {a b : Game_Actor} (hst : StatTablesNonDecreasing env a)
    (h2 : a.hp_mod = b.hp_mod) (h3 : a.changed_class = b.changed_class)
    (h4 : a.class_id = b.class_id) (l1 : 1 ≤ a.level) (l2 : a.level ≤ b.level)
    (l3 : b.level ≤ GetMaxLevel env) : GetMaxHp env a ≤ GetMaxHp env b := by
  rw [GetMaxHp_eq, GetMaxHp_eq, ← effectiveParameters_congr env h3 h4, ← h2]
  have := vecGet_mono _ hst.1 (a.level - 1) (b.level - 1) (by omega) (by omega)
    (by have := hst.2.2.1; omega)
  omega

theorem GetMaxSp_mono (env : Env) {a b : Game_Actor} (hst : StatTablesNonDecreasing env a)
    (h2 : a.sp_mod = b.sp_mod) (h3 : a.changed_class = b.changed_class)
    (h4 : a.class_id = b.class_id) (l1 : 1 ≤ a.level) (l2 : a.level ≤ b.level)
    (l3 : b.level ≤ GetMaxLevel env) : GetMaxSp env a ≤ GetMaxSp env b := by
  rw [GetMaxSp_eq, GetMaxSp_eq, ← effectiveParameters_congr env h3 h4, ← h2]
  have := vecGet_mono _ hst.2.1 (a.level - 1) (b.level - 1) (by omega) (by omega)
    (by have := hst.2.2.2; omega)
  omega

/-- Raising only the level keeps the invariant when the maxima do not fall. -/
theorem HpSpWithinMax_of_level_raised (env : Env) {a b : Game_Actor}
    (hst : StatTablesNonDecreasing env a) (h : HpSpWithinMax env a)
    (e1 : a.current_hp = b.current_hp) (e2 : a.current_sp = b.current_sp)
    (h2 : a.hp_mod = b.hp_mod) (h2' : a.sp_mod = b.sp_mod)
    (h3 : a.changed_class = b.changed_class) (h4 : a.class_id = b.class_id)
    (l1 : 1 ≤ a.level) (l2 : a.level ≤ b.level) (l3 : b.level ≤ GetMaxLevel env) :
    HpSpWithinMax env b := by
  have m1 := GetMaxHp_mono env hst h2 h3 h4 l1 l2 l3
  have m2 := GetMaxSp_mono env hst h2' h3 h4 l1 l2 l3
  unfold HpSpWithinMax at h ⊢
  rw [← e1, ← e2]
  omega

theorem SetLevel_keeps (env : Env) (a : Game_Actor) (n : Int)
    (hst : StatTablesNonDecreasing env a) (hrange : LevelInRange env a) (hn : a.level ≤ n)
    (h : HpSpWithinMax env a) : HpSpWithinMax env (SetLevel env a n) := by
  obtain ⟨r1, r2⟩ := hrange
  have hl : (SetLevel env a n).level = min (max n 1) (GetMaxLevel env) := rfl
  exact HpSpWithinMax_of_level_raised env hst h rfl rfl rfl rfl rfl rfl r1
    (by rw [hl]; omega) (by rw [hl]; omega)

/-- Embeds `ChangeLevel` to a level not above the current one re-clamps HP and SP. -/
theorem ChangeLevel_keeps_of_not_raised (env : Env) (a : Game_Actor) (m : Game_Message)
    (n : Int) (b : Bool) (hle : min (max n 1) (GetMaxLevel env) ≤ a.level)
    (h : HpSpWithinMax env a) : HpSpWithinMax env (ChangeLevel env a m n b).1 := by
  rcases lt_or_eq_of_le hle with hlt | heq
  · have hl : (SetLevel env a n).level = min (max n 1) (GetMaxLevel env) := rfl
    have hX := reclamp_establishes env (SetLevel env a n)
    simp only [ChangeLevel, GetLevel, hl]
    rw [if_neg (by omega), if_pos hlt]
    split_ifs
    · exact (HpSpWithinMax_congr env rfl rfl rfl rfl rfl rfl rfl).mp hX
    · exact hX
  · rw [ChangeLevel_same env a m n b heq]
    exact h

theorem ChangeLevel_keeps_of_raised (env : Env) (a : Game_Actor) (m : Game_Message)
    (n : Int) (b : Bool) (hst : StatTablesNonDecreasing env a) (hrange : LevelInRange env a)
    (hlt : a.level < min (max n 1) (GetMaxLevel env))
    (h : HpSpWithinMax env a) : HpSpWithinMax env (ChangeLevel env a m n b).1 := by
  obtain ⟨r1, r2⟩ := hrange
  have hl := ChangeLevel_level env a m n b
  have hres : (ChangeLevel env a m n b).1 =
      SetExp env (levelUpLoop env (SetLevel env a n) m a.level
        (min (max n 1) (GetMaxLevel env)) b).actor
        (max (GetBaseExp env (levelUpLoop env (SetLevel env a n) m a.level
          (min (max n 1) (GetMaxLevel env)) b).actor
          (GetLevel (levelUpLoop env (SetLevel env a n) m a.level
          (min (max n 1) (GetMaxLevel env)) b).actor))
          (GetExp (levelUpLoop env (SetLevel env a n) m a.level
          (min (max n 1) (GetMaxLevel env)) b).actor)) := by
    have hl' : (SetLevel env a n).level = min (max n 1) (GetMaxLevel env) := rfl
    simp only [ChangeLevel, GetLevel, hl']
    rw [if_pos (by omega)]
  refine HpSpWithinMax_of_level_raised env hst h ?_ ?_ ?_ ?_ ?_ ?_ r1
    (by rw [hl]; omega) (by rw [hl]; omega)
  all_goals (rw [hres]; simp only [SetExp]; rw [levelUpLoop_frame]; rfl)

theorem ChangeLevel_keeps (env : Env) (a : Game_Actor) (m : Game_Message)
    (n : Int) (b : Bool) (hst : StatTablesNonDecreasing env a) (hrange : LevelInRange env a)
    (h : HpSpWithinMax env a) : HpSpWithinMax env (ChangeLevel env a m n b).1 := by
  rcases lt_or_le a.level (min (max n 1) (GetMaxLevel env)) with hlt | hle
  · exact ChangeLevel_keeps_of_raised env a m n b hst hrange hlt h
  · exact ChangeLevel_keeps_of_not_raised env a m n b hle h

theorem ChangeExp_unfold (env : Env) (a : Game_Actor) (m : Game_Message) (v : Int) (b : Bool) :
    ChangeExp env a m v b =
      if scannedLevel env a (min (max v 0) (max_exp_value env)) ≠ a.level then
        ChangeLevel env (SetExp env a (min (max v 0) (max_exp_value env))) m
          (scannedLevel env a (min (max v 0) (max_exp_value env))) b
      else (SetExp env a (min (max v 0) (max_exp_value env)), m) := rfl

theorem ChangeExp_keeps (env : Env) (a : Game_Actor) (m : Game_Message)
    (v : Int) (b : Bool) (hst : StatTablesNonDecreasing env a) (hrange : LevelInRange env a)
    (h : HpSpWithinMax env a) : HpSpWithinMax env (ChangeExp env a m v b).1 := by
  have h1 : HpSpWithinMax env (SetExp env a (min (max v 0) (max_exp_value env))) :=
    (HpSpWithinMax_congr env rfl rfl rfl rfl rfl rfl rfl).mp h
  rw [ChangeExp_unfold]
  split_ifs
  · exact ChangeLevel_keeps env _ m _ b hst hrange h1
  · exact h1

theorem toInt16_of_fits (x : Int) (h1 : -32768 ≤ x) (h2 : x ≤ 32767) : toInt16 x = x := by
  unfold toInt16; omega

theorem mem_sorted_iff (l : List Int) (x : Int) :
    x ∈ List.insertionSort (fun x y => x ≤ y) l ↔ x ∈ l :=
  (List.perm_insertionSort _ l).mem_iff

theorem LearnSkill_skills (a : Game_Actor) (id : Int) :
    (LearnSkill a id).2.skills =
      if id > 0 ∧ id ∉ a.skills then
        List.insertionSort (fun x y => x ≤ y) (a.skills ++ [toInt16 id])
      else a.skills := by
  unfold LearnSkill IsSkillLearned
  by_cases h : id > 0 ∧ id ∉ a.skills
  · rw [if_pos (by simpa using h), if_pos h]
  · rw [if_neg (by simpa using h), if_neg h]

theorem LearnSkill_result (a : Game_Actor) (id : Int) :
    (LearnSkill a id).1 = decide (id > 0 ∧ id ∉ a.skills) := by
  unfold LearnSkill IsSkillLearned
  by_cases h : id > 0 ∧ id ∉ a.skills
  · rw [if_pos (by simpa using h)]; simp [h]
  · rw [if_neg (by simpa using h)]; simp [h]

theorem LearnSkill_mem (a : Game_Actor) (id x : Int) :
    x ∈ (LearnSkill a id).2.skills ↔
      x ∈ a.skills ∨ (id > 0 ∧ id ∉ a.skills ∧ x = toInt16 id) := by
  rw [LearnSkill_skills]
  split_ifs with h
  · rw [mem_sorted_iff]
    simp only [List.mem_append, List.mem_singleton]
    constructor
    · rintro (h1 | h1)
      · exact Or.inl h1
      · exact Or.inr ⟨h.1, h.2, h1⟩
    · rintro (h1 | ⟨-, -, h1⟩)
      · exact Or.inl h1
      · exact Or.inr h1
  · constructor
    · exact Or.inl
    · rintro (h1 | ⟨p, q, -⟩)
      · exact h1
      · exact absurd ⟨p, q⟩ h

theorem learnStep_mem (env : Env) (o n : Int) (b : Bool) (st : LevelLoop) (it : Learning)
    (x : Int) :
    x ∈ (learnStep env o n b st it).actor.skills ↔
      x ∈ st.actor.skills ∨
        ((it.level > o ∧ it.level ≤ n) ∧ it.skill_id > 0 ∧ it.skill_id ∉ st.actor.skills ∧
          x = toInt16 it.skill_id) := by
  rw [learnStep_actor]
  split_ifs with h
  · rw [LearnSkill_mem]; simp [h]
  · simp [h]

/-- Skills known before the loop are known after it. -/
theorem foldl_learnStep_keeps (env : Env) (o n : Int) (b : Bool) (x : Int) :
    ∀ (l : List Learning) (st : LevelLoop), x ∈ st.actor.skills →
      x ∈ (l.foldl (learnStep env o n b) st).actor.skills := by
  intro l
  induction l with
  | nil => intro st h; exact h
  | cons it l ih =>
    intro st h
    simp only [List.foldl_cons]
    exact ih _ ((learnStep_mem env o n b st it x).mpr (Or.inl h))

/-- Every entry in the level window whose id fits 16 bits is known after the loop. -/
theorem foldl_learnStep_learns (env : Env) (o n : Int) (b : Bool) :
    ∀ (l : List Learning) (st : LevelLoop) (it : Learning), it ∈ l →
      o < it.level → it.level ≤ n → 0 < it.skill_id → it.skill_id ≤ 32767 →
      it.skill_id ∈ (l.foldl (learnStep env o n b) st).actor.skills := by
  intro l
  induction l with
  | nil => intro st it h; simp at h
  | cons hd l ih =>
    intro st it hmem h1 h2 h3 h4
    simp only [List.foldl_cons]
    rcases List.mem_cons.mp hmem with heq | htl
    · subst heq
      apply foldl_learnStep_keeps
      rw [learnStep_mem]
      by_cases hin : it.skill_id ∈ st.actor.skills
      · exact Or.inl hin
      · exact Or.inr ⟨⟨h1, h2⟩, h3, hin, (toInt16_of_fits _ (by omega) h4).symm⟩
    · exact ih _ it htl h1 h2 h3 h4

/-- Every id known after the loop was known before or is the stored form of an
entry in the level window. -/
theorem foldl_learnStep_only (env : Env) (o n : Int) (b : Bool) (x : Int) :
    ∀ (l : List Learning) (st : LevelLoop),
      x ∈ (l.foldl (learnStep env o n b) st).actor.skills →
      x ∈ st.actor.skills ∨
        ∃ it ∈ l, o < it.level ∧ it.level ≤ n ∧ 0 < it.skill_id ∧ x = toInt16 it.skill_id := by
  intro l
  induction l with
  | nil => intro st h; exact Or.inl h
  | cons hd l ih =>
    intro st h
    simp only [List.foldl_cons] at h
    rcases ih _ h with h1 | ⟨it, hit, p⟩
    · rcases (learnStep_mem env o n b st hd x).mp h1 with h2 | ⟨⟨q1, q2⟩, q3, -, q5⟩
      · exact Or.inl h2
      · exact Or.inr ⟨hd, List.mem_cons_self _ _, q1, q2, q3, q5⟩
    · exact Or.inr ⟨it, List.mem_cons_of_mem _ hit, p⟩

theorem levelUpLoop_init_skills (a : Game_Actor) (m : Game_Message) (line : String)
    (b : Bool) :
    (if b = true then
        ({ actor := a, msg := { m with texts := m.texts ++ [line] }, level_up := true } :
          LevelLoop)
      else { actor := a, msg := m, level_up := false }).actor = a := by
  cases b <;> rfl

theorem levelUpLoop_keeps (env : Env) (a : Game_Actor) (m : Game_Message) (o n : Int)
    (b : Bool) (x : Int) (h : x ∈ a.skills) :
    x ∈ (levelUpLoop env a m o n b).actor.skills := by
  unfold levelUpLoop
  apply foldl_learnStep_keeps
  rw [levelUpLoop_init_skills]; exact h

theorem levelUpLoop_learns (env : Env) (a : Game_Actor) (m : Game_Message) (o n : Int)
    (b : Bool) (it : Learning) (hmem : it ∈ env.actor.skills)
    (h1 : o < it.level) (h2 : it.level ≤ n) (h3 : 0 < it.skill_id) (h4 : it.skill_id ≤ 32767) :
    it.skill_id ∈ (levelUpLoop env a m o n b).actor.skills := by
  unfold levelUpLoop
  exact foldl_learnStep_learns env o n b _ _ it hmem h1 h2 h3 h4

theorem levelUpLoop_only (env : Env) (a : Game_Actor) (m : Game_Message) (o n : Int)
    (b : Bool) (x : Int) (h : x ∈ (levelUpLoop env a m o n b).actor.skills) :
    x ∈ a.skills ∨
      ∃ it ∈ env.actor.skills,
        o < it.level ∧ it.level ≤ n ∧ 0 < it.skill_id ∧ x = toInt16 it.skill_id := by
  unfold levelUpLoop at h
  have := foldl_learnStep_only env o n b x _ _ h
  rwa [levelUpLoop_init_skills] at this

/-- The registry after a level increase through `ChangeLevel` is the one the
skill loop leaves. -/
theorem ChangeLevel_skills_up (env : Env) (a : Game_Actor) (m : Game_Message) (n : Int)
    (b : Bool) (h : a.level < min (max n 1) (GetMaxLevel env)) :
    (ChangeLevel env a m n b).1.skills =
      (levelUpLoop env (SetLevel env a n) m a.level
        (min (max n 1) (GetMaxLevel env)) b).actor.skills := by
  have hl : (SetLevel env a n).level = min (max n 1) (GetMaxLevel env) := rfl
  simp only [ChangeLevel, GetLevel, hl]
  rw [if_pos (by omega)]
  rfl

theorem learnStep_silent (env : Env) (o n : Int) (st : LevelLoop) (it : Learning) :
    (learnStep env o n false st it).msg = st.msg ∧
    (learnStep env o n false st it).level_up = st.level_up := by
  simp only [learnStep]
  split_ifs <;> simp_all

theorem learnStep_fires (env : Env) (o n : Int) (st : LevelLoop) (it : Learning)
    (h : learnFires o n st it) :
    (learnStep env o n true st it).msg =
      { st.msg with texts := st.msg.texts ++ [skillLine env it.skill_id] } ∧
    (learnStep env o n true st it).level_up = true := by
  obtain ⟨hw, hpos, hnot⟩ := h
  have hr : (LearnSkill st.actor it.skill_id).1 = true := by
    rw [LearnSkill_result]; simp [hpos, hnot]
  simp only [learnStep]
  rw [if_pos hw, if_pos ⟨hr, trivial⟩]
  exact ⟨rfl, rfl⟩

theorem learnStep_idle (env : Env) (o n : Int) (b : Bool) (st : LevelLoop) (it : Learning)
    (h : ¬ learnFires o n st it) :
    (learnStep env o n b st it).msg = st.msg ∧
    (learnStep env o n b st it).level_up = st.level_up ∧
    (learnStep env o n b st it).actor.skills = st.actor.skills := by
  simp only [learnStep]
  by_cases hw : it.level > o ∧ it.level ≤ n
  · have hr : (LearnSkill st.actor it.skill_id).1 = false := by
      rw [LearnSkill_result]
      simp only [decide_eq_false_iff_not]
      intro hc
      exact h ⟨hw, hc.1, hc.2⟩
    have hs : (LearnSkill st.actor it.skill_id).2.skills = st.actor.skills := by
      rw [LearnSkill_skills, if_neg]
      intro hc
      exact h ⟨hw, hc.1, hc.2⟩
    rw [if_pos hw, if_neg (by simp [hr])]
    exact ⟨rfl, rfl, hs⟩
  · rw [if_neg hw]
    exact ⟨rfl, rfl, rfl⟩

/-- Without announcement the skill loop leaves the queue and the flag alone. -/
theorem foldl_learnStep_silent (env : Env) (o n : Int) :
    ∀ (l : List Learning) (st : LevelLoop),
      (l.foldl (learnStep env o n false) st).msg = st.msg ∧
      (l.foldl (learnStep env o n false) st).level_up = st.level_up := by
  intro l
  induction l with
  | nil => intro st; exact ⟨rfl, rfl⟩
  | cons hd l ih =>
    intro st
    simp only [List.foldl_cons]
    obtain ⟨h1, h2⟩ := ih (learnStep env o n false st hd)
    obtain ⟨g1, g2⟩ := learnStep_silent env o n st hd
    exact ⟨h1.trans g1, h2.trans g2⟩

/-- With announcement the skill loop queues one line per skill it adds to the
registry, in order, and keeps the registry duplicate-free. -/
theorem foldl_learnStep_announce (env : Env) (o n : Int) :
    ∀ (l : List Learning) (st : LevelLoop),
      (∀ it ∈ l, o < it.level → it.level ≤ n → it.skill_id ≤ 32767) →
      st.actor.skills.Nodup → st.level_up = true →
      ∃ learned : List Int,
        (l.foldl (learnStep env o n true) st).msg =
          { st.msg with texts := st.msg.texts ++ learned.map (skillLine env) } ∧
        (l.foldl (learnStep env o n true) st).level_up = true ∧
        (l.foldl (learnStep env o n true) st).actor.skills.Nodup ∧
        learned.Nodup ∧
        ∀ id, id ∈ learned ↔
          (id ∈ (l.foldl (learnStep env o n true) st).actor.skills ∧ id ∉ st.actor.skills) := by
  intro l
  induction l with
  | nil =>
    intro st _ hnd hup
    refine ⟨[], ?_, hup, hnd, List.nodup_nil, ?_⟩
    · simp
    · intro id; simp
  | cons hd l ih =>
    intro st hfit hnd hup
    simp only [List.foldl_cons]
    have hfit' : ∀ it ∈ l, o < it.level → it.level ≤ n → it.skill_id ≤ 32767 :=
      fun it hit => hfit it (List.mem_cons_of_mem _ hit)
    by_cases hf : learnFires o n st hd
    · obtain ⟨g1, g2⟩ := learnStep_fires env o n st hd hf
      obtain ⟨hw, hpos, hnot⟩ := hf
      have hstored : toInt16 hd.skill_id = hd.skill_id :=
        toInt16_of_fits _ (by omega) (hfit hd (List.mem_cons_self _ _) hw.1 hw.2)
      have hsk : (learnStep env o n true st hd).actor.skills =
          List.insertionSort (fun x y => x ≤ y) (st.actor.skills ++ [hd.skill_id]) := by
        rw [learnStep_actor, if_pos hw, LearnSkill_skills, if_pos ⟨hpos, hnot⟩, hstored]
      have hnd1 : (learnStep env o n true st hd).actor.skills.Nodup := by
        rw [hsk]
        refine (List.perm_insertionSort _ _).nodup_iff.mpr ?_
        rw [List.nodup_append]
        refine ⟨hnd, List.nodup_singleton _, ?_⟩
        intro x hx hx'
        rw [List.mem_singleton] at hx'
        subst hx'
        exact hnot hx
      have hmem1 : ∀ x, x ∈ (learnStep env o n true st hd).actor.skills ↔
          (x ∈ st.actor.skills ∨ x = hd.skill_id) := by
        intro x
        rw [hsk, mem_sorted_iff]
        simp
      obtain ⟨learned, e1, e2, e3, e4, e5⟩ := ih (learnStep env o n true st hd) hfit' hnd1 g2
      refine ⟨hd.skill_id :: learned, ?_, e2, e3, ?_, ?_⟩
      · rw [e1, g1]; simp
      · rw [List.nodup_cons]
        refine ⟨?_, e4⟩
        intro hc
        exact ((e5 _).mp hc).2 ((hmem1 _).mpr (Or.inr rfl))
      · intro id
        rw [List.mem_cons, e5, hmem1]
        constructor
        · rintro (h | ⟨h1, h2⟩)
          · subst h
            exact ⟨foldl_learnStep_keeps env o n true _ l _ ((hmem1 _).mpr (Or.inr rfl)), hnot⟩
          · exact ⟨h1, fun hc => h2 (Or.inl hc)⟩
        · rintro ⟨h1, h2⟩
          by_cases hid : id = hd.skill_id
          · exact Or.inl hid
          · exact Or.inr ⟨h1, fun hc => hc.elim h2 hid⟩
    · obtain ⟨g1, g2, g3⟩ := learnStep_idle env o n true st hd hf
      obtain ⟨learned, e1, e2, e3, e4, e5⟩ :=
        ih (learnStep env o n true st hd) hfit' (by rw [g3]; exact hnd) (by rw [g2]; exact hup)
      refine ⟨learned, ?_, e2, e3, e4, ?_⟩
      · rw [e1, g1]
      · intro id; rw [e5, g3]

theorem appendToBack_append (xs ys : List String) (s : String) (h : ys ≠ []) :
    appendToBack (xs ++ ys) s = xs ++ appendToBack ys s := by
  induction xs with
  | nil => rfl
  | cons x xs ih =>
    cases hxy : xs ++ ys with
    | nil =>
      exfalso
      have := List.append_eq_nil.mp hxy
      exact h this.2
    | cons z zs =>
      rw [List.cons_append, hxy, appendToBack, ← hxy, ih]
      rfl

theorem appendToBack_eq (ys : List String) (s : String) (h : ys ≠ []) :
    appendToBack ys s = ys.dropLast ++ [ys.getLastD "" ++ s] := by
  induction ys with
  | nil => exact absurd rfl h
  | cons y ys ih =>
    cases ys with
    | nil => rfl
    | cons z zs =>
      rw [appendToBack, ih (by simp)]
      simp [List.dropLast, List.getLastD]

theorem ChangeLevel_msg_up (env : Env) (a : Game_Actor) (m : Game_Message) (n : Int)
    (b : Bool) (h : a.level < min (max n 1) (GetMaxLevel env)) :
    (ChangeLevel env a m n b).2 =
      levelUpFlush (levelUpLoop env (SetLevel env a n) m a.level
        (min (max n 1) (GetMaxLevel env)) b) := by
  have hl : (SetLevel env a n).level = min (max n 1) (GetMaxLevel env) := rfl
  simp only [ChangeLevel, GetLevel, hl]
  rw [if_pos (by omega)]

theorem levelUpLoop_silent (env : Env) (a : Game_Actor) (m : Game_Message) (o n : Int) :
    levelUpFlush (levelUpLoop env a m o n false) = m := by
  unfold levelUpLoop levelUpFlush
  obtain ⟨h1, h2⟩ := foldl_learnStep_silent env o n env.actor.skills
    { actor := a, msg := m, level_up := false }
  simp only [Bool.false_eq_true, if_false] at h1 h2 ⊢
  rw [h2, h1]
  simp

theorem levelUpLoop_announce (env : Env) (a : Game_Actor) (m : Game_Message) (o n : Int)
    (hfit : ∀ it ∈ env.actor.skills, o < it.level → it.level ≤ n → it.skill_id ≤ 32767)
    (hnd : a.skills.Nodup) :
    ∃ learned : List Int,
      levelUpFlush (levelUpLoop env a m o n true) =
        { texts := m.texts ++
            (levelUpLine env a n :: learned.map (skillLine env)).dropLast ++
            [(levelUpLine env a n :: learned.map (skillLine env)).getLastD "" ++ "\x0c"]
          message_waiting := true } ∧
      (levelUpLoop env a m o n true).actor.skills.Nodup ∧
      learned.Nodup ∧
      ∀ id, id ∈ learned ↔
        (id ∈ (levelUpLoop env a m o n true).actor.skills ∧ id ∉ a.skills) := by
  unfold levelUpLoop levelUpFlush
  simp only [if_true]
  obtain ⟨learned, e1, e2, e3, e4, e5⟩ := foldl_learnStep_announce env o n env.actor.skills
    { actor := a, msg := { m with texts := m.texts ++ [levelUpLine env a n] }, level_up := true }
    hfit hnd rfl
  refine ⟨learned, ?_, e3, e4, e5⟩
  rw [e2, e1]
  simp only [if_true]
  have hne : levelUpLine env a n :: learned.map (skillLine env) ≠ [] := by simp
  have : m.texts ++ [levelUpLine env a n] ++ learned.map (skillLine env) =
      m.texts ++ (levelUpLine env a n :: learned.map (skillLine env)) := by simp
  rw [this, appendToBack_append _ _ _ hne, appendToBack_eq _ _ hne]
  simp

/-- A gain that crosses exactly two thresholds ends two levels up. -/
theorem ChangeExp_two_levels (env : Env) (a : Game_Actor) (m : Game_Message) (v : Int)
    (b : Bool) (hwf : ExpListWF env a) (hmono : ExpListNonDecreasing a)
    (hrange : LevelInRange env a) (hcons : LevelExpConsistent env a)
    (hL : a.level + 2 ≤ GetMaxLevel env)
    (hv1 : minExpForLevel a (a.level + 2) ≤ v)
    (hv2 : a.level + 2 = GetMaxLevel env ∨ v < minExpForLevel a (a.level + 3)) :
    scannedLevel env a (min (max v 0) (max_exp_value env)) = a.level + 2 := by
  obtain ⟨-, -, l1, l2, -, hgreat⟩ := ChangeExp_greatest env a m v b hwf hmono hrange hcons
  obtain ⟨el, -, -⟩ := ChangeExp_level_exp env a m v b hrange.1 hrange.2
  obtain ⟨hge, -, -, -, h5, -⟩ := ChangeExp_greatest env a m v b hwf hmono hrange hcons
  rw [el] at l1 l2 hgreat h5
  have hM := max_exp_value_pos env
  have hcap := minExpForLevel_le_max env a hwf (a.level + 2) (by have := hrange.1; omega) hL
  have hnn := minExpForLevel_nonneg env a hwf hmono (a.level + 2)
    (by have := hrange.1; omega) hL
  have lo := hgreat (a.level + 2) (by have := hrange.1; omega) hL (by omega)
  by_contra hne
  have hgt : a.level + 3 ≤ scannedLevel env a (min (max v 0) (max_exp_value env)) := by omega
  rcases hv2 with hv2 | hv2
  · omega
  · have := vecGet_mono _ hmono (a.level + 3 - 1)
      (scannedLevel env a (min (max v 0) (max_exp_value env)) - 1)
      (by have := hrange.1; omega) (by omega) (by have := hwf.1; omega)
    unfold minExpForLevel at h5 hv2
    omega

theorem clampSpec_eq (x lo hi : Int) (h : lo ≤ hi) : min (max x lo) hi = clampSpec x lo hi := by
  unfold clampSpec
  split_ifs <;> omega

theorem addEquipped_eq_sum (env : Env) (f : Item → Int) :
    ∀ (l : List Int) (n : Int),
      addEquipped env f l n = n + (l.map (slotBonusSpec env f)).sum := by
  intro l
  induction l with
  | nil => intro n; simp [addEquipped]
  | cons x xs ih =>
    intro n
    have hstep : addEquipped env f (x :: xs) n =
        addEquipped env f xs
          (if x > 0 ∧ x ≤ (env.items.length : Int) then n + f (vecGet env.items (x - 1))
            else n) := rfl
    rw [hstep, ih]
    simp only [List.map_cons, List.sum_cons, slotBonusSpec]
    split_ifs <;> omega

theorem equipSumSpec_eq (env : Env) (f : Item → Int) (a : Game_Actor)
    (h : a.equipped.length = 5) :
    equipSumSpec env f a = (a.equipped.map (slotBonusSpec env f)).sum := by
  unfold equipSumSpec
  match hq : a.equipped, h with
  | [e0, e1, e2, e3, e4], _ =>
    simp [List.range, List.range.loop, vecGet]

theorem layered_eq (env : Env) (a : Game_Actor) (t : Int) (modifier : Int)
    (f : Item → Int) (mod equip : Bool) (lo hi : Int) (hlh : lo ≤ hi)
    (h : a.equipped.length = 5) :
    min (max
      (if equip = true then
        addEquipped env f a.equipped (if mod = true then t + modifier else t)
       else (if mod = true then t + modifier else t)) lo) hi =
    layeredStatSpec env a t modifier f mod equip lo hi := by
  rw [clampSpec_eq _ _ _ hlh]
  unfold layeredStatSpec
  congr 1
  rw [equipSumSpec_eq env f a h]
  cases equip <;> cases mod <;> simp [addEquipped_eq_sum]

theorem effectiveArchetypeSpec_eq (env : Env) (a : Game_Actor) (p : Parameters)
    (h : effectiveArchetypeSpec env a = some p) : effectiveParameters env a = p := by
  unfold effectiveArchetypeSpec at h
  unfold effectiveParameters
  by_cases hc : a.changed_class = true
  · rw [if_pos hc] at h ⊢
    by_cases h1 : 1 ≤ a.class_id
    · rw [if_pos h1] at h
      unfold vecGet
      rw [if_neg (by omega)]
      cases hg : env.classes.get? (a.class_id - 1).toNat with
      | none => rw [hg] at h; simp at h
      | some k =>
        rw [hg] at h
        simp only [Option.map_some', Option.some.injEq] at h
        rw [List.getD_eq_getElem?_getD, ← List.get?_eq_getElem?, hg]
        exact h
    · rw [if_neg h1] at h; simp at h
  · rw [if_neg hc] at h ⊢
    exact Option.some.inj h

theorem tableValueSpec_eq (table : List Int) (level t : Int)
    (h : tableValueSpec table level = some t) : vecGet table (level - 1) = t := by
  unfold tableValueSpec at h
  by_cases h1 : 1 ≤ level
  · rw [if_pos h1] at h
    unfold vecGet
    rw [if_neg (by omega), List.getD_eq_getElem?_getD, ← List.get?_eq_getElem?, h]
    rfl
  · rw [if_neg h1] at h; simp at h

theorem SetEquipment_in_range (env : Env) (a : Game_Actor) (i x : Int) (h0 : 0 ≤ i)
    (h1 : i < (a.equipped.length : Int)) :
    SetEquipment env a i x =
      (if vecGet a.equipped i > (env.items.length : Int) then 0 else vecGet a.equipped i,
        { a with equipped := a.equipped.set i.toNat (toInt16 x) }) := by
  unfold SetEquipment
  rw [if_neg (by omega)]

theorem SetEquipment_out_of_range (env : Env) (a : Game_Actor) (i x : Int)
    (h : i < 0 ∨ i ≥ (a.equipped.length : Int)) : SetEquipment env a i x = (-1, a) := by
  unfold SetEquipment
  rw [if_pos h]

/-- Equipping into a slot and emptying it again leaves the slot at 0 and the
rest of the actor as it was. -/
theorem SetEquipment_twice (env : Env) (a : Game_Actor) (i x : Int) (h0 : 0 ≤ i)
    (h1 : i < (a.equipped.length : Int)) :
    (SetEquipment env (SetEquipment env a i x).2 i 0).2 =
      { a with equipped := a.equipped.set i.toNat 0 } := by
  rw [SetEquipment_in_range env a i x h0 h1]
  rw [SetEquipment_in_range env _ i 0 h0 (by simpa using h1)]
  simp [toInt16]

theorem addEquipped_set_empty (env : Env) (f : Item → Int) (l : List Int) (i : Int) (n : Int)
    (h0 : 0 ≤ i) (h1 : i < (l.length : Int))
    (hempty : ¬ (0 < vecGet l i ∧ vecGet l i ≤ (env.items.length : Int))) :
    addEquipped env f (l.set i.toNat 0) n = addEquipped env f l n := by
  rw [addEquipped_eq_sum, addEquipped_eq_sum]
  congr 1
  obtain ⟨hi, e⟩ := vecGet_eq_getElem l i h0 h1
  rw [e] at hempty
  have hz : slotBonusSpec env f l[i.toNat] = 0 := by
    unfold slotBonusSpec; rw [if_neg hempty]
  have hz0 : slotBonusSpec env f 0 = 0 := by
    unfold slotBonusSpec; rw [if_neg (by omega)]
  congr 1
  rw [List.map_set, hz0, ← hz]
  apply List.ext_getElem
  · simp
  · intro k hk1 hk2
    by_cases hk : i.toNat = k
    · subst hk; simp
    · simp [List.getElem_set_ne hk]

theorem vecGet_set_self (l : List Int) (i : Int) (v : Int) (h0 : 0 ≤ i)
    (h1 : i < (l.length : Int)) : vecGet (l.set i.toNat v) i = v := by
  obtain ⟨hi, e⟩ := vecGet_eq_getElem (l.set i.toNat v) i h0 (by simpa using h1)
  rw [e]; simp

theorem vecGet_set_other (l : List Int) (i j : Int) (v : Int) (h0 : 0 ≤ i) (hj : 0 ≤ j)
    (hne : j ≠ i) : vecGet (l.set i.toNat v) j = vecGet l j := by
  unfold vecGet
  rw [if_neg (by omega), if_neg (by omega)]
  have hn : i.toNat ≠ j.toNat := by omega
  simp [List.getD_eq_getElem?_getD, List.getElem?_set_ne hn]

theorem LearnSkill_of_learned (b : Game_Actor) (id : Int) (h : id ∈ b.skills) :
    LearnSkill b id = (false, b) := by
  unfold LearnSkill IsSkillLearned
  rw [if_neg (by simp [h])]

theorem CalculateExp_le_max (env : Env) (a : Game_Actor) (level : Int) :
    CalculateExp env a level ≤ max_exp_value env := by
  unfold CalculateExp
  exact min_le_right _ _

theorem foldl_set_length (c : Nat → Int) :
    ∀ (k s : Nat) (l : List Int),
      ((List.range' s k).foldl (fun l i => l.set i (c i)) l).length = l.length := by
  intro k
  induction k with
  | zero => intro s l; rfl
  | succ k ih =>
    intro s l
    simp only [List.range'_succ, List.foldl_cons]
    rw [ih]; simp

theorem foldl_set_getElem? (c : Nat → Int) :
    ∀ (k s : Nat) (l : List Int) (j : Nat),
      ((List.range' s k).foldl (fun l i => l.set i (c i)) l)[j]? =
        if s ≤ j ∧ j < s + k ∧ j < l.length then some (c j) else l[j]? := by
  intro k
  induction k with
  | zero =>
    intro s l j
    simp only [List.range'_zero, List.foldl_nil]
    rw [if_neg (by omega)]
  | succ k ih =>
    intro s l j
    simp only [List.range'_succ, List.foldl_cons]
    rw [ih]
    simp only [List.length_set]
    by_cases hj : j = s
    · subst hj
      by_cases hl : j < l.length
      · simp [hl]
      · rw [if_neg (by omega), if_neg (by omega),
          List.getElem?_eq_none (by simp only [List.length_set]; omega),
          List.getElem?_eq_none (by omega)]
    · have hne : s ≠ j := fun h => hj h.symm
      rw [List.getElem?_set_ne hne]
      by_cases hc : s + 1 ≤ j ∧ j < s + 1 + k ∧ j < l.length
      · rw [if_pos hc, if_pos ⟨by omega, by omega, hc.2.2⟩]
      · rw [if_neg hc, if_neg (by omega)]

/-- Embeds `MakeExpList` establishes the table shape used by the progression results,
both on the empty table of a new actor and on a table that already has it. -/
theorem MakeExpList_establishes_WF (env : Env) (a : Game_Actor)
    (hfinal : 1 ≤ env.actor.final_level)
    (hold : a.exp_list = [] ∨ a.exp_list.head? = some 0) :
    ExpListWF env (MakeExpList env a) := by
  have hM := max_exp_value_pos env
  obtain ⟨n, hn⟩ : ∃ n : Nat, env.actor.final_level = (n : Int) :=
    ⟨env.actor.final_level.toNat, by omega⟩
  have hn1 : 1 ≤ n := by omega
  have hlist : (MakeExpList env a).exp_list =
      (List.range' 1 (n - 1)).foldl (fun l i => l.set i (CalculateExp env a (i : Int)))
        (vecResize a.exp_list (n : Int) 0) := by
    unfold MakeExpList
    simp only [hn, Int.toNat_ofNat]
  have hrl : (vecResize a.exp_list (n : Int) 0).length = n := by
    unfold vecResize
    simp only [Int.toNat_ofNat, List.length_append, List.length_take, List.length_replicate]
    omega
  have hr0 : (vecResize a.exp_list (n : Int) 0)[0]? = some 0 := by
    unfold vecResize
    simp only [Int.toNat_ofNat]
    rcases hold with h | h
    · rw [h]
      simp only [List.take_nil, List.nil_append, List.length_nil, Nat.sub_zero]
      rw [List.getElem?_replicate]
      simp; omega
    · cases hl : a.exp_list with
      | nil => rw [hl] at h; simp at h
      | cons x xs =>
        rw [hl] at h
        simp at h
        subst h
        obtain ⟨k, rfl⟩ : ∃ k, n = k + 1 := ⟨n - 1, by omega⟩
        simp
  refine ⟨?_, ?_, ?_⟩
  · rw [hlist, foldl_set_length, hrl]
    exact hn.symm
  · rw [hlist, List.head?_eq_getElem?, foldl_set_getElem?, if_neg (by omega)]
    exact hr0
  · intro x hx
    rw [hlist] at hx
    obtain ⟨j, hj, hxj⟩ := List.getElem_of_mem hx
    rw [← hxj]
    have hlen := foldl_set_length (fun i => CalculateExp env a (i : Int)) (n - 1) 1
      (vecResize a.exp_list (n : Int) 0)
    have hj' : j < n := by omega
    have hget := foldl_set_getElem? (fun i => CalculateExp env a (i : Int)) (n - 1) 1
      (vecResize a.exp_list (n : Int) 0) j
    rw [List.getElem?_eq_getElem hj] at hget
    by_cases h0 : j = 0
    · subst h0
      rw [if_neg (by omega), hr0] at hget
      rw [Option.some.inj hget]
      omega
    · rw [if_pos ⟨by omega, by omega, by omega⟩] at hget
      rw [Option.some.inj hget]
      exact CalculateExp_le_max env a _

theorem sorted_lt_nodup (l : List Int) (h : l.Sorted (fun x y => x < y)) : l.Nodup :=
  h.imp (fun hlt => ne_of_lt hlt)

theorem LearnSkill_ascending (a : Game_Actor) (id : Int) (h : StrictlyAscending a)
    (hfit : id ≤ 32767) : StrictlyAscending (LearnSkill a id).2 := by
  unfold StrictlyAscending at h ⊢
  rw [LearnSkill_skills]
  split_ifs with hc
  · have hs : (List.insertionSort (fun x y : Int => x ≤ y) (a.skills ++ [toInt16 id])).Sorted
        (fun x y => x ≤ y) := List.sorted_insertionSort _ _
    have hnd : (List.insertionSort (fun x y : Int => x ≤ y) (a.skills ++ [toInt16 id])).Nodup := by
      refine (List.perm_insertionSort _ _).nodup_iff.mpr ?_
      rw [List.nodup_append]
      refine ⟨sorted_lt_nodup _ h, List.nodup_singleton _, ?_⟩
      intro x hx hx'
      rw [List.mem_singleton] at hx'
      rw [hx', toInt16_of_fits id (by omega) hfit] at hx
      exact hc.2 hx
    exact hs.lt_of_le hnd
  · exact h

theorem UnlearnSkill_spec (a : Game_Actor) (id : Int) (h : StrictlyAscending a) :
    StrictlyAscending (UnlearnSkill a id).2 ∧
    IsSkillLearned (UnlearnSkill a id).2 id = false ∧
    (UnlearnSkill a id).1 = IsSkillLearned a id ∧
    ∀ other, other ≠ id →
      IsSkillLearned (UnlearnSkill a id).2 other = IsSkillLearned a other := by
  unfold StrictlyAscending at h ⊢
  have hnd := sorted_lt_nodup _ h
  unfold UnlearnSkill IsSkillLearned
  split_ifs with hc
  · refine ⟨h.sublist (List.erase_sublist _ _), ?_, by simp [hc], ?_⟩
    · simp only [decide_eq_false_iff_not]
      exact fun hm => ((hnd.mem_erase_iff).mp hm).1 rfl
    · intro other hne
      simp only [List.mem_erase_of_ne hne]
  · exact ⟨h, by simp [hc], by simp [hc], fun _ _ => rfl⟩

/-! ## Binary64 rounding and the experience curve -/

theorem floor_le_roundHalfEven (x : ℚ) : ⌊x⌋ ≤ roundHalfEven x := by
  unfold roundHalfEven
  split_ifs <;> omega

theorem roundHalfEven_le_floor_add_one (x : ℚ) : roundHalfEven x ≤ ⌊x⌋ + 1 := by
  unfold roundHalfEven
  split_ifs <;> omega

theorem roundHalfEven_intCast (n : Int) : roundHalfEven (n : ℚ) = n := by
  unfold roundHalfEven
  simp

theorem roundHalfEven_mono {x y : ℚ} (h : x ≤ y) : roundHalfEven x ≤ roundHalfEven y := by
  have hf : ⌊x⌋ ≤ ⌊y⌋ := Int.floor_mono h
  rcases lt_or_eq_of_le hf with hlt | heq
  · have h1 := roundHalfEven_le_floor_add_one x
    have h2 := floor_le_roundHalfEven y
    omega
  · unfold roundHalfEven
    rw [heq]
    have hxy : x - (⌊y⌋ : ℚ) ≤ y - (⌊y⌋ : ℚ) := by linarith
    split_ifs <;> first | omega | (exfalso; linarith)

theorem roundHalfEven_eq_of_near (x : ℚ) (m : Int) (h1 : (m : ℚ) - 1 / 2 < x)
    (h2 : x < (m : ℚ) + 1 / 2) : roundHalfEven x = m := by
  by_cases hm : (m : ℚ) ≤ x
  · have hfl : ⌊x⌋ = m := Int.floor_eq_iff.mpr ⟨hm, by linarith⟩
    unfold roundHalfEven
    rw [hfl, if_pos (by linarith)]
  · have hfl : ⌊x⌋ = m - 1 := Int.floor_eq_iff.mpr ⟨by push_cast; linarith, by push_cast; linarith⟩
    unfold roundHalfEven
    rw [hfl, if_neg (by push_cast; linarith), if_pos (by push_cast; linarith)]
    omega

theorem log_two_eq (q : ℚ) (k : Int) (hpos : 0 < q) (hlo : (2 : ℚ) ^ k ≤ q)
    (hhi : q < (2 : ℚ) ^ (k + 1)) : Int.log 2 q = k := by
  have h1 : k ≤ Int.log 2 q :=
    (Int.zpow_le_iff_le_log (by decide) hpos).mp (by exact_mod_cast hlo)
  have h2 : Int.log 2 q < k + 1 :=
    (Int.lt_zpow_iff_log_lt (by decide) hpos).mp (by exact_mod_cast hhi)
  omega

theorem ulpExp_eq (q : ℚ) (e : Int) (hpos : 0 < q) (hlo : (2 : ℚ) ^ (e + 52) ≤ q)
    (hhi : q < (2 : ℚ) ^ (e + 53)) (he : -1074 ≤ e) : ulpExp q = e := by
  unfold ulpExp
  rw [abs_of_pos hpos, log_two_eq q (e + 52) hpos hlo (by rw [add_assoc]; exact hhi)]
  omega

/-- Evaluation of a rounding: `q` lies in the binade of exponent `e + 52` and
`m` is the integer nearest to `q / 2^e`. -/
theorem roundF64_eval (q : ℚ) (m e : Int) (hpos : 0 < q) (hlo : (2 : ℚ) ^ (e + 52) ≤ q)
    (hhi : q < (2 : ℚ) ^ (e + 53)) (he : -1074 ≤ e)
    (h1 : (m : ℚ) - 1 / 2 < q / 2 ^ e) (h2 : q / 2 ^ e < (m : ℚ) + 1 / 2) :
    roundF64 q = (m : ℚ) * 2 ^ e := by
  unfold roundF64
  rw [ulpExp_eq q e hpos hlo hhi he, roundHalfEven_eq_of_near _ m h1 h2]

theorem roundF64_zero : roundF64 0 = 0 := by
  unfold roundF64
  rw [zero_div]
  have h := roundHalfEven_intCast 0
  simp only [Int.cast_zero] at h
  rw [h]
  simp

theorem roundF64_one : roundF64 1 = 1 := by
  have h := roundF64_eval 1 4503599627370496 (-52) (by norm_num) (by norm_num) (by norm_num)
    (by decide) (by norm_num) (by norm_num)
  rw [h]
  norm_num

theorem two_zpow_pos (e : Int) : (0 : ℚ) < 2 ^ e := zpow_pos (by norm_num) e

theorem roundF64_nonneg (q : ℚ) (h : 0 ≤ q) : 0 ≤ roundF64 q := by
  unfold roundF64
  have h0 : roundHalfEven 0 ≤ roundHalfEven (q / 2 ^ ulpExp q) :=
    roundHalfEven_mono (div_nonneg h (le_of_lt (two_zpow_pos _)))
  have h1 := roundHalfEven_intCast 0
  simp only [Int.cast_zero] at h1
  rw [h1] at h0
  exact mul_nonneg (by exact_mod_cast h0) (le_of_lt (two_zpow_pos _))

theorem toDouble_eval (q r : ℚ) (m e : Int) (hpos : 0 < q) (hlo : (2 : ℚ) ^ (e + 52) ≤ q)
    (hhi : q < (2 : ℚ) ^ (e + 53)) (he : -1074 ≤ e)
    (h1 : (m : ℚ) - 1 / 2 < q / 2 ^ e) (h2 : q / 2 ^ e < (m : ℚ) + 1 / 2)
    (hr : (m : ℚ) * 2 ^ e = r) (hfin : r < 2 ^ 1024) :
    toDouble q = some r := by
  have hround := roundF64_eval q m e hpos hlo hhi he h1 h2
  have hnn := roundF64_nonneg q (le_of_lt hpos)
  rw [hround, hr] at hnn
  unfold toDouble
  rw [hround, hr, if_pos (by rw [abs_of_nonneg hnn]; exact hfin)]

theorem ulpExp_mono (q q' : ℚ) (hpos : 0 < q) (h : q ≤ q') : ulpExp q ≤ ulpExp q' := by
  unfold ulpExp
  rw [abs_of_pos hpos, abs_of_pos (lt_of_lt_of_le hpos h)]
  have := Int.log_mono_right (b := 2) hpos h
  omega

theorem roundF64_mono (q q' : ℚ) (hq : 0 ≤ q) (h : q ≤ q') : roundF64 q ≤ roundF64 q' := by
  rcases eq_or_lt_of_le hq with h0 | hpos
  · rw [← h0, roundF64_zero]
    exact roundF64_nonneg q' (le_trans hq h)
  have hpos' : 0 < q' := lt_of_lt_of_le hpos h
  have he := ulpExp_mono q q' hpos h
  rcases eq_or_lt_of_le he with heq | hlt
  · unfold roundF64
    rw [← heq]
    have hm : roundHalfEven (q / 2 ^ ulpExp q) ≤ roundHalfEven (q' / 2 ^ ulpExp q) :=
      roundHalfEven_mono (div_le_div_of_nonneg_right h (le_of_lt (two_zpow_pos _)))
    exact mul_le_mul_of_nonneg_right (by exact_mod_cast hm) (le_of_lt (two_zpow_pos _))
  · -- the binades differ: a power of two separates the rounded values
    have hlog : Int.log 2 q - 52 ≤ ulpExp q := by
      unfold ulpExp; rw [abs_of_pos hpos]; omega
    have hlog' : ulpExp q' = Int.log 2 q' - 52 := by
      unfold ulpExp at hlt ⊢
      rw [abs_of_pos hpos'] at hlt ⊢
      omega
    have hq1 : q < (2 : ℚ) ^ (ulpExp q + 53) := by
      have h1 : q < ((2 : ℕ) : ℚ) ^ (Int.log 2 q + 1) := Int.lt_zpow_succ_log_self (by decide) q
      have h2 : ((2 : ℕ) : ℚ) ^ (Int.log 2 q + 1) ≤ ((2 : ℕ) : ℚ) ^ (ulpExp q + 53) :=
        zpow_le_zpow_right₀ (by norm_num) (by omega)
      exact_mod_cast lt_of_lt_of_le h1 h2
    have hq2 : (2 : ℚ) ^ (ulpExp q' + 52) ≤ q' := by
      have h1 : ((2 : ℕ) : ℚ) ^ Int.log 2 q' ≤ q' := Int.zpow_log_le_self (by decide) hpos'
      rw [hlog']
      simpa using h1
    have hA : roundF64 q ≤ (2 : ℚ) ^ (ulpExp q + 53) := by
      unfold roundF64
      have hd : q / 2 ^ ulpExp q ≤ ((9007199254740992 : Int) : ℚ) := by
        rw [div_le_iff₀ (two_zpow_pos _)]
        have : (2 : ℚ) ^ (ulpExp q + 53) = ((9007199254740992 : Int) : ℚ) * 2 ^ ulpExp q := by
          rw [zpow_add₀ (by norm_num)]; norm_num; ring
        rw [← this]; exact le_of_lt hq1
      have hm := roundHalfEven_mono hd
      rw [roundHalfEven_intCast] at hm
      have hm' : (roundHalfEven (q / 2 ^ ulpExp q) : ℚ) ≤ ((9007199254740992 : Int) : ℚ) := by
        exact_mod_cast hm
      have : (2 : ℚ) ^ (ulpExp q + 53) = ((9007199254740992 : Int) : ℚ) * 2 ^ ulpExp q := by
        rw [zpow_add₀ (by norm_num)]; norm_num; ring
      rw [this]
      exact mul_le_mul_of_nonneg_right hm' (le_of_lt (two_zpow_pos _))
    have hB : (2 : ℚ) ^ (ulpExp q' + 52) ≤ roundF64 q' := by
      unfold roundF64
      have hpow : (2 : ℚ) ^ (ulpExp q' + 52) =
          ((4503599627370496 : Int) : ℚ) * 2 ^ ulpExp q' := by
        rw [zpow_add₀ (by norm_num)]; norm_num; ring
      have hd : ((4503599627370496 : Int) : ℚ) ≤ q' / 2 ^ ulpExp q' := by
        rw [le_div_iff₀ (two_zpow_pos _), ← hpow]; exact hq2
      have hm := roundHalfEven_mono hd
      rw [roundHalfEven_intCast] at hm
      have hm' : ((4503599627370496 : Int) : ℚ) ≤ (roundHalfEven (q' / 2 ^ ulpExp q') : ℚ) := by
        exact_mod_cast hm
      rw [hpow]
      exact mul_le_mul_of_nonneg_right hm' (le_of_lt (two_zpow_pos _))
    have hC : (2 : ℚ) ^ (ulpExp q + 53) ≤ (2 : ℚ) ^ (ulpExp q' + 52) :=
      zpow_le_zpow_right₀ (by norm_num) (by omega)
    exact le_trans hA (le_trans hC hB)

theorem wrapInt32_of_InInt32 (x : Int) (h : InInt32 x) : wrapInt32 x = x := by
  unfold InInt32 at h
  unfold wrapInt32
  omega

theorem truncToInt_mono {x y : ℚ} (hx : 0 ≤ x) (h : x ≤ y) : truncToInt x ≤ truncToInt y := by
  unfold truncToInt
  rw [if_pos hx, if_pos (le_trans hx h)]
  exact Int.floor_mono h

theorem truncToInt_nonneg {x : ℚ} (hx : 0 ≤ x) : 0 ≤ truncToInt x := by
  unfold truncToInt
  rw [if_pos hx]
  exact Int.floor_nonneg.mpr hx

theorem toDouble_some (q r : ℚ) (h : toDouble q = some r) :
    r = roundF64 q ∧ |roundF64 q| < 2 ^ 1024 := by
  unfold toDouble at h
  by_cases hf : |roundF64 q| < 2 ^ 1024
  · rw [if_pos hf] at h
    exact ⟨(Option.some.inj h).symm, hf⟩
  · rw [if_neg hf] at h
    exact absurd h (by simp)

theorem toDouble_nonneg (q : ℚ) (h : 0 ≤ q) : DNonneg (toDouble q) := by
  intro r hr
  rw [(toDouble_some q r hr).1]
  exact roundF64_nonneg q h

theorem toDouble_ge_one (q : ℚ) (h : 1 ≤ q) : DGeOne (toDouble q) := by
  intro r hr
  rw [(toDouble_some q r hr).1, ← roundF64_one]
  exact roundF64_mono 1 q (by norm_num) h

theorem toDouble_mono (q q' : ℚ) (hq : 0 ≤ q) (h : q ≤ q') :
    DLe (toDouble q) (toDouble q') := by
  intro r' hr'
  obtain ⟨hr, hfin⟩ := toDouble_some q' r' hr'
  have hm := roundF64_mono q q' hq h
  have hn := roundF64_nonneg q hq
  refine ⟨roundF64 q, ?_, by rw [hr]; exact hm⟩
  unfold toDouble
  rw [if_pos]
  rw [abs_of_nonneg hn]
  exact lt_of_le_of_lt (le_trans hm (le_abs_self _)) hfin

theorem DLe_refl (x : Option ℚ) : DLe x x := fun q h => ⟨q, h, le_refl q⟩

theorem dadd_nonneg (x y : Option ℚ) (hx : DNonneg x) (hy : DNonneg y) :
    DNonneg (dadd x y) := by
  cases x with
  | none => intro q h; simp [dadd] at h
  | some a =>
    cases y with
    | none => intro q h; simp [dadd] at h
    | some b => exact toDouble_nonneg (a + b) (add_nonneg (hx a rfl) (hy b rfl))

theorem dmul_nonneg (x y : Option ℚ) (hx : DNonneg x) (hy : DNonneg y) :
    DNonneg (dmul x y) := by
  cases x with
  | none => intro q h; simp [dmul] at h
  | some a =>
    cases y with
    | none => intro q h; simp [dmul] at h
    | some b => exact toDouble_nonneg (a * b) (mul_nonneg (hx a rfl) (hy b rfl))

theorem dadd_mono (x y x' y' : Option ℚ) (hx : DNonneg x) (hy : DNonneg y)
    (hxx : DLe x x') (hyy : DLe y y') : DLe (dadd x y) (dadd x' y') := by
  cases x' with
  | none => intro q h; simp [dadd] at h
  | some a' =>
    cases y' with
    | none => intro q h; simp [dadd] at h
    | some b' =>
      obtain ⟨a, ha, haa⟩ := hxx a' rfl
      obtain ⟨b, hb, hbb⟩ := hyy b' rfl
      subst ha; subst hb
      exact toDouble_mono (a + b) (a' + b') (add_nonneg (hx a rfl) (hy b rfl))
        (add_le_add haa hbb)

theorem dmul_mono (x y x' y' : Option ℚ) (hx : DNonneg x) (hy : DNonneg y)
    (hxx : DLe x x') (hyy : DLe y y') : DLe (dmul x y) (dmul x' y') := by
  cases x' with
  | none => intro q h; simp [dmul] at h
  | some a' =>
    cases y' with
    | none => intro q h; simp [dmul] at h
    | some b' =>
      obtain ⟨a, ha, haa⟩ := hxx a' rfl
      obtain ⟨b, hb, hbb⟩ := hyy b' rfl
      subst ha; subst hb
      have h0a := hx a rfl
      have h0b := hy b rfl
      exact toDouble_mono (a * b) (a' * b') (mul_nonneg h0a h0b)
        (mul_le_mul haa hbb h0b (le_trans h0a haa))

theorem dsub_one_nonneg (x : Option ℚ) (hx : DGeOne x) : DNonneg (dsub x (intToDouble 1)) := by
  cases x with
  | none => intro q h; simp [dsub, intToDouble] at h
  | some a =>
    have := hx a rfl
    exact toDouble_nonneg (a - ((1 : Int) : ℚ)) (by push_cast; linarith)

theorem dsub_one_mono (x x' : Option ℚ) (hx : DGeOne x) (hxx : DLe x x') :
    DLe (dsub x (intToDouble 1)) (dsub x' (intToDouble 1)) := by
  cases x' with
  | none => intro q h; simp [dsub, intToDouble] at h
  | some a' =>
    obtain ⟨a, ha, haa⟩ := hxx a' rfl
    subst ha
    have := hx a rfl
    exact toDouble_mono (a - ((1 : Int) : ℚ)) (a' - ((1 : Int) : ℚ)) (by push_cast; linarith)
      (by linarith)

theorem dadd_ge_one_left (x y : Option ℚ) (hx : DGeOne x) (hy : DNonneg y) :
    DGeOne (dadd x y) := by
  cases x with
  | none => intro q h; simp [dadd] at h
  | some a =>
    cases y with
    | none => intro q h; simp [dadd] at h
    | some b =>
      have h1 := hx a rfl
      have h2 := hy b rfl
      exact toDouble_ge_one (a + b) (by linarith)

theorem dadd_one_ge_one (x : Option ℚ) (hx : DNonneg x) : DGeOne (dadd x (intToDouble 1)) := by
  cases x with
  | none => intro q h; simp [dadd] at h
  | some a =>
    have h1 := hx a rfl
    exact toDouble_ge_one (a + ((1 : Int) : ℚ)) (by push_cast; linarith)

theorem intToDouble_nonneg (n : Int) (h : 0 ≤ n) : DNonneg (intToDouble n) := by
  intro q hq
  rw [← Option.some.inj hq]
  exact_mod_cast h

theorem intToDouble_mono (n n' : Int) (h : n ≤ n') : DLe (intToDouble n) (intToDouble n') := by
  intro q hq
  refine ⟨(n : ℚ), rfl, ?_⟩
  rw [← Option.some.inj hq]
  exact_mod_cast h

theorem inflationFactor_nonneg (level : Int) (h0 : 0 ≤ level) (h : InInt32 (level + 1)) :
    DNonneg (inflationFactor level) := by
  unfold inflationFactor
  rw [wrapInt32_of_InInt32 _ h]
  exact dadd_nonneg _ _
    (dmul_nonneg _ _ (intToDouble_nonneg _ (by omega)) (toDouble_nonneg _ (by norm_num)))
    (toDouble_nonneg _ (by norm_num))

theorem inflationFactor_mono (level : Int) (h0 : 0 ≤ level) (h : InInt32 (level + 1))
    (h' : InInt32 (level + 1 + 1)) :
    DLe (inflationFactor level) (inflationFactor (level + 1)) := by
  unfold inflationFactor
  rw [wrapInt32_of_InInt32 _ h, wrapInt32_of_InInt32 _ h']
  exact dadd_mono _ _ _ _
    (dmul_nonneg _ _ (intToDouble_nonneg _ (by omega)) (toDouble_nonneg _ (by norm_num)))
    (toDouble_nonneg _ (by norm_num))
    (dmul_mono _ _ _ _ (intToDouble_nonneg _ (by omega)) (toDouble_nonneg _ (by norm_num))
      (intToDouble_mono _ _ (by omega)) (DLe_refl _))
    (DLe_refl _)

theorem nextInflation_ge_one (level : Int) (x : Option ℚ)
    (hF : DNonneg (inflationFactor level)) (hx : DGeOne x) :
    DGeOne (nextInflation level x) := by
  unfold nextInflation
  exact dadd_one_ge_one _ (dmul_nonneg _ _ hF (dsub_one_nonneg x hx))

theorem nextInflation_mono (level level' : Int) (x x' : Option ℚ)
    (hF : DNonneg (inflationFactor level))
    (hFF : DLe (inflationFactor level) (inflationFactor level'))
    (hx : DGeOne x) (hxx : DLe x x') :
    DLe (nextInflation level x) (nextInflation level' x') := by
  unfold nextInflation
  exact dadd_mono _ _ _ _ (dmul_nonneg _ _ hF (dsub_one_nonneg x hx))
    (intToDouble_nonneg 1 (by decide))
    (dmul_mono _ _ _ _ hF (dsub_one_nonneg x hx) hFF (dsub_one_mono x x' hx hxx))
    (DLe_refl _)

theorem DGeOne_nonneg (x : Option ℚ) (h : DGeOne x) : DNonneg x := by
  intro q hq
  have := h q hq
  linarith

/-- A converted `double` that fits an `int` is finite, and the conversion is
its truncation. -/
theorem doubleToInt_of_fits (d : Option ℚ) (h : DoubleFitsInt d) :
    ∃ q, d = some q ∧ doubleToInt d = truncToInt q := by
  cases d with
  | none => exact absurd h (by simp [DoubleFitsInt])
  | some q =>
    refine ⟨q, rfl, ?_⟩
    unfold DoubleFitsInt at h
    unfold doubleToInt
    simp only
    rw [if_pos h]

/-- The terms the RPG2k loop accumulates are monotone in the `double` that is
converted. -/
theorem doubleToInt_mono (d d' : Option ℚ) (hd : DNonneg d) (hle : DLe d d')
    (h : DoubleFitsInt d) (h' : DoubleFitsInt d') :
    0 ≤ doubleToInt d ∧ doubleToInt d ≤ doubleToInt d' := by
  obtain ⟨q, hq, e⟩ := doubleToInt_of_fits d h
  obtain ⟨q', hq', e'⟩ := doubleToInt_of_fits d' h'
  obtain ⟨q₁, h1, hle1⟩ := hle q' hq'
  rw [hq] at h1
  have hqq : q = q₁ := Option.some.inj h1
  rw [e, e']
  have h0 := hd q hq
  exact ⟨truncToInt_nonneg h0, truncToInt_mono h0 (by rw [hqq]; exact hle1)⟩

/-- The RPG2k loop run `n` times from a state is at most the loop run `n + 1`
times from a state that is at least as large, for a factor at least as large,
as long as no conversion and no sum leaves the range of `int`. -/
theorem expLoopRpg2k_mono (level level' : Int) (correction : Option ℚ)
    (hc : DNonneg correction)
    (hF : DNonneg (inflationFactor level))
    (hFF : DLe (inflationFactor level) (inflationFactor level')) :
    ∀ (n : Nat) (r r' : Int) (b b' i i' : Option ℚ),
      0 ≤ r → r ≤ r' → DNonneg b → DLe b b' → DGeOne i → DLe i i' →
      expLoopRpg2kInRange level correction n r b i →
      expLoopRpg2kInRange level' correction (n + 1) r' b' i' →
      0 ≤ expLoopRpg2k level correction n r b i ∧
      expLoopRpg2k level correction n r b i ≤ expLoopRpg2k level' correction (n + 1) r' b' i' := by
  intro n
  induction n with
  | zero =>
    intro r r' b b' i i' h0 hr hb hbb hi hii _ hR'
    obtain ⟨hfit', hsum', _⟩ := hR'
    have hd' : DNonneg (dadd correction b') := by
      intro q hq
      obtain ⟨q₁, h1, hle1⟩ := dadd_mono _ _ _ _ hc hb (DLe_refl correction) hbb q hq
      exact le_trans (dadd_nonneg _ _ hc hb q₁ h1) hle1
    have ht' := (doubleToInt_mono _ _ hd' (DLe_refl _) hfit' hfit').1
    show 0 ≤ r ∧ r ≤ wrapInt32 (r' + doubleToInt (dadd correction b'))
    rw [wrapInt32_of_InInt32 _ hsum']
    exact ⟨h0, by omega⟩
  | succ n ih =>
    intro r r' b b' i i' h0 hr hb hbb hi hii hR hR'
    obtain ⟨hfit, hsum, hrest⟩ := hR
    obtain ⟨hfit', hsum', hrest'⟩ := hR'
    have ht := doubleToInt_mono _ _ (dadd_nonneg _ _ hc hb)
      (dadd_mono _ _ _ _ hc hb (DLe_refl correction) hbb) hfit hfit'
    rw [wrapInt32_of_InInt32 _ hsum] at hrest
    rw [wrapInt32_of_InInt32 _ hsum'] at hrest'
    have hstep := ih (r + doubleToInt (dadd correction b))
      (r' + doubleToInt (dadd correction b')) (dmul b i) (dmul b' i')
      (nextInflation level i) (nextInflation level' i')
      (by omega) (by omega)
      (dmul_nonneg _ _ hb (DGeOne_nonneg i hi))
      (dmul_mono _ _ _ _ hb (DGeOne_nonneg i hi) hbb hii)
      (nextInflation_ge_one level i hF hi)
      (nextInflation_mono level level' i i' hF hFF hi hii)
      hrest hrest'
    show 0 ≤ expLoopRpg2k level correction n
          (wrapInt32 (r + doubleToInt (dadd correction b))) (dmul b i) (nextInflation level i) ∧
      expLoopRpg2k level correction n
          (wrapInt32 (r + doubleToInt (dadd correction b))) (dmul b i) (nextInflation level i) ≤
        expLoopRpg2k level' correction (n + 1)
          (wrapInt32 (r' + doubleToInt (dadd correction b'))) (dmul b' i')
          (nextInflation level' i')
    rw [wrapInt32_of_InInt32 _ hsum, wrapInt32_of_InInt32 _ hsum']
    exact hstep

theorem CalculateExp_eq_min (env : Env) (a : Game_Actor) (level : Int) :
    CalculateExp env a level = min (expCurve env a level) (max_exp_value env) := rfl

theorem linearAccumulation_succ (b f c : Int) (n : Nat) :
    linearAccumulation b f c (n + 1) =
      linearAccumulation b f c n + b + ((n : Int) + 1) * f + c := by
  unfold linearAccumulation
  rw [List.range'_concat, List.foldl_append]
  simp only [List.foldl_cons, List.foldl_nil, Nat.one_mul]
  push_cast
  ring

theorem linearAccumulation_closed (b f c : Int) (n : Nat) :
    2 * linearAccumulation b f c n =
      2 * ((n : Int) * (b + c)) + f * (n : Int) * ((n : Int) + 1) := by
  induction n with
  | zero => simp [linearAccumulation]
  | succ n ih =>
    rw [linearAccumulation_succ, mul_add, mul_add, mul_add, ih]
    push_cast
    ring

theorem linearAccumulation_nonneg (b f c : Int) (hb : 0 ≤ b) (hf : 0 ≤ f) (hc : 0 ≤ c) :
    ∀ n : Nat, 0 ≤ linearAccumulation b f c n := by
  intro n
  induction n with
  | zero => simp [linearAccumulation]
  | succ n ih =>
    rw [linearAccumulation_succ]
    have hm : 0 ≤ ((n : Int) + 1) * f := mul_nonneg (by omega) hf
    omega

theorem expLoopRpg2k3_succ (b f c : Int) (n : Nat) :
    expLoopRpg2k3 b f c (n + 1) =
      wrapInt32 (wrapInt32 (wrapInt32 (expLoopRpg2k3 b f c n + b) +
        wrapInt32 (((n : Int) + 1) * f)) + c) := by
  unfold expLoopRpg2k3
  rw [List.range'_concat, List.foldl_append]
  simp only [List.foldl_cons, List.foldl_nil, Nat.one_mul]
  have e : ((1 + n : Nat) : Int) = (n : Int) + 1 := by push_cast; ring
  rw [e]

/-- Without 32-bit overflow the RPG2k3 loop computes the linear accumulation in
exact integers. -/
theorem expLoopRpg2k3_exact (b f c : Int) (n : Nat) (h : expLoopRpg2k3InRange b f c n) :
    expLoopRpg2k3 b f c n = linearAccumulation b f c n := by
  induction n with
  | zero => rfl
  | succ n ih =>
    have hn : expLoopRpg2k3InRange b f c n := fun i hi => h i (by omega)
    obtain ⟨h1, h2, h3, h4⟩ := h n (by omega)
    rw [expLoopRpg2k3_succ, wrapInt32_of_InInt32 _ h1, wrapInt32_of_InInt32 _ h2,
      wrapInt32_of_InInt32 _ h3, wrapInt32_of_InInt32 _ h4, ih hn, linearAccumulation_succ]

theorem expCurve_rpg2k3_eq (env : Env) (a : Game_Actor) (k : Nat) (hv : env.is_rpg2k = false)
    (hno : CalculateExpInRange env a (k : Int)) :
    expCurve env a (k : Int) =
      linearAccumulation (expBase env a) (expInflation env a) (expCorrection env a) k := by
  unfold CalculateExpInRange at hno
  rw [hv] at hno
  simp only [Bool.false_eq_true, if_false, Int.toNat_ofNat] at hno
  unfold expCurve
  rw [hv]
  simp only [Bool.false_eq_true, if_false, Int.toNat_ofNat]
  exact expLoopRpg2k3_exact _ _ _ k hno

theorem expCurve_rpg2k3 (env : Env) (a : Game_Actor) (n : Int) (hv : env.is_rpg2k = false)
    (hn : 0 ≤ n) (hno : CalculateExpInRange env a n) :
    expCurve env a n =
      n * (expBase env a + expCorrection env a) + expInflation env a * n * (n + 1) / 2 := by
  obtain ⟨k, rfl⟩ : ∃ k : Nat, n = (k : Int) := ⟨n.toNat, by omega⟩
  rw [expCurve_rpg2k3_eq env a k hv hno]
  have h := linearAccumulation_closed (expBase env a) (expInflation env a)
    (expCorrection env a) k
  have h2 : expInflation env a * (k : Int) * ((k : Int) + 1) =
      2 * (linearAccumulation (expBase env a) (expInflation env a) (expCorrection env a) k -
        (k : Int) * (expBase env a + expCorrection env a)) := by
    rw [mul_sub, h]; ring
  rw [h2, Int.mul_ediv_cancel_left _ (by decide)]
  ring

/-- The entries of the table `MakeExpList` builds: entry 0 is 0 and entry `i`
is `CalculateExp(i)` for `1 ≤ i < final_level`. -/
theorem MakeExpList_entries (env : Env) (a : Game_Actor)
    (hfinal : 1 ≤ env.actor.final_level)
    (hold : a.exp_list = [] ∨ a.exp_list.head? = some 0) :
    vecGet (MakeExpList env a).exp_list 0 = 0 ∧
    ∀ i : Int, 1 ≤ i → i < env.actor.final_level →
      vecGet (MakeExpList env a).exp_list i = CalculateExp env a i := by
  have hwf := MakeExpList_establishes_WF env a hfinal hold
  refine ⟨vecGet_zero_of_head _ hwf.2.1, ?_⟩
  intro i h1 h2
  obtain ⟨n, hn⟩ : ∃ n : Nat, env.actor.final_level = (n : Int) :=
    ⟨env.actor.final_level.toNat, by omega⟩
  have hlist : (MakeExpList env a).exp_list =
      (List.range' 1 (n - 1)).foldl (fun l i => l.set i (CalculateExp env a (i : Int)))
        (vecResize a.exp_list (n : Int) 0) := by
    unfold MakeExpList
    simp only [hn, Int.toNat_ofNat]
  have hrl : (vecResize a.exp_list (n : Int) 0).length = n := by
    unfold vecResize
    simp only [Int.toNat_ofNat, List.length_append, List.length_take, List.length_replicate]
    omega
  have hlen : ((MakeExpList env a).exp_list.length : Int) = env.actor.final_level := hwf.1
  obtain ⟨hi, e⟩ := vecGet_eq_getElem (MakeExpList env a).exp_list i (by omega) (by omega)
  rw [e]
  have hget := foldl_set_getElem? (fun i => CalculateExp env a (i : Int)) (n - 1) 1
    (vecResize a.exp_list (n : Int) 0) i.toNat
  rw [← hlist, List.getElem?_eq_getElem hi,
    if_pos ⟨by omega, by omega, by omega⟩] at hget
  rw [Option.some.inj hget]
  congr 1
  omega

theorem expLoopRpg2k_nonneg (level : Int) (correction : Option ℚ) (hc : DNonneg correction)
    (hF : DNonneg (inflationFactor level)) :
    ∀ (n : Nat) (r : Int) (b i : Option ℚ),
      0 ≤ r → DNonneg b → DGeOne i → expLoopRpg2kInRange level correction n r b i →
      0 ≤ expLoopRpg2k level correction n r b i := by
  intro n
  induction n with
  | zero => intro r b i h0 _ _ _; exact h0
  | succ n ih =>
    intro r b i h0 hb hi hR
    obtain ⟨hfit, hsum, hrest⟩ := hR
    have ht := (doubleToInt_mono _ _ (dadd_nonneg _ _ hc hb) (DLe_refl _) hfit hfit).1
    rw [wrapInt32_of_InInt32 _ hsum] at hrest
    have hstep := ih (r + doubleToInt (dadd correction b)) (dmul b i) (nextInflation level i)
      (by omega) (dmul_nonneg _ _ hb (DGeOne_nonneg i hi)) (nextInflation_ge_one level i hF hi)
      hrest
    show 0 ≤ expLoopRpg2k level correction n
      (wrapInt32 (r + doubleToInt (dadd correction b))) (dmul b i) (nextInflation level i)
    rw [wrapInt32_of_InInt32 _ hsum]
    exact hstep

/-- The initial `inflation = 1.5 + (inflation * 0.01)` of the RPG2k loop is at
least 1 for a non-negative database value. -/
theorem initialInflation_ge_one (f : Int) (hf : 0 ≤ f) :
    DGeOne (dadd (toDouble (15 / 10)) (dmul (intToDouble f) (toDouble (1 / 100)))) :=
  dadd_ge_one_left _ _ (toDouble_ge_one _ (by norm_num))
    (dmul_nonneg _ _ (intToDouble_nonneg f hf) (toDouble_nonneg _ (by norm_num)))

/-- With non-negative base, inflation and correction and without 32-bit
overflow, the curve before the cap is non-negative and non-decreasing, under
both engine variants. -/
theorem CurveNonDecreasing_of_inRange (env : Env) (a : Game_Actor)
    (hb : 0 ≤ expBase env a) (hf : 0 ≤ expInflation env a) (hc : 0 ≤ expCorrection env a)
    (hno : ∀ L : Int, 1 ≤ L → L < GetMaxLevel env → CalculateExpInRange env a L) :
    CurveNonDecreasing env a := by
  cases hv : env.is_rpg2k with
  | false =>
    constructor
    · intro L h1 h2
      obtain ⟨k, rfl⟩ : ∃ k : Nat, L = (k : Int) := ⟨L.toNat, by omega⟩
      rw [expCurve_rpg2k3_eq env a k hv (hno _ h1 h2)]
      exact linearAccumulation_nonneg _ _ _ hb hf hc k
    · intro L h1 h2
      obtain ⟨k, rfl⟩ : ∃ k : Nat, L = (k : Int) := ⟨L.toNat, by omega⟩
      have e := expCurve_rpg2k3_eq env a (k + 1) hv (by
        have := hno ((k : Int) + 1) (by omega) h2
        push_cast
        exact this)
      push_cast at e
      rw [expCurve_rpg2k3_eq env a k hv (hno _ h1 (by omega)), e, linearAccumulation_succ]
      have hm : 0 ≤ ((k : Int) + 1) * expInflation env a := mul_nonneg (by omega) hf
      omega
  | true =>
    have hcorr : DNonneg (intToDouble (expCorrection env a)) := intToDouble_nonneg _ hc
    have hbase : DNonneg (intToDouble (expBase env a)) := intToDouble_nonneg _ hb
    have hinfl := initialInflation_ge_one (expInflation env a) hf
    have hrange : ∀ L : Int, 1 ≤ L → L < GetMaxLevel env →
        InInt32 (L + 1) ∧
        expLoopRpg2kInRange L (intToDouble (expCorrection env a)) L.toNat 0
          (intToDouble (expBase env a))
          (dadd (toDouble (15 / 10))
            (dmul (intToDouble (expInflation env a)) (toDouble (1 / 100)))) := by
      intro L h1 h2
      have h := hno L h1 h2
      unfold CalculateExpInRange at h
      rw [hv] at h
      simpa using h
    constructor
    · intro L h1 h2
      obtain ⟨hL, hR⟩ := hrange L h1 h2
      unfold expCurve
      rw [hv]
      simp only [if_true]
      exact expLoopRpg2k_nonneg L _ hcorr (inflationFactor_nonneg L (by omega) hL) _ _ _ _
        (le_refl 0) hbase hinfl hR
    · intro L h1 h2
      obtain ⟨hL, hR⟩ := hrange L h1 (by omega)
      obtain ⟨hL', hR'⟩ := hrange (L + 1) (by omega) h2
      have e : (L + 1).toNat = L.toNat + 1 := by omega
      rw [e] at hR'
      unfold expCurve
      rw [hv]
      simp only [if_true]
      rw [e]
      exact (expLoopRpg2k_mono L (L + 1) _ hcorr (inflationFactor_nonneg L (by omega) hL)
        (inflationFactor_mono L (by omega) hL hL') L.toNat 0 0 _ _ _ _ (le_refl 0) (le_refl 0)
        hbase (DLe_refl _) hinfl (DLe_refl _) hR hR').2

theorem roundHalfEven_eq_of_tie (x : ℚ) (f m : Int) (hx : x = (f : ℚ) + 1 / 2)
    (hm : (if f % 2 = 0 then f else f + 1) = m) : roundHalfEven x = m := by
  have hfl : ⌊x⌋ = f := Int.floor_eq_iff.mpr ⟨by rw [hx]; linarith, by rw [hx]; linarith⟩
  unfold roundHalfEven
  rw [hfl, if_neg (by rw [hx]; norm_num), if_neg (by rw [hx]; norm_num)]
  exact hm

/-- Evaluation of a rounding at a tie: `q / 2^e` lies halfway between `f` and
`f + 1`, and the even one of the two is `m`. -/
theorem toDouble_eval_tie (q r : ℚ) (f m e : Int) (hpos : 0 < q)
    (hlo : (2 : ℚ) ^ (e + 52) ≤ q) (hhi : q < (2 : ℚ) ^ (e + 53)) (he : -1074 ≤ e)
    (hx : q / 2 ^ e = (f : ℚ) + 1 / 2) (hm : (if f % 2 = 0 then f else f + 1) = m)
    (hr : (m : ℚ) * 2 ^ e = r) (hfin : r < 2 ^ 1024) :
    toDouble q = some r := by
  have hround : roundF64 q = (m : ℚ) * 2 ^ e := by
    unfold roundF64
    rw [ulpExp_eq q e hpos hlo hhi he, roundHalfEven_eq_of_tie _ f m hx hm]
  have hnn := roundF64_nonneg q (le_of_lt hpos)
  rw [hround, hr] at hnn
  unfold toDouble
  rw [hround, hr, if_pos (by rw [abs_of_nonneg hnn]; exact hfin)]

theorem expLoopRpg2k_step_eval (level : Int) (correction : Option ℚ) (n : Nat) (r : Int)
    (b i : Option ℚ) (q : ℚ) (t r' : Int) (b' i' : Option ℚ)
    (hsum : dadd correction b = some q) (hfit : -2147483649 < q ∧ q < 2147483648)
    (ht : truncToInt q = t) (hr : r + t = r') (hin : InInt32 r')
    (hb : dmul b i = b') (hi : nextInflation level i = i') :
    expLoopRpg2k level correction (n + 1) r b i = expLoopRpg2k level correction n r' b' i' ∧
    (expLoopRpg2kInRange level correction (n + 1) r b i ↔
      expLoopRpg2kInRange level correction n r' b' i') := by
  have hd : doubleToInt (dadd correction b) = t := by
    rw [hsum]
    unfold doubleToInt
    simp only
    rw [if_pos hfit, ht]
  have hw : wrapInt32 (r + doubleToInt (dadd correction b)) = r' := by
    rw [hd, hr, wrapInt32_of_InInt32 _ hin]
  constructor
  · show expLoopRpg2k level correction n (wrapInt32 (r + doubleToInt (dadd correction b)))
      (dmul b i) (nextInflation level i) = _
    rw [hw, hb, hi]
  · show (DoubleFitsInt (dadd correction b) ∧ InInt32 (r + doubleToInt (dadd correction b)) ∧
      expLoopRpg2kInRange level correction n (wrapInt32 (r + doubleToInt (dadd correction b)))
        (dmul b i) (nextInflation level i)) ↔ _
    rw [hw, hb, hi, hd, hr]
    have hf : DoubleFitsInt (dadd correction b) := by
      rw [hsum]; exact hfit
    exact ⟨fun h => h.2.2, fun h => ⟨hf, hin, h⟩⟩

/-! ## The reference curve (RPG2k, base 40, inflation 30, correction 0) -/

theorem intToDouble_ofNat (n : Nat) : intToDouble (n : Int) = some (n : ℚ) := by
  simp [intToDouble]

theorem golden_literal_1 : toDouble (15 / 10) = some (3 / 2 : ℚ) :=
  toDouble_eval (15 / 10) (3 / 2 : ℚ) 6755399441055744 (-52) (by norm_num) (by norm_num)
    (by norm_num)
    (by decide) (by norm_num) (by norm_num) (by norm_num) (by norm_num)

theorem golden_literal_2 : toDouble (1 / 100) = some (5764607523034235 / 576460752303423488 : ℚ) :=
  toDouble_eval (1 / 100) (5764607523034235 / 576460752303423488 : ℚ) 5764607523034235 (-59)
    (by norm_num) (by norm_num) (by norm_num)
    (by decide) (by norm_num) (by norm_num) (by norm_num) (by norm_num)

theorem golden_literal_3 : toDouble (2 / 1000) = some (1152921504606847 / 576460752303423488 : ℚ) :=
  toDouble_eval (2 / 1000) (1152921504606847 / 576460752303423488 : ℚ) 4611686018427388 (-61)
    (by norm_num) (by norm_num) (by norm_num)
    (by decide) (by norm_num) (by norm_num) (by norm_num) (by norm_num)

theorem golden_literal_4 : toDouble (8 / 10) = some (3602879701896397 / 4503599627370496 : ℚ) :=
  toDouble_eval (8 / 10) (3602879701896397 / 4503599627370496 : ℚ) 7205759403792794 (-53)
    (by norm_num) (by norm_num) (by norm_num)
    (by decide) (by norm_num) (by norm_num) (by norm_num) (by norm_num)

theorem golden_mul_5 :
    dmul (some (30 : ℚ)) (some (5764607523034235 / 576460752303423488 : ℚ)) = some
      (5404319552844595 / 18014398509481984 : ℚ) :=
  toDouble_eval ((30 : ℚ) * (5764607523034235 / 576460752303423488 : ℚ))
    (5404319552844595 / 18014398509481984 : ℚ) 5404319552844595 (-54) (by norm_num) (by norm_num)
    (by norm_num)
    (by decide) (by norm_num) (by norm_num) (by norm_num) (by norm_num)

theorem golden_add_6 :
    dadd (some (3 / 2 : ℚ)) (some (5404319552844595 / 18014398509481984 : ℚ)) = some
      (8106479329266893 / 4503599627370496 : ℚ) :=
  toDouble_eval ((3 / 2 : ℚ) + (5404319552844595 / 18014398509481984 : ℚ))
    (8106479329266893 / 4503599627370496 : ℚ) 8106479329266893 (-52) (by norm_num) (by norm_num)
    (by norm_num)
    (by decide) (by norm_num) (by norm_num) (by norm_num) (by norm_num)

/-- The initial `inflation = 1.5 + (30 * 0.01)` of the reference curve. -/
theorem golden_inflation :
    dadd (toDouble (15 / 10)) (dmul (intToDouble 30) (toDouble (1 / 100))) = some
      (8106479329266893 / 4503599627370496 : ℚ) := by
  have e : intToDouble 30 = some (30 : ℚ) := intToDouble_ofNat 30
  rw [golden_literal_1, golden_literal_2, e, golden_mul_5, golden_add_6]

theorem golden_term_7 :
    dadd (some (0 : ℚ)) (some (40 : ℚ)) = some (40 : ℚ) ∧
    ((-2147483649 : ℚ) < (40 : ℚ) ∧ (40 : ℚ) < 2147483648) ∧ truncToInt (40 : ℚ) = 40 := by
  refine ⟨?_, ⟨by norm_num, by norm_num⟩, ?_⟩
  · exact
      toDouble_eval ((0 : ℚ) + (40 : ℚ)) (40 : ℚ) 5629499534213120 (-47) (by norm_num) (by norm_num)
        (by norm_num)
        (by decide) (by norm_num) (by norm_num) (by norm_num) (by norm_num)
  · unfold truncToInt
    rw [if_pos (by norm_num)]
    exact Int.floor_eq_iff.mpr ⟨by norm_num, by norm_num⟩

/-- The RPG2k loop of the reference curve for level 1: the value of `result`
after its 1 iteration, reached without overflow. -/
theorem golden_trace_1 :
    expLoopRpg2k 1 (intToDouble 0) 1 0 (intToDouble 40)
      (dadd (toDouble (15 / 10)) (dmul (intToDouble 30) (toDouble (1 / 100)))) = 40 ∧
    expLoopRpg2kInRange 1 (intToDouble 0) 1 0 (intToDouble 40)
      (dadd (toDouble (15 / 10)) (dmul (intToDouble 30) (toDouble (1 / 100)))) := by
  have ec : intToDouble 0 = some (0 : ℚ) := intToDouble_ofNat 0
  have eb : intToDouble 40 = some (40 : ℚ) := intToDouble_ofNat 40
  rw [golden_inflation, ec, eb]
  have s0 := expLoopRpg2k_step_eval 1 (some (0 : ℚ)) 0 0 (some (40 : ℚ))
    (some (8106479329266893 / 4503599627370496 : ℚ))
    (40 : ℚ) 40 40 _ _ golden_term_7.1 golden_term_7.2.1 golden_term_7.2.2 (by decide) (by decide)
      rfl rfl
  refine ⟨?_, ?_⟩
  · rw [s0.1]
    rfl
  · rw [s0.2]
    exact trivial

theorem golden_mul_8 :
    dmul (some (40 : ℚ)) (some (8106479329266893 / 4503599627370496 : ℚ)) = some (72 : ℚ) :=
  toDouble_eval ((40 : ℚ) * (8106479329266893 / 4503599627370496 : ℚ)) (72 : ℚ) 5066549580791808
    (-46) (by norm_num) (by norm_num) (by norm_num)
    (by decide) (by norm_num) (by norm_num) (by norm_num) (by norm_num)

theorem golden_mul_9 :
    dmul (some (3 : ℚ)) (some (1152921504606847 / 576460752303423488 : ℚ)) = some
      (3458764513820541 / 576460752303423488 : ℚ) :=
  toDouble_eval ((3 : ℚ) * (1152921504606847 / 576460752303423488 : ℚ))
    (3458764513820541 / 576460752303423488 : ℚ) 6917529027641082 (-60) (by norm_num) (by norm_num)
    (by norm_num)
    (by decide) (by norm_num) (by norm_num) (by norm_num) (by norm_num)

theorem golden_add_10 :
    dadd (some (3458764513820541 / 576460752303423488 : ℚ))
      (some (3602879701896397 / 4503599627370496 : ℚ)) = some
      (907475324915155 / 1125899906842624 : ℚ) :=
  toDouble_eval
    ((3458764513820541 / 576460752303423488 : ℚ) + (3602879701896397 / 4503599627370496 : ℚ))
    (907475324915155 / 1125899906842624 : ℚ) 7259802599321240 (-53) (by norm_num) (by norm_num)
    (by norm_num)
    (by decide) (by norm_num) (by norm_num) (by norm_num) (by norm_num)

theorem golden_factor_2 : inflationFactor 2 = some (907475324915155 / 1125899906842624 : ℚ) := by
  have e : intToDouble (wrapInt32 (2 + 1)) = some (3 : ℚ) := intToDouble_ofNat 3
  unfold inflationFactor
  rw [e, golden_literal_3, golden_mul_9, golden_literal_4, golden_add_10]

theorem golden_sub_11 :
    dsub (some (8106479329266893 / 4503599627370496 : ℚ)) (some (1 : ℚ)) = some
      (3602879701896397 / 4503599627370496 : ℚ) :=
  toDouble_eval ((8106479329266893 / 4503599627370496 : ℚ) - (1 : ℚ))
    (3602879701896397 / 4503599627370496 : ℚ) 7205759403792794 (-53) (by norm_num) (by norm_num)
    (by norm_num)
    (by decide) (by norm_num) (by norm_num) (by norm_num) (by norm_num)

theorem golden_mul_12 :
    dmul (some (907475324915155 / 1125899906842624 : ℚ))
      (some (3602879701896397 / 4503599627370496 : ℚ)) = some
      (181495064983031 / 281474976710656 : ℚ) :=
  toDouble_eval
    ((907475324915155 / 1125899906842624 : ℚ) * (3602879701896397 / 4503599627370496 : ℚ))
    (181495064983031 / 281474976710656 : ℚ) 5807842079456992 (-53) (by norm_num) (by norm_num)
    (by norm_num)
    (by decide) (by norm_num) (by norm_num) (by norm_num) (by norm_num)

theorem golden_add_13 :
    dadd (some (181495064983031 / 281474976710656 : ℚ)) (some (1 : ℚ)) = some
      (462970041693687 / 281474976710656 : ℚ) :=
  toDouble_eval ((181495064983031 / 281474976710656 : ℚ) + (1 : ℚ))
    (462970041693687 / 281474976710656 : ℚ) 7407520667098992 (-52) (by norm_num) (by norm_num)
    (by norm_num)
    (by decide) (by norm_num) (by norm_num) (by norm_num) (by norm_num)

theorem golden_next_14 : nextInflation 2 (some (8106479329266893 / 4503599627370496 : ℚ)) = some
  (462970041693687 / 281474976710656 : ℚ) := by
  have e : intToDouble 1 = some (1 : ℚ) := intToDouble_ofNat 1
  unfold nextInflation
  rw [golden_factor_2, e, golden_sub_11, golden_mul_12, golden_add_13]

theorem golden_term_15 :
    dadd (some (0 : ℚ)) (some (72 : ℚ)) = some (72 : ℚ) ∧
    ((-2147483649 : ℚ) < (72 : ℚ) ∧ (72 : ℚ) < 2147483648) ∧ truncToInt (72 : ℚ) = 72 := by
  refine ⟨?_, ⟨by norm_num, by norm_num⟩, ?_⟩
  · exact
      toDouble_eval ((0 : ℚ) + (72 : ℚ)) (72 : ℚ) 5066549580791808 (-46) (by norm_num) (by norm_num)
        (by norm_num)
        (by decide) (by norm_num) (by norm_num) (by norm_num) (by norm_num)
  · unfold truncToInt
    rw [if_pos (by norm_num)]
    exact Int.floor_eq_iff.mpr ⟨by norm_num, by norm_num⟩

/-- The RPG2k loop of the reference curve for level 2: the value of `result`
after its 2 iterations, reached without overflow. -/
theorem golden_trace_2 :
    expLoopRpg2k 2 (intToDouble 0) 2 0 (intToDouble 40)
      (dadd (toDouble (15 / 10)) (dmul (intToDouble 30) (toDouble (1 / 100)))) = 112 ∧
    expLoopRpg2kInRange 2 (intToDouble 0) 2 0 (intToDouble 40)
      (dadd (toDouble (15 / 10)) (dmul (intToDouble 30) (toDouble (1 / 100)))) := by
  have ec : intToDouble 0 = some (0 : ℚ) := intToDouble_ofNat 0
  have eb : intToDouble 40 = some (40 : ℚ) := intToDouble_ofNat 40
  rw [golden_inflation, ec, eb]
  have s0 := expLoopRpg2k_step_eval 2 (some (0 : ℚ)) 1 0 (some (40 : ℚ))
    (some (8106479329266893 / 4503599627370496 : ℚ))
    (40 : ℚ) 40 40 (some (72 : ℚ)) (some (462970041693687 / 281474976710656 : ℚ)) golden_term_7.1
      golden_term_7.2.1 golden_term_7.2.2 (by decide) (by decide) golden_mul_8 golden_next_14
  have s1 := expLoopRpg2k_step_eval 2 (some (0 : ℚ)) 0 40 (some (72 : ℚ))
    (some (462970041693687 / 281474976710656 : ℚ))
    (72 : ℚ) 72 112 _ _ golden_term_15.1 golden_term_15.2.1 golden_term_15.2.2 (by decide)
      (by decide) rfl rfl
  refine ⟨?_, ?_⟩
  · rw [s0.1, s1.1]
    rfl
  · rw [s0.2, s1.2]
    exact trivial

theorem golden_mul_16 :
    dmul (some (4 : ℚ)) (some (1152921504606847 / 576460752303423488 : ℚ)) = some
      (1152921504606847 / 144115188075855872 : ℚ) :=
  toDouble_eval ((4 : ℚ) * (1152921504606847 / 576460752303423488 : ℚ))
    (1152921504606847 / 144115188075855872 : ℚ) 4611686018427388 (-59) (by norm_num) (by norm_num)
    (by norm_num)
    (by decide) (by norm_num) (by norm_num) (by norm_num) (by norm_num)

theorem golden_add_17 :
    dadd (some (1152921504606847 / 144115188075855872 : ℚ))
      (some (3602879701896397 / 4503599627370496 : ℚ)) = some
      (3638908498915361 / 4503599627370496 : ℚ) :=
  toDouble_eval
    ((1152921504606847 / 144115188075855872 : ℚ) + (3602879701896397 / 4503599627370496 : ℚ))
    (3638908498915361 / 4503599627370496 : ℚ) 7277816997830722 (-53) (by norm_num) (by norm_num)
    (by norm_num)
    (by decide) (by norm_num) (by norm_num) (by norm_num) (by norm_num)

theorem golden_factor_3 : inflationFactor 3 = some (3638908498915361 / 4503599627370496 : ℚ) := by
  have e : intToDouble (wrapInt32 (3 + 1)) = some (4 : ℚ) := intToDouble_ofNat 4
  unfold inflationFactor
  rw [e, golden_literal_3, golden_mul_16, golden_literal_4, golden_add_17]

theorem golden_mul_18 :
    dmul (some (3638908498915361 / 4503599627370496 : ℚ))
      (some (3602879701896397 / 4503599627370496 : ℚ)) = some
      (2911126799132289 / 4503599627370496 : ℚ) :=
  toDouble_eval
    ((3638908498915361 / 4503599627370496 : ℚ) * (3602879701896397 / 4503599627370496 : ℚ))
    (2911126799132289 / 4503599627370496 : ℚ) 5822253598264578 (-53) (by norm_num) (by norm_num)
    (by norm_num)
    (by decide) (by norm_num) (by norm_num) (by norm_num) (by norm_num)

theorem golden_add_19 :
    dadd (some (2911126799132289 / 4503599627370496 : ℚ)) (some (1 : ℚ)) = some
      (7414726426502785 / 4503599627370496 : ℚ) :=
  toDouble_eval ((2911126799132289 / 4503599627370496 : ℚ) + (1 : ℚ))
    (7414726426502785 / 4503599627370496 : ℚ) 7414726426502785 (-52) (by norm_num) (by norm_num)
    (by norm_num)
    (by decide) (by norm_num) (by norm_num) (by norm_num) (by norm_num)

theorem golden_next_20 : nextInflation 3 (some (8106479329266893 / 4503599627370496 : ℚ)) = some
  (7414726426502785 / 4503599627370496 : ℚ) := by
  have e : intToDouble 1 = some (1 : ℚ) := intToDouble_ofNat 1
  unfold nextInflation
  rw [golden_factor_3, e, golden_sub_11, golden_mul_18, golden_add_19]

theorem golden_mul_21 :
    dmul (some (72 : ℚ)) (some (7414726426502785 / 4503599627370496 : ℚ)) = some
      (8341567229815633 / 70368744177664 : ℚ) :=
  toDouble_eval ((72 : ℚ) * (7414726426502785 / 4503599627370496 : ℚ))
    (8341567229815633 / 70368744177664 : ℚ) 8341567229815633 (-46) (by norm_num) (by norm_num)
    (by norm_num)
    (by decide) (by norm_num) (by norm_num) (by norm_num) (by norm_num)

theorem golden_sub_22 :
    dsub (some (7414726426502785 / 4503599627370496 : ℚ)) (some (1 : ℚ)) = some
      (2911126799132289 / 4503599627370496 : ℚ) :=
  toDouble_eval ((7414726426502785 / 4503599627370496 : ℚ) - (1 : ℚ))
    (2911126799132289 / 4503599627370496 : ℚ) 5822253598264578 (-53) (by norm_num) (by norm_num)
    (by norm_num)
    (by decide) (by norm_num) (by norm_num) (by norm_num) (by norm_num)

theorem golden_mul_23 :
    dmul (some (3638908498915361 / 4503599627370496 : ℚ))
      (some (2911126799132289 / 4503599627370496 : ℚ)) = some
      (4704380907397779 / 9007199254740992 : ℚ) :=
  toDouble_eval
    ((3638908498915361 / 4503599627370496 : ℚ) * (2911126799132289 / 4503599627370496 : ℚ))
    (4704380907397779 / 9007199254740992 : ℚ) 4704380907397779 (-53) (by norm_num) (by norm_num)
    (by norm_num)
    (by decide) (by norm_num) (by norm_num) (by norm_num) (by norm_num)

theorem golden_add_24 :
    dadd (some (4704380907397779 / 9007199254740992 : ℚ)) (some (1 : ℚ)) = some
      (3427895040534693 / 2251799813685248 : ℚ) :=
  toDouble_eval_tie ((4704380907397779 / 9007199254740992 : ℚ) + (1 : ℚ))
    (3427895040534693 / 2251799813685248 : ℚ) 6855790081069385 6855790081069386 (-52) (by norm_num)
    (by norm_num) (by norm_num)
    (by decide) (by norm_num) (by decide) (by norm_num) (by norm_num)

theorem golden_next_25 : nextInflation 3 (some (7414726426502785 / 4503599627370496 : ℚ)) = some
  (3427895040534693 / 2251799813685248 : ℚ) := by
  have e : intToDouble 1 = some (1 : ℚ) := intToDouble_ofNat 1
  unfold nextInflation
  rw [golden_factor_3, e, golden_sub_22, golden_mul_23, golden_add_24]

theorem golden_term_26 :
    dadd (some (0 : ℚ)) (some (8341567229815633 / 70368744177664 : ℚ)) = some
      (8341567229815633 / 70368744177664 : ℚ) ∧
    ((-2147483649 : ℚ) < (8341567229815633 / 70368744177664 : ℚ) ∧ (8341567229815633 / 70368744177664 : ℚ) < 2147483648)
      ∧ truncToInt (8341567229815633 / 70368744177664 : ℚ) = 118 := by
  refine ⟨?_, ⟨by norm_num, by norm_num⟩, ?_⟩
  · exact
      toDouble_eval ((0 : ℚ) + (8341567229815633 / 70368744177664 : ℚ))
        (8341567229815633 / 70368744177664 : ℚ) 8341567229815633 (-46) (by norm_num) (by norm_num)
        (by norm_num)
        (by decide) (by norm_num) (by norm_num) (by norm_num) (by norm_num)
  · unfold truncToInt
    rw [if_pos (by norm_num)]
    exact Int.floor_eq_iff.mpr ⟨by norm_num, by norm_num⟩

/-- The RPG2k loop of the reference curve for level 3: the value of `result`
after its 3 iterations, reached without overflow. -/
theorem golden_trace_3 :
    expLoopRpg2k 3 (intToDouble 0) 3 0 (intToDouble 40)
      (dadd (toDouble (15 / 10)) (dmul (intToDouble 30) (toDouble (1 / 100)))) = 230 ∧
    expLoopRpg2kInRange 3 (intToDouble 0) 3 0 (intToDouble 40)
      (dadd (toDouble (15 / 10)) (dmul (intToDouble 30) (toDouble (1 / 100)))) := by
  have ec : intToDouble 0 = some (0 : ℚ) := intToDouble_ofNat 0
  have eb : intToDouble 40 = some (40 : ℚ) := intToDouble_ofNat 40
  rw [golden_inflation, ec, eb]
  have s0 := expLoopRpg2k_step_eval 3 (some (0 : ℚ)) 2 0 (some (40 : ℚ))
    (some (8106479329266893 / 4503599627370496 : ℚ))
    (40 : ℚ) 40 40 (some (72 : ℚ)) (some (7414726426502785 / 4503599627370496 : ℚ)) golden_term_7.1
      golden_term_7.2.1 golden_term_7.2.2 (by decide) (by decide) golden_mul_8 golden_next_20
  have s1 := expLoopRpg2k_step_eval 3 (some (0 : ℚ)) 1 40 (some (72 : ℚ))
    (some (7414726426502785 / 4503599627370496 : ℚ))
    (72 : ℚ) 72 112 (some (8341567229815633 / 70368744177664 : ℚ))
      (some (3427895040534693 / 2251799813685248 : ℚ)) golden_term_15.1 golden_term_15.2.1
      golden_term_15.2.2 (by decide) (by decide) golden_mul_21 golden_next_25
  have s2 := expLoopRpg2k_step_eval 3 (some (0 : ℚ)) 0 112
    (some (8341567229815633 / 70368744177664 : ℚ)) (some (3427895040534693 / 2251799813685248 : ℚ))
    (8341567229815633 / 70368744177664 : ℚ) 118 230 _ _ golden_term_26.1 golden_term_26.2.1
      golden_term_26.2.2 (by decide) (by decide) rfl rfl
  refine ⟨?_, ?_⟩
  · rw [s0.1, s1.1, s2.1]
    rfl
  · rw [s0.2, s1.2, s2.2]
    exact trivial

/-- The RPG2k loop of the reference curve for level 4 after 1 of its 4
iterations. -/
theorem golden_partial_4_1 :
    expLoopRpg2k 4 (intToDouble 0) 1 0 (intToDouble 40)
      (dadd (toDouble (15 / 10)) (dmul (intToDouble 30) (toDouble (1 / 100)))) = 40 ∧
    expLoopRpg2kInRange 4 (intToDouble 0) 1 0 (intToDouble 40)
      (dadd (toDouble (15 / 10)) (dmul (intToDouble 30) (toDouble (1 / 100)))) := by
  have ec : intToDouble 0 = some (0 : ℚ) := intToDouble_ofNat 0
  have eb : intToDouble 40 = some (40 : ℚ) := intToDouble_ofNat 40
  rw [golden_inflation, ec, eb]
  have s0 := expLoopRpg2k_step_eval 4 (some (0 : ℚ)) 0 0 (some (40 : ℚ))
    (some (8106479329266893 / 4503599627370496 : ℚ))
    (40 : ℚ) 40 40 _ _ golden_term_7.1 golden_term_7.2.1 golden_term_7.2.2 (by decide) (by decide)
      rfl rfl
  refine ⟨?_, ?_⟩
  · rw [s0.1]
    rfl
  · rw [s0.2]
    exact trivial

theorem golden_mul_27 :
    dmul (some (5 : ℚ)) (some (1152921504606847 / 576460752303423488 : ℚ)) = some
      (5764607523034235 / 576460752303423488 : ℚ) :=
  toDouble_eval ((5 : ℚ) * (1152921504606847 / 576460752303423488 : ℚ))
    (5764607523034235 / 576460752303423488 : ℚ) 5764607523034235 (-59) (by norm_num) (by norm_num)
    (by norm_num)
    (by decide) (by norm_num) (by norm_num) (by norm_num) (by norm_num)

theorem golden_add_28 :
    dadd (some (5764607523034235 / 576460752303423488 : ℚ))
      (some (3602879701896397 / 4503599627370496 : ℚ)) = some
      (1823957849085051 / 2251799813685248 : ℚ) :=
  toDouble_eval
    ((5764607523034235 / 576460752303423488 : ℚ) + (3602879701896397 / 4503599627370496 : ℚ))
    (1823957849085051 / 2251799813685248 : ℚ) 7295831396340204 (-53) (by norm_num) (by norm_num)
    (by norm_num)
    (by decide) (by norm_num) (by norm_num) (by norm_num) (by norm_num)

theorem golden_factor_4 : inflationFactor 4 = some (1823957849085051 / 2251799813685248 : ℚ) := by
  have e : intToDouble (wrapInt32 (4 + 1)) = some (5 : ℚ) := intToDouble_ofNat 5
  unfold inflationFactor
  rw [e, golden_literal_3, golden_mul_27, golden_literal_4, golden_add_28]

theorem golden_mul_29 :
    dmul (some (1823957849085051 / 2251799813685248 : ℚ))
      (some (3602879701896397 / 4503599627370496 : ℚ)) = some
      (1459166279268041 / 2251799813685248 : ℚ) :=
  toDouble_eval
    ((1823957849085051 / 2251799813685248 : ℚ) * (3602879701896397 / 4503599627370496 : ℚ))
    (1459166279268041 / 2251799813685248 : ℚ) 5836665117072164 (-53) (by norm_num) (by norm_num)
    (by norm_num)
    (by decide) (by norm_num) (by norm_num) (by norm_num) (by norm_num)

theorem golden_add_30 :
    dadd (some (1459166279268041 / 2251799813685248 : ℚ)) (some (1 : ℚ)) = some
      (3710966092953289 / 2251799813685248 : ℚ) :=
  toDouble_eval ((1459166279268041 / 2251799813685248 : ℚ) + (1 : ℚ))
    (3710966092953289 / 2251799813685248 : ℚ) 7421932185906578 (-52) (by norm_num) (by norm_num)
    (by norm_num)
    (by decide) (by norm_num) (by norm_num) (by norm_num) (by norm_num)

theorem golden_next_31 : nextInflation 4 (some (8106479329266893 / 4503599627370496 : ℚ)) = some
  (3710966092953289 / 2251799813685248 : ℚ) := by
  have e : intToDouble 1 = some (1 : ℚ) := intToDouble_ofNat 1
  unfold nextInflation
  rw [golden_factor_4, e, golden_sub_11, golden_mul_29, golden_add_30]

/-- The RPG2k loop of the reference curve for level 4 after 2 of its 4
iterations. -/
theorem golden_partial_4_2 :
    expLoopRpg2k 4 (intToDouble 0) 2 0 (intToDouble 40)
      (dadd (toDouble (15 / 10)) (dmul (intToDouble 30) (toDouble (1 / 100)))) = 112 ∧
    expLoopRpg2kInRange 4 (intToDouble 0) 2 0 (intToDouble 40)
      (dadd (toDouble (15 / 10)) (dmul (intToDouble 30) (toDouble (1 / 100)))) := by
  have ec : intToDouble 0 = some (0 : ℚ) := intToDouble_ofNat 0
  have eb : intToDouble 40 = some (40 : ℚ) := intToDouble_ofNat 40
  rw [golden_inflation, ec, eb]
  have s0 := expLoopRpg2k_step_eval 4 (some (0 : ℚ)) 1 0 (some (40 : ℚ))
    (some (8106479329266893 / 4503599627370496 : ℚ))
    (40 : ℚ) 40 40 (some (72 : ℚ)) (some (3710966092953289 / 2251799813685248 : ℚ)) golden_term_7.1
      golden_term_7.2.1 golden_term_7.2.2 (by decide) (by decide) golden_mul_8 golden_next_31
  have s1 := expLoopRpg2k_step_eval 4 (some (0 : ℚ)) 0 40 (some (72 : ℚ))
    (some (3710966092953289 / 2251799813685248 : ℚ))
    (72 : ℚ) 72 112 _ _ golden_term_15.1 golden_term_15.2.1 golden_term_15.2.2 (by decide)
      (by decide) rfl rfl
  refine ⟨?_, ?_⟩
  · rw [s0.1, s1.1]
    rfl
  · rw [s0.2, s1.2]
    exact trivial

theorem golden_mul_32 :
    dmul (some (72 : ℚ)) (some (3710966092953289 / 2251799813685248 : ℚ)) = some
      (2087418427286225 / 17592186044416 : ℚ) :=
  toDouble_eval ((72 : ℚ) * (3710966092953289 / 2251799813685248 : ℚ))
    (2087418427286225 / 17592186044416 : ℚ) 8349673709144900 (-46) (by norm_num) (by norm_num)
    (by norm_num)
    (by decide) (by norm_num) (by norm_num) (by norm_num) (by norm_num)

theorem golden_sub_33 :
    dsub (some (3710966092953289 / 2251799813685248 : ℚ)) (some (1 : ℚ)) = some
      (1459166279268041 / 2251799813685248 : ℚ) :=
  toDouble_eval ((3710966092953289 / 2251799813685248 : ℚ) - (1 : ℚ))
    (1459166279268041 / 2251799813685248 : ℚ) 5836665117072164 (-53) (by norm_num) (by norm_num)
    (by norm_num)
    (by decide) (by norm_num) (by norm_num) (by norm_num) (by norm_num)

theorem golden_mul_34 :
    dmul (some (1823957849085051 / 2251799813685248 : ℚ))
      (some (1459166279268041 / 2251799813685248 : ℚ)) = some
      (4727698744828453 / 9007199254740992 : ℚ) :=
  toDouble_eval
    ((1823957849085051 / 2251799813685248 : ℚ) * (1459166279268041 / 2251799813685248 : ℚ))
    (4727698744828453 / 9007199254740992 : ℚ) 4727698744828453 (-53) (by norm_num) (by norm_num)
    (by norm_num)
    (by decide) (by norm_num) (by norm_num) (by norm_num) (by norm_num)

theorem golden_add_35 :
    dadd (some (4727698744828453 / 9007199254740992 : ℚ)) (some (1 : ℚ)) = some
      (3433724499892361 / 2251799813685248 : ℚ) :=
  toDouble_eval_tie ((4727698744828453 / 9007199254740992 : ℚ) + (1 : ℚ))
    (3433724499892361 / 2251799813685248 : ℚ) 6867448999784722 6867448999784722 (-52) (by norm_num)
    (by norm_num) (by norm_num)
    (by decide) (by norm_num) (by decide) (by norm_num) (by norm_num)

theorem golden_next_36 : nextInflation 4 (some (3710966092953289 / 2251799813685248 : ℚ)) = some
  (3433724499892361 / 2251799813685248 : ℚ) := by
  have e : intToDouble 1 = some (1 : ℚ) := intToDouble_ofNat 1
  unfold nextInflation
  rw [golden_factor_4, e, golden_sub_33, golden_mul_34, golden_add_35]

theorem golden_term_37 :
    dadd (some (0 : ℚ)) (some (2087418427286225 / 17592186044416 : ℚ)) = some
      (2087418427286225 / 17592186044416 : ℚ) ∧
    ((-2147483649 : ℚ) < (2087418427286225 / 17592186044416 : ℚ) ∧ (2087418427286225 / 17592186044416 : ℚ) < 2147483648)
      ∧ truncToInt (2087418427286225 / 17592186044416 : ℚ) = 118 := by
  refine ⟨?_, ⟨by norm_num, by norm_num⟩, ?_⟩
  · exact
      toDouble_eval ((0 : ℚ) + (2087418427286225 / 17592186044416 : ℚ))
        (2087418427286225 / 17592186044416 : ℚ) 8349673709144900 (-46) (by norm_num) (by norm_num)
        (by norm_num)
        (by decide) (by norm_num) (by norm_num) (by norm_num) (by norm_num)
  · unfold truncToInt
    rw [if_pos (by norm_num)]
    exact Int.floor_eq_iff.mpr ⟨by norm_num, by norm_num⟩

/-- The RPG2k loop of the reference curve for level 4 after 3 of its 4
iterations. -/
theorem golden_partial_4_3 :
    expLoopRpg2k 4 (intToDouble 0) 3 0 (intToDouble 40)
      (dadd (toDouble (15 / 10)) (dmul (intToDouble 30) (toDouble (1 / 100)))) = 230 ∧
    expLoopRpg2kInRange 4 (intToDouble 0) 3 0 (intToDouble 40)
      (dadd (toDouble (15 / 10)) (dmul (intToDouble 30) (toDouble (1 / 100)))) := by
  have ec : intToDouble 0 = some (0 : ℚ) := intToDouble_ofNat 0
  have eb : intToDouble 40 = some (40 : ℚ) := intToDouble_ofNat 40
  rw [golden_inflation, ec, eb]
  have s0 := expLoopRpg2k_step_eval 4 (some (0 : ℚ)) 2 0 (some (40 : ℚ))
    (some (8106479329266893 / 4503599627370496 : ℚ))
    (40 : ℚ) 40 40 (some (72 : ℚ)) (some (3710966092953289 / 2251799813685248 : ℚ)) golden_term_7.1
      golden_term_7.2.1 golden_term_7.2.2 (by decide) (by decide) golden_mul_8 golden_next_31
  have s1 := expLoopRpg2k_step_eval 4 (some (0 : ℚ)) 1 40 (some (72 : ℚ))
    (some (3710966092953289 / 2251799813685248 : ℚ))
    (72 : ℚ) 72 112 (some (2087418427286225 / 17592186044416 : ℚ))
      (some (3433724499892361 / 2251799813685248 : ℚ)) golden_term_15.1 golden_term_15.2.1
      golden_term_15.2.2 (by decide) (by decide) golden_mul_32 golden_next_36
  have s2 := expLoopRpg2k_step_eval 4 (some (0 : ℚ)) 0 112
    (some (2087418427286225 / 17592186044416 : ℚ)) (some (3433724499892361 / 2251799813685248 : ℚ))
    (2087418427286225 / 17592186044416 : ℚ) 118 230 _ _ golden_term_37.1 golden_term_37.2.1
      golden_term_37.2.2 (by decide) (by decide) rfl rfl
  refine ⟨?_, ?_⟩
  · rw [s0.1, s1.1, s2.1]
    rfl
  · rw [s0.2, s1.2, s2.2]
    exact trivial

theorem golden_mul_38 :
    dmul (some (2087418427286225 / 17592186044416 : ℚ))
      (some (3433724499892361 / 2251799813685248 : ℚ)) = some
      (3183062611400219 / 17592186044416 : ℚ) :=
  toDouble_eval
    ((2087418427286225 / 17592186044416 : ℚ) * (3433724499892361 / 2251799813685248 : ℚ))
    (3183062611400219 / 17592186044416 : ℚ) 6366125222800438 (-45) (by norm_num) (by norm_num)
    (by norm_num)
    (by decide) (by norm_num) (by norm_num) (by norm_num) (by norm_num)

theorem golden_sub_39 :
    dsub (some (3433724499892361 / 2251799813685248 : ℚ)) (some (1 : ℚ)) = some
      (1181924686207113 / 2251799813685248 : ℚ) :=
  toDouble_eval ((3433724499892361 / 2251799813685248 : ℚ) - (1 : ℚ))
    (1181924686207113 / 2251799813685248 : ℚ) 4727698744828452 (-53) (by norm_num) (by norm_num)
    (by norm_num)
    (by decide) (by norm_num) (by norm_num) (by norm_num) (by norm_num)

theorem golden_mul_40 :
    dmul (some (1823957849085051 / 2251799813685248 : ℚ))
      (some (1181924686207113 / 2251799813685248 : ℚ)) = some
      (7658871966622093 / 18014398509481984 : ℚ) :=
  toDouble_eval
    ((1823957849085051 / 2251799813685248 : ℚ) * (1181924686207113 / 2251799813685248 : ℚ))
    (7658871966622093 / 18014398509481984 : ℚ) 7658871966622093 (-54) (by norm_num) (by norm_num)
    (by norm_num)
    (by decide) (by norm_num) (by norm_num) (by norm_num) (by norm_num)

theorem golden_add_41 :
    dadd (some (7658871966622093 / 18014398509481984 : ℚ)) (some (1 : ℚ)) = some
      (6418317619026019 / 4503599627370496 : ℚ) :=
  toDouble_eval ((7658871966622093 / 18014398509481984 : ℚ) + (1 : ℚ))
    (6418317619026019 / 4503599627370496 : ℚ) 6418317619026019 (-52) (by norm_num) (by norm_num)
    (by norm_num)
    (by decide) (by norm_num) (by norm_num) (by norm_num) (by norm_num)

theorem golden_next_42 : nextInflation 4 (some (3433724499892361 / 2251799813685248 : ℚ)) = some
  (6418317619026019 / 4503599627370496 : ℚ) := by
  have e : intToDouble 1 = some (1 : ℚ) := intToDouble_ofNat 1
  unfold nextInflation
  rw [golden_factor_4, e, golden_sub_39, golden_mul_40, golden_add_41]

theorem golden_term_43 :
    dadd (some (0 : ℚ)) (some (3183062611400219 / 17592186044416 : ℚ)) = some
      (3183062611400219 / 17592186044416 : ℚ) ∧
    ((-2147483649 : ℚ) < (3183062611400219 / 17592186044416 : ℚ) ∧ (3183062611400219 / 17592186044416 : ℚ) < 2147483648)
      ∧ truncToInt (3183062611400219 / 17592186044416 : ℚ) = 180 := by
  refine ⟨?_, ⟨by norm_num, by norm_num⟩, ?_⟩
  · exact
      toDouble_eval ((0 : ℚ) + (3183062611400219 / 17592186044416 : ℚ))
        (3183062611400219 / 17592186044416 : ℚ) 6366125222800438 (-45) (by norm_num) (by norm_num)
        (by norm_num)
        (by decide) (by norm_num) (by norm_num) (by norm_num) (by norm_num)
  · unfold truncToInt
    rw [if_pos (by norm_num)]
    exact Int.floor_eq_iff.mpr ⟨by norm_num, by norm_num⟩

/-- The RPG2k loop of the reference curve for level 4: the value of `result`
after its 4 iterations, reached without overflow. -/
theorem golden_trace_4 :
    expLoopRpg2k 4 (intToDouble 0) 4 0 (intToDouble 40)
      (dadd (toDouble (15 / 10)) (dmul (intToDouble 30) (toDouble (1 / 100)))) = 410 ∧
    expLoopRpg2kInRange 4 (intToDouble 0) 4 0 (intToDouble 40)
      (dadd (toDouble (15 / 10)) (dmul (intToDouble 30) (toDouble (1 / 100)))) := by
  have ec : intToDouble 0 = some (0 : ℚ) := intToDouble_ofNat 0
  have eb : intToDouble 40 = some (40 : ℚ) := intToDouble_ofNat 40
  rw [golden_inflation, ec, eb]
  have s0 := expLoopRpg2k_step_eval 4 (some (0 : ℚ)) 3 0 (some (40 : ℚ))
    (some (8106479329266893 / 4503599627370496 : ℚ))
    (40 : ℚ) 40 40 (some (72 : ℚ)) (some (3710966092953289 / 2251799813685248 : ℚ)) golden_term_7.1
      golden_term_7.2.1 golden_term_7.2.2 (by decide) (by decide) golden_mul_8 golden_next_31
  have s1 := expLoopRpg2k_step_eval 4 (some (0 : ℚ)) 2 40 (some (72 : ℚ))
    (some (3710966092953289 / 2251799813685248 : ℚ))
    (72 : ℚ) 72 112 (some (2087418427286225 / 17592186044416 : ℚ))
      (some (3433724499892361 / 2251799813685248 : ℚ)) golden_term_15.1 golden_term_15.2.1
      golden_term_15.2.2 (by decide) (by decide) golden_mul_32 golden_next_36
  have s2 := expLoopRpg2k_step_eval 4 (some (0 : ℚ)) 1 112
    (some (2087418427286225 / 17592186044416 : ℚ)) (some (3433724499892361 / 2251799813685248 : ℚ))
    (2087418427286225 / 17592186044416 : ℚ) 118 230 (some (3183062611400219 / 17592186044416 : ℚ))
      (some (6418317619026019 / 4503599627370496 : ℚ)) golden_term_37.1 golden_term_37.2.1
      golden_term_37.2.2 (by decide) (by decide) golden_mul_38 golden_next_42
  have s3 := expLoopRpg2k_step_eval 4 (some (0 : ℚ)) 0 230
    (some (3183062611400219 / 17592186044416 : ℚ)) (some (6418317619026019 / 4503599627370496 : ℚ))
    (3183062611400219 / 17592186044416 : ℚ) 180 410 _ _ golden_term_43.1 golden_term_43.2.1
      golden_term_43.2.2 (by decide) (by decide) rfl rfl
  refine ⟨?_, ?_⟩
  · rw [s0.1, s1.1, s2.1, s3.1]
    rfl
  · rw [s0.2, s1.2, s2.2, s3.2]
    exact trivial

theorem CalculateExp_goldenEnv (L : Int) (v : Int)
    (h : expLoopRpg2k L (intToDouble 0) L.toNat 0 (intToDouble 40)
      (dadd (toDouble (15 / 10)) (dmul (intToDouble 30) (toDouble (1 / 100)))) = v) :
    CalculateExp goldenEnv newActor L = min v 999999 := by
  rw [← h]
  rfl

/-- No 32-bit overflow occurs while the table of the reference curve is
computed. -/
theorem golden_inRange (L : Int) (h1 : 1 ≤ L) (h2 : L < GetMaxLevel goldenEnv) :
    CalculateExpInRange goldenEnv newActor L := by
  have h5 : GetMaxLevel goldenEnv = 5 := rfl
  rw [h5] at h2
  have hL : L = 1 ∨ L = 2 ∨ L = 3 ∨ L = 4 := by omega
  rcases hL with rfl | rfl | rfl | rfl
  · exact ⟨by decide, golden_trace_1.2⟩
  · exact ⟨by decide, golden_trace_2.2⟩
  · exact ⟨by decide, golden_trace_3.2⟩
  · exact ⟨by decide, golden_trace_4.2⟩

/-- The table of the reference curve. -/
theorem golden_table : (MakeExpList goldenEnv newActor).exp_list = [0, 40, 112, 230, 410] := by
  have e : (MakeExpList goldenEnv newActor).exp_list =
      [0, CalculateExp goldenEnv newActor 1, CalculateExp goldenEnv newActor 2,
        CalculateExp goldenEnv newActor 3, CalculateExp goldenEnv newActor 4] := rfl
  rw [e, CalculateExp_goldenEnv 1 40 golden_trace_1.1, CalculateExp_goldenEnv 2 112 golden_trace_2.1,
    CalculateExp_goldenEnv 3 230 golden_trace_3.1, CalculateExp_goldenEnv 4 410 golden_trace_4.1]
  decide

/-- The table `MakeExpList` builds over a non-negative, non-decreasing curve is
non-decreasing, starts at 0 and stays within `[0, max_exp_value()]`. -/
theorem MakeExpList_nonDecreasing (env : Env) (a : Game_Actor)
    (hfinal : 1 ≤ GetMaxLevel env)
    (hold : a.exp_list = [] ∨ a.exp_list.head? = some 0)
    (hcurve : CurveNonDecreasing env a) :
    (∀ L : Int, 1 ≤ L → L ≤ GetMaxLevel env - 1 →
      minExpForLevel (MakeExpList env a) L ≤ minExpForLevel (MakeExpList env a) (L + 1)) ∧
    minExpForLevel (MakeExpList env a) 1 = 0 ∧
    ∀ L : Int, 1 ≤ L → L ≤ GetMaxLevel env →
      0 ≤ minExpForLevel (MakeExpList env a) L ∧
      minExpForLevel (MakeExpList env a) L ≤ max_exp_value env := by
  obtain ⟨h0, hent⟩ := MakeExpList_entries env a hfinal hold
  have hM := max_exp_value_pos env
  have hval : ∀ L : Int, 2 ≤ L → L ≤ GetMaxLevel env →
      minExpForLevel (MakeExpList env a) L =
        min (expCurve env a (L - 1)) (max_exp_value env) := by
    intro L h1 h2
    unfold minExpForLevel
    rw [hent (L - 1) (by omega) (by unfold GetMaxLevel at h2; omega), CalculateExp_eq_min]
  have hone : minExpForLevel (MakeExpList env a) 1 = 0 := by
    unfold minExpForLevel; simpa using h0
  refine ⟨?_, hone, ?_⟩
  · intro L h1 h2
    rw [hval (L + 1) (by omega) (by omega)]
    simp only [add_sub_cancel_right]
    have hnn := hcurve.1 L h1 (by omega)
    by_cases hL : L = 1
    · subst hL; rw [hone]; omega
    · rw [hval L (by omega) (by omega)]
      have hm := hcurve.2 (L - 1) (by omega) (by omega)
      simp only [sub_add_cancel] at hm
      omega
  · intro L h1 h2
    by_cases hL : L = 1
    · subst hL; rw [hone]; omega
    · rw [hval L (by omega) h2]
      have hnn := hcurve.1 (L - 1) (by omega) (by omega)
      omega

theorem ModsRaised_start (a : Game_Actor) : ModsRaised a a 0 0 0 0 0 0 := by
  simp [ModsRaised]

theorem ModsRaised_maxhp (env : Env) {a b : Game_Actor} {hp sp atk de agi spi : Int} (p : Int)
    (h : ModsRaised a b hp sp atk de agi spi) :
    ModsRaised a (SetBaseMaxHp env b (GetBaseMaxHp env b true + p))
      (hp + p) sp atk de agi spi := by
  obtain ⟨h1, h2, h3, h4, h5, h6, h7, h8, h9, h10⟩ := h
  refine ⟨?_, h2, h3, h4, h5, h6, h7, h8, h9, h10⟩
  show b.hp_mod + (GetBaseMaxHp env b true + p - GetBaseMaxHp env b true) = _
  omega

theorem ModsRaised_maxsp (env : Env) {a b : Game_Actor} {hp sp atk de agi spi : Int} (p : Int)
    (h : ModsRaised a b hp sp atk de agi spi) :
    ModsRaised a (SetBaseMaxSp env b (GetBaseMaxSp env b true + p))
      hp (sp + p) atk de agi spi := by
  obtain ⟨h1, h2, h3, h4, h5, h6, h7, h8, h9, h10⟩ := h
  refine ⟨h1, ?_, h3, h4, h5, h6, h7, h8, h9, h10⟩
  show b.sp_mod + (GetBaseMaxSp env b true + p - GetBaseMaxSp env b true) = _
  omega

theorem ModsRaised_atk (env : Env) {a b : Game_Actor} {hp sp atk de agi spi : Int} (p : Int)
    (h : ModsRaised a b hp sp atk de agi spi) :
    ModsRaised a (SetBaseAtk env b (GetBaseAtk env b true true + p))
      hp sp (atk + p) de agi spi := by
  obtain ⟨h1, h2, h3, h4, h5, h6, h7, h8, h9, h10⟩ := h
  refine ⟨h1, h2, ?_, h4, h5, h6, h7, h8, h9, h10⟩
  show b.attack_mod + (GetBaseAtk env b true true + p - GetBaseAtk env b true true) = _
  omega

theorem ModsRaised_defense (env : Env) {a b : Game_Actor} {hp sp atk de agi spi : Int} (p : Int)
    (h : ModsRaised a b hp sp atk de agi spi) :
    ModsRaised a (SetBaseDef env b (GetBaseDef env b true true + p))
      hp sp atk (de + p) agi spi := by
  obtain ⟨h1, h2, h3, h4, h5, h6, h7, h8, h9, h10⟩ := h
  refine ⟨h1, h2, h3, ?_, h5, h6, h7, h8, h9, h10⟩
  show b.defense_mod + (GetBaseDef env b true true + p - GetBaseDef env b true true) = _
  omega

theorem ModsRaised_agi (env : Env) {a b : Game_Actor} {hp sp atk de agi spi : Int} (p : Int)
    (h : ModsRaised a b hp sp atk de agi spi) :
    ModsRaised a (SetBaseAgi env b (GetBaseAgi env b true true + p))
      hp sp atk de (agi + p) spi := by
  obtain ⟨h1, h2, h3, h4, h5, h6, h7, h8, h9, h10⟩ := h
  refine ⟨h1, h2, h3, h4, ?_, h6, h7, h8, h9, h10⟩
  show b.agility_mod + (GetBaseAgi env b true true + p - GetBaseAgi env b true true) = _
  omega

theorem ModsRaised_spi (env : Env) {a b : Game_Actor} {hp sp atk de agi spi : Int} (p : Int)
    (h : ModsRaised a b hp sp atk de agi spi) :
    ModsRaised a (SetBaseSpi env b (GetBaseSpi env b true true + p))
      hp sp atk de agi (spi + p) := by
  obtain ⟨h1, h2, h3, h4, h5, h6, h7, h8, h9, h10⟩ := h
  refine ⟨h1, h2, h3, h4, h5, ?_, h7, h8, h9, h10⟩
  show b.spirit_mod + (GetBaseSpi env b true true + p - GetBaseSpi env b true true) = _
  omega

/-- The in-range part of `ChangeEquipment`: the previous occupant is returned to
the party exactly when it is not 0 and the new item is taken from the party
exactly when it is not 0. -/
theorem ChangeEquipment_in_range (env : Env) (a : Game_Actor) (i x : Int) (h0 : 0 ≤ i)
    (h1 : i < (a.equipped.length : Int)) :
    (ChangeEquipment env a i x).1 = (SetEquipment env a i x).2 ∧
    (ChangeEquipment env a i x).2 =
      (if GetEquipment env a i ≠ 0 then [PartyCall.AddItem (GetEquipment env a i) 1] else []) ++
      (if x ≠ 0 then [PartyCall.RemoveItem x 1] else []) := by
  have hget : GetEquipment env a i =
      (if vecGet a.equipped i ≤ (env.items.length : Int) then vecGet a.equipped i else 0) := by
    unfold GetEquipment
    rw [if_neg (by omega)]
  have hset : (SetEquipment env a i x).1 =
      (if vecGet a.equipped i > (env.items.length : Int) then 0 else vecGet a.equipped i) := by
    rw [SetEquipment_in_range env a i x h0 h1]
  have hprev : (SetEquipment env a i x).1 = GetEquipment env a i := by
    rw [hset, hget]
    split_ifs <;> omega
  refine ⟨rfl, ?_⟩
  unfold ChangeEquipment
  simp only [hprev]
  split_ifs <;> simp

theorem truncToInt_intCast (n : Int) : truncToInt (n : ℚ) = n := by
  unfold truncToInt
  split_ifs <;> simp

theorem battleLeft_eq (a : Game_Actor) :
    battleLeft a = (((if a.row = 1 then 25 else 50 : Int) : Int) : ℚ) := by
  unfold battleLeft GetBattleRow
  split_ifs <;> simp

theorem battleRight_eq (sc : BattleScene) (a : Game_Actor) :
    battleRight sc a =
      (((if a.row = 1 then 25 else 50) + Int.tdiv sc.terrain.grid_c 1103 : Int) : ℚ) := by
  unfold battleRight
  rw [battleLeft_eq]
  push_cast
  rfl

theorem battleXPosition_pair_first (sc : BattleScene) (a : Game_Actor)
    (hsize : sc.party_size = 2) (hpos : sc.party_pos = 0) :
    battleXPosition sc a = battleRight sc a := by
  unfold battleXPosition
  simp [hsize, hpos]

theorem vecGet_nonneg (v : List Int) (i : Int) (h : ∀ x ∈ v, 0 ≤ x) : 0 ≤ vecGet v i := by
  by_cases hi : 0 ≤ i ∧ i < (v.length : Int)
  · exact h _ (vecGet_mem v i hi.1 hi.2)
  · unfold vecGet
    split_ifs with hneg
    · exact le_refl _
    · rw [List.getD_eq_default _ _ (by omega)]
      exact le_refl _

theorem GetNextExp_sentinel_iff (env : Env) (a : Game_Actor) (h : ∀ x ∈ a.exp_list, 0 ≤ x)
    (L : Int) : GetNextExp env a L = -1 ↔ (L ≤ 0 ∨ L ≥ GetMaxLevel env) := by
  unfold GetNextExp
  constructor
  · intro hs
    by_contra hc
    rw [if_neg (by omega)] at hs
    have := vecGet_nonneg a.exp_list L h
    omega
  · intro hc
    rw [if_pos (by omega)]

theorem ChangeLevel_in_range (env : Env) (a : Game_Actor) (m : Game_Message) (n : Int)
    (b : Bool) (hM : 1 ≤ GetMaxLevel env) (h : LevelExpInRange env a) :
    LevelExpInRange env (ChangeLevel env a m n b).1 := by
  obtain ⟨h1, h2, h3, h4⟩ := h
  have hMx := max_exp_value_pos env
  unfold LevelExpInRange
  rw [ChangeLevel_level]
  refine ⟨by omega, by omega, ?_⟩
  rcases lt_trichotomy a.level (min (max n 1) (GetMaxLevel env)) with hlt | heq | hgt
  · rw [ChangeLevel_exp_up env a m n b hlt]
    omega
  · rw [ChangeLevel_same env a m n b heq.symm]
    exact ⟨h3, h4⟩
  · rw [ChangeLevel_exp_down env a m n b hgt]
    split_ifs <;> omega

theorem addEquipped_shift (env : Env) (f : Item → Int) (l : List Int) (n d : Int) :
    addEquipped env f l (n + d) = addEquipped env f l n + d := by
  rw [addEquipped_eq_sum, addEquipped_eq_sum]
  omega

theorem clamp_round_trip (raw v lo hi : Int) (h1 : lo ≤ v) (h2 : v ≤ hi) :
    min (max (raw + (v - min (max raw lo) hi)) lo) hi = v ↔ RoundTrips raw v lo hi := by
  unfold RoundTrips
  omega

theorem GetBaseAtk_unclamped (env : Env) (a : Game_Actor) :
    GetBaseAtk env a true true = min (max (unclampedAtk env a) 1) 999 := rfl

theorem GetBaseDef_unclamped (env : Env) (a : Game_Actor) :
    GetBaseDef env a true true = min (max (unclampedDef env a) 1) 999 := rfl

theorem GetBaseSpi_unclamped (env : Env) (a : Game_Actor) :
    GetBaseSpi env a true true = min (max (unclampedSpi env a) 1) 999 := rfl

theorem GetBaseAgi_unclamped (env : Env) (a : Game_Actor) :
    GetBaseAgi env a true true = min (max (unclampedAgi env a) 1) 999 := rfl

theorem GetBaseMaxSp_unclamped (env : Env) (a : Game_Actor) :
    GetBaseMaxSp env a true = min (max (unclampedMaxSp env a) 0) 999 := rfl

theorem GetBaseMaxHp_unclamped (env : Env) (a : Game_Actor) :
    GetBaseMaxHp env a true = min (max (unclampedMaxHp env a) 1) (max_hp_value env) := rfl

theorem unclampedAtk_SetBaseAtk (env : Env) (a : Game_Actor) (v : Int) :
    unclampedAtk env (SetBaseAtk env a v) =
      unclampedAtk env a + (v - GetBaseAtk env a true true) := by
  unfold unclampedAtk
  rw [← addEquipped_shift]
  show addEquipped env _ a.equipped (_ + (a.attack_mod + (v - GetBaseAtk env a true true))) = _
  rw [add_assoc]
  rfl

theorem unclampedDef_SetBaseDef (env : Env) (a : Game_Actor) (v : Int) :
    unclampedDef env (SetBaseDef env a v) =
      unclampedDef env a + (v - GetBaseDef env a true true) := by
  unfold unclampedDef
  rw [← addEquipped_shift]
  show addEquipped env _ a.equipped (_ + (a.defense_mod + (v - GetBaseDef env a true true))) = _
  rw [add_assoc]
  rfl

theorem unclampedSpi_SetBaseSpi (env : Env) (a : Game_Actor) (v : Int) :
    unclampedSpi env (SetBaseSpi env a v) =
      unclampedSpi env a + (v - GetBaseSpi env a true true) := by
  unfold unclampedSpi
  rw [← addEquipped_shift]
  show addEquipped env _ a.equipped (_ + (a.spirit_mod + (v - GetBaseSpi env a true true))) = _
  rw [add_assoc]
  rfl

theorem unclampedAgi_SetBaseAgi (env : Env) (a : Game_Actor) (v : Int) :
    unclampedAgi env (SetBaseAgi env a v) =
      unclampedAgi env a + (v - GetBaseAgi env a true true) := by
  unfold unclampedAgi
  rw [← addEquipped_shift]
  show addEquipped env _ a.equipped (_ + (a.agility_mod + (v - GetBaseAgi env a true true))) = _
  rw [add_assoc]
  rfl

theorem unclampedMaxSp_SetBaseMaxSp (env : Env) (a : Game_Actor) (v : Int) :
    unclampedMaxSp env (SetBaseMaxSp env a v) =
      unclampedMaxSp env a + (v - GetBaseMaxSp env a true) := by
  unfold unclampedMaxSp
  show _ + (a.sp_mod + (v - GetBaseMaxSp env a true)) = _
  rw [add_assoc]
  rfl

theorem unclampedMaxHp_SetBaseMaxHp (env : Env) (a : Game_Actor) (v : Int) :
    unclampedMaxHp env (SetBaseMaxHp env a v) =
      unclampedMaxHp env a + (v - GetBaseMaxHp env a true) := by
  unfold unclampedMaxHp
  show _ + (a.hp_mod + (v - GetBaseMaxHp env a true)) = _
  rw [add_assoc]
  rfl

/-! # Claims -/

/-- C1, as stated, fails: over the non-decreasing table `[0, 10, 10]` the
consistent state (level 1, experience 0) is taken by `ChangeLevel(2, false)` to
level 2 with experience 10, which is not below the threshold 10 of level 3. -/
theorem C1_counterexample :
    ExpListWF threeLevelEnv plateauActor ∧
    ExpListNonDecreasing plateauActor ∧ LevelInRange threeLevelEnv plateauActor ∧
    LevelExpConsistent threeLevelEnv plateauActor ∧
    ¬ LevelExpConsistent threeLevelEnv
        (ChangeLevel threeLevelEnv plateauActor {} 2 false).1 := by
  decide

/-- C1 (amended): over a table as `MakeExpList` builds it and non-decreasing,
from a state with `1 ≤ level ≤ maxLevel` that is level/experience consistent,
every `ChangeExp(v, announce)` yields a consistent state, and
`ChangeLevel(n, announce)` yields a consistent state whenever the clamped target
level is `maxLevel` or its threshold is strictly below the next level's. -/
theorem C1_progression_keeps_consistency (env : Env) (a : Game_Actor) (m : Game_Message)
    (hwf : ExpListWF env a) (hmono : ExpListNonDecreasing a)
    (hrange : LevelInRange env a) (hcons : LevelExpConsistent env a) :
    (∀ (v : Int) (announce : Bool), LevelExpConsistent env (ChangeExp env a m v announce).1) ∧
    (∀ (n : Int) (announce : Bool),
      (min (max n 1) (GetMaxLevel env) = GetMaxLevel env ∨
        minExpForLevel a (min (max n 1) (GetMaxLevel env)) <
          minExpForLevel a (min (max n 1) (GetMaxLevel env) + 1)) →
      LevelExpConsistent env (ChangeLevel env a m n announce).1) := by
  refine ⟨?_, fun n b hgap => ChangeLevel_consistent env a m n b hwf hmono hrange hcons hgap⟩
  intro v b
  obtain ⟨he, ht, hl1, hl2, hge, hgreat⟩ :=
    ChangeExp_greatest env a m v b hwf hmono hrange hcons
  unfold LevelExpConsistent minExpForLevel
  rw [ht, he]
  refine ⟨hge, ?_⟩
  by_cases hmax : (ChangeExp env a m v b).1.level = GetMaxLevel env
  · exact Or.inl hmax
  · right
    by_contra hcon
    have := hgreat ((ChangeExp env a m v b).1.level + 1) (by omega) (by omega)
      (by unfold minExpForLevel; omega)
    omega

/-- C1 (amended), applied to the three-level table `[0, 10, 20]`. -/
theorem C1_progression_keeps_consistency_witness :
    ExpListWF threeLevelEnv strictActor ∧ ExpListNonDecreasing strictActor ∧
    LevelInRange threeLevelEnv strictActor ∧ LevelExpConsistent threeLevelEnv strictActor ∧
    LevelExpConsistent threeLevelEnv (ChangeExp threeLevelEnv strictActor {} 25 true).1 ∧
    LevelExpConsistent threeLevelEnv (ChangeLevel threeLevelEnv strictActor {} 2 true).1 :=
  have h := C1_progression_keeps_consistency threeLevelEnv strictActor {}
    (by decide) (by decide) (by decide) (by decide)
  ⟨by decide, by decide, by decide, by decide, h.1 25 true, h.2 2 true (by decide)⟩

/-- C2: for a state with `1 ≤ level ≤ maxLevel`, any table, any target `v` and
either flag, `ChangeExp(v, announce)` applied twice leaves the same
`(level, experience)` as applied once. -/
theorem C2_ChangeExp_idempotent (env : Env) (a : Game_Actor) (m : Game_Message) (v : Int)
    (announce : Bool) (h1 : 1 ≤ a.level) (h2 : a.level ≤ GetMaxLevel env) :
    ((ChangeExp env (ChangeExp env a m v announce).1 (ChangeExp env a m v announce).2
        v announce).1.level,
     (ChangeExp env (ChangeExp env a m v announce).1 (ChangeExp env a m v announce).2
        v announce).1.exp) =
    ((ChangeExp env a m v announce).1.level, (ChangeExp env a m v announce).1.exp) := by
  obtain ⟨el, ee, -⟩ := ChangeExp_level_exp env a m v announce h1 h2
  obtain ⟨r1, r2⟩ := scannedLevel_range env a (min (max v 0) (max_exp_value env)) h1 h2
  obtain ⟨el2, ee2, -⟩ := ChangeExp_level_exp env (ChangeExp env a m v announce).1
    (ChangeExp env a m v announce).2 v announce (by rw [el]; exact r1) (by rw [el]; exact r2)
  rw [el2, ee2, ee]
  congr 1
  unfold scannedLevel
  rw [ee]
  simp

/-- C2, applied to a two-level gain over the table `[0, 10, 20]`. -/
theorem C2_ChangeExp_idempotent_witness :
    1 ≤ strictActor.level ∧ strictActor.level ≤ GetMaxLevel threeLevelEnv ∧
    ((ChangeExp threeLevelEnv (ChangeExp threeLevelEnv strictActor {} 25 true).1
        (ChangeExp threeLevelEnv strictActor {} 25 true).2 25 true).1.level,
     (ChangeExp threeLevelEnv (ChangeExp threeLevelEnv strictActor {} 25 true).1
        (ChangeExp threeLevelEnv strictActor {} 25 true).2 25 true).1.exp) =
    ((ChangeExp threeLevelEnv strictActor {} 25 true).1.level,
     (ChangeExp threeLevelEnv strictActor {} 25 true).1.exp) :=
  ⟨by decide, by decide,
    C2_ChangeExp_idempotent threeLevelEnv strictActor {} 25 true (by decide) (by decide)⟩

/-- C3: over a table as `MakeExpList` builds it and non-decreasing, from a
consistent state, `ChangeExp(v, announce)` leaves the experience at `v` clamped
into `[0, maxExperience]` and the level at the greatest `L` in `[1, maxLevel]`
with `minExpForLevel(L)` at most that clamped value. -/
theorem C3_ChangeExp_level_from_thresholds (env : Env) (a : Game_Actor) (m : Game_Message)
    (v : Int) (announce : Bool)
    (hwf : ExpListWF env a) (hmono : ExpListNonDecreasing a)
    (hrange : LevelInRange env a) (hcons : LevelExpConsistent env a) :
    (ChangeExp env a m v announce).1.exp = min (max v 0) (max_exp_value env) ∧
    (1 ≤ (ChangeExp env a m v announce).1.level ∧
      (ChangeExp env a m v announce).1.level ≤ GetMaxLevel env ∧
      minExpForLevel a (ChangeExp env a m v announce).1.level ≤
        min (max v 0) (max_exp_value env)) ∧
    ∀ L : Int, 1 ≤ L → L ≤ GetMaxLevel env →
      minExpForLevel a L ≤ min (max v 0) (max_exp_value env) →
      L ≤ (ChangeExp env a m v announce).1.level := by
  obtain ⟨he, -, hl1, hl2, hge, hgreat⟩ :=
    ChangeExp_greatest env a m v announce hwf hmono hrange hcons
  exact ⟨he, ⟨hl1, hl2, hge⟩, hgreat⟩

/-- C3, applied to a decrease from level 3 to experience 15 (level 2). -/
theorem C3_ChangeExp_level_from_thresholds_witness :
    ExpListWF threeLevelEnv topActor ∧ ExpListNonDecreasing topActor ∧
    LevelInRange threeLevelEnv topActor ∧ LevelExpConsistent threeLevelEnv topActor ∧
    (ChangeExp threeLevelEnv topActor {} 15 false).1.exp =
      min (max 15 0) (max_exp_value threeLevelEnv) ∧
    (ChangeExp threeLevelEnv topActor {} 15 false).1.level = 2 ∧
    ∀ L : Int, 1 ≤ L → L ≤ GetMaxLevel threeLevelEnv →
      minExpForLevel topActor L ≤ min (max 15 0) (max_exp_value threeLevelEnv) →
      L ≤ (ChangeExp threeLevelEnv topActor {} 15 false).1.level :=
  have h := C3_ChangeExp_level_from_thresholds threeLevelEnv topActor {} 15 false
    (by decide) (by decide) (by decide) (by decide)
  ⟨by decide, by decide, by decide, by decide, h.1, by decide, h.2.2⟩

/-- C4, as stated, fails for three of the listed operations: `SetLevel` to a
lower level and `SetClass` on a class-changed actor do not re-clamp HP/SP, and
`ChangeLevel` to a higher level does not re-clamp either, so a maximum that is
lower for the new level or class is exceeded. -/
theorem C4_counterexample :
    (HpSpWithinMax statEnv fullActor ∧ ¬ HpSpWithinMax statEnv (SetLevel statEnv fullActor 1)) ∧
    (HpSpWithinMax statEnv classedActor ∧
      ¬ HpSpWithinMax statEnv (SetClass statEnv classedActor 2)) ∧
    (HpSpWithinMax fallingEnv freshActor ∧
      ¬ HpSpWithinMax fallingEnv (ChangeLevel fallingEnv freshActor {} 2 false).1) := by
  decide

/-- C4 (amended): from a state with `0 <= currentHp <= maxHp` and
`0 <= currentSp <= maxSp` the same holds after `SetHp`, `SetSp`, `ChangeHp`,
`SetBaseMaxHp`, `SetBaseMaxSp`, after `UseItem` (given that the generic battler
path keeps it), after `SetClass` when the class-changed flag is unset, after
`ChangeLevel` to a level not above the current one, and, when the maximum-HP and
maximum-SP tables are non-decreasing in the level, after `SetLevel` to a level
not below the current one and after every `ChangeLevel` and `ChangeExp`. -/
theorem C4_hp_sp_stay_within_max (env : Env) (a : Game_Actor) (m : Game_Message)
    (hinv : HpSpWithinMax env a) :
    (∀ hp, HpSpWithinMax env (SetHp env a hp)) ∧
    (∀ sp, HpSpWithinMax env (SetSp env a sp)) ∧
    (∀ hp, HpSpWithinMax env (ChangeHp env a hp)) ∧
    (∀ v, HpSpWithinMax env (SetBaseMaxHp env a v)) ∧
    (∀ v, HpSpWithinMax env (SetBaseMaxSp env a v)) ∧
    (∀ (battlerUseItem : Game_Actor → Int → Bool × Game_Actor) (item_id : Int)
        (r : Bool × Game_Actor),
      (∀ x i, HpSpWithinMax env x → HpSpWithinMax env (battlerUseItem x i).2) →
      UseItem env battlerUseItem a item_id = some r → HpSpWithinMax env r.2) ∧
    (a.changed_class = false → ∀ c, HpSpWithinMax env (SetClass env a c)) ∧
    (∀ (n : Int) (announce : Bool), min (max n 1) (GetMaxLevel env) ≤ a.level →
      HpSpWithinMax env (ChangeLevel env a m n announce).1) ∧
    (StatTablesNonDecreasing env a → LevelInRange env a →
      (∀ n, a.level ≤ n → HpSpWithinMax env (SetLevel env a n)) ∧
      (∀ (n : Int) (announce : Bool), HpSpWithinMax env (ChangeLevel env a m n announce).1) ∧
      (∀ (v : Int) (announce : Bool), HpSpWithinMax env (ChangeExp env a m v announce).1)) :=
  ⟨fun hp => SetHp_keeps env a hp hinv,
   fun sp => SetSp_keeps env a sp hinv,
   fun hp => ChangeHp_keeps env a hp hinv,
   fun v => SetBaseMaxHp_keeps env a v hinv,
   fun v => SetBaseMaxSp_keeps env a v hinv,
   fun battler id r hb hr => UseItem_keeps env battler a id r hb hr hinv,
   fun hc c => SetClass_keeps env a c hc hinv,
   fun n b hle => ChangeLevel_keeps_of_not_raised env a m n b hle hinv,
   fun hst hrange =>
     ⟨fun n hn => SetLevel_keeps env a n hst hrange hn hinv,
      fun n b => ChangeLevel_keeps env a m n b hst hrange hinv,
      fun v b => ChangeExp_keeps env a m v b hst hrange hinv⟩⟩

/-- C4 (amended), applied to a full-HP level-2 actor: damage, a level decrease
through `ChangeLevel` and an experience loss keep HP and SP within the maxima. -/
theorem C4_hp_sp_stay_within_max_witness :
    HpSpWithinMax statEnv fullActor ∧
    HpSpWithinMax statEnv (ChangeHp statEnv fullActor (-5)) ∧
    HpSpWithinMax statEnv (ChangeLevel statEnv fullActor {} 1 false).1 ∧
    HpSpWithinMax statEnv (ChangeExp statEnv fullActor {} 3 false).1 :=
  have h := C4_hp_sp_stay_within_max statEnv fullActor {} (by decide)
  ⟨by decide, h.2.2.1 (-5), h.2.2.2.2.2.2.2.1 1 false (by decide),
    (h.2.2.2.2.2.2.2.2 (by decide) (by decide)).2.2 3 false⟩

/-- C5, as stated, fails: a skill entry with id 40000 at learn-level 2 is stored
through `(int16_t)` as -25536, so after `ChangeLevel(2, false)` from level 1 the
skill 40000 is not learned and the id -25536, which no entry names, was added;
and an experience value stored above the ceiling is lowered to the ceiling. -/
theorem C5_counterexample :
    (LevelInRange wideSkillEnv noviceActor ∧
      (ChangeLevel wideSkillEnv noviceActor {} 2 false).1.level = 2 ∧
      IsSkillLearned (ChangeLevel wideSkillEnv noviceActor {} 2 false).1 40000 = false ∧
      IsSkillLearned (ChangeLevel wideSkillEnv noviceActor {} 2 false).1 (-25536) = true) ∧
    (LevelInRange wideSkillEnv overflowingActor ∧
      (ChangeLevel wideSkillEnv overflowingActor {} 2 false).1.exp ≠
        max overflowingActor.exp (minExpForLevel overflowingActor 2)) := by
  decide

/-- C5 (amended): for an actor with `1 ≤ level ≤ maxLevel`, `ChangeLevel(n,
announce)` sets the level to `n` clamped into `[1, maxLevel]`; when that is
greater than the old level and every skill entry with learn-level in
`(oldLevel, newLevel]` has an id that fits the 16-bit storage (at most 32767),
afterwards every such entry with positive id is learned, every skill learned
before is still learned, every learned skill was learned before or is the id of
such an entry, and, the experience being within `[0, maxExperience]` and the
table as `MakeExpList` builds it, experience equals
`max(old experience, minExpForLevel(newLevel))`. -/
theorem C5_ChangeLevel_increase (env : Env) (a : Game_Actor) (m : Game_Message) (n : Int)
    (announce : Bool) (hrange : LevelInRange env a) :
    (ChangeLevel env a m n announce).1.level = min (max n 1) (GetMaxLevel env) ∧
    (a.level < min (max n 1) (GetMaxLevel env) →
      (∀ it ∈ env.actor.skills, a.level < it.level →
        it.level ≤ min (max n 1) (GetMaxLevel env) → it.skill_id ≤ 32767) →
      (∀ it ∈ env.actor.skills, 0 < it.skill_id → a.level < it.level →
        it.level ≤ min (max n 1) (GetMaxLevel env) →
        IsSkillLearned (ChangeLevel env a m n announce).1 it.skill_id = true) ∧
      (∀ id, IsSkillLearned a id = true →
        IsSkillLearned (ChangeLevel env a m n announce).1 id = true) ∧
      (∀ id, IsSkillLearned (ChangeLevel env a m n announce).1 id = true →
        IsSkillLearned a id = true ∨
          ∃ it ∈ env.actor.skills, 0 < it.skill_id ∧ a.level < it.level ∧
            it.level ≤ min (max n 1) (GetMaxLevel env) ∧ it.skill_id = id) ∧
      (0 ≤ a.exp → a.exp ≤ max_exp_value env → ExpListWF env a →
        (ChangeLevel env a m n announce).1.exp =
          max a.exp (minExpForLevel a (min (max n 1) (GetMaxLevel env))))) := by
  refine ⟨ChangeLevel_level env a m n announce, ?_⟩
  intro hup hfit
  obtain ⟨r1, r2⟩ := hrange
  have hsk := ChangeLevel_skills_up env a m n announce hup
  simp only [IsSkillLearned, decide_eq_true_eq]
  rw [hsk]
  refine ⟨?_, ?_, ?_, ?_⟩
  · intro it hit hpos h1 h2
    exact levelUpLoop_learns env _ m _ _ announce it hit h1 h2 hpos (hfit it hit h1 h2)
  · intro id hid
    exact levelUpLoop_keeps env _ m _ _ announce id hid
  · intro id hid
    rcases levelUpLoop_only env _ m _ _ announce id hid with h | ⟨it, hit, h1, h2, h3, h4⟩
    · exact Or.inl h
    · refine Or.inr ⟨it, hit, h3, h1, h2, ?_⟩
      rw [h4, toInt16_of_fits _ (by omega) (hfit it hit h1 h2)]
  · intro e0 e1 hwf
    rw [ChangeLevel_exp_up env a m n announce hup,
      GetNextExp_eq env a _ (by omega) (by omega)]
    simp only [sub_add_cancel]
    have := minExpForLevel_le_max env a hwf (min (max n 1) (GetMaxLevel env))
      (by omega) (by omega)
    omega

/-- C5 (amended), applied to a level-1 actor raised to level 2: skill 7 is
learned and the experience is raised to the level-2 threshold 10. -/
theorem C5_ChangeLevel_increase_witness :
    LevelInRange teachingEnv noviceActor ∧
    (ChangeLevel teachingEnv noviceActor {} 2 true).1.level = 2 ∧
    IsSkillLearned (ChangeLevel teachingEnv noviceActor {} 2 true).1 7 = true ∧
    (ChangeLevel teachingEnv noviceActor {} 2 true).1.exp = 10 :=
  have h := C5_ChangeLevel_increase teachingEnv noviceActor {} 2 true (by decide)
  have h2 := h.2 (by decide) (by decide)
  ⟨by decide, h.1, h2.1 { level := 2, skill_id := 7 } (by decide) (by decide) (by decide)
    (by decide), h2.2.2.2 (by decide) (by decide) (by decide)⟩

/-- C6, as stated, fails: with a level-2 skill entry of id 40000, a skill of the
40000-entry catalog, the two-level gain `ChangeExp(25, true)` from level 1 ends
at level 3, but the id is stored through `(int16_t)` as -25536 and 40000 does
not occur in the registry. -/
theorem C6_counterexample :
    wideSchoolEnv.skills.length = 40000 ∧
    LevelInRange wideSchoolEnv heroActor ∧ LevelExpConsistent wideSchoolEnv heroActor ∧
    ExpListNonDecreasing heroActor ∧
    minExpForLevel heroActor (heroActor.level + 2) ≤ 25 ∧
    heroActor.level + 2 = GetMaxLevel wideSchoolEnv ∧
    (ChangeExp wideSchoolEnv heroActor {} 25 true).1.level = heroActor.level + 2 ∧
    (ChangeExp wideSchoolEnv heroActor {} 25 true).1.skills = [-25536] ∧
    (ChangeExp wideSchoolEnv heroActor {} 25 true).1.skills.count 40000 = 0 :=
  ⟨List.length_replicate _ _, by decide, by decide, by decide, by decide, by decide,
    by decide, by decide, by decide⟩

/-- C6 (amended): for an actor in a consistent state at level `L ≤ maxLevel - 2`
whose registry is duplicate-free, over a table as `MakeExpList` builds it and
non-decreasing, when every skill entry with learn-level in `(L, L+2]` has an id
that fits the 16-bit storage, and for a target `v` with
`minExpForLevel(L+2) ≤ v < minExpForLevel(L+3)` (or `L+2 == maxLevel`):
`ChangeExp(v, true)` ends at level `L+2`; every such entry with positive id
occurs in the registry exactly once; the queue grows by the level-up line
followed by one line per skill added to the registry, the last of these lines
carrying the only appended page break, and the message-pending flag is set;
`ChangeExp(v, false)` ends at level `L+2` as well and leaves queue and flag
unchanged. -/
theorem C6_level_up_notification (env : Env) (a : Game_Actor) (m : Game_Message) (v : Int)
    (hwf : ExpListWF env a) (hmono : ExpListNonDecreasing a)
    (hrange : LevelInRange env a) (hcons : LevelExpConsistent env a)
    (hL : a.level + 2 ≤ GetMaxLevel env)
    (hv1 : minExpForLevel a (a.level + 2) ≤ v)
    (hv2 : a.level + 2 = GetMaxLevel env ∨ v < minExpForLevel a (a.level + 3))
    (hnd : a.skills.Nodup)
    (hfit : ∀ it ∈ env.actor.skills, a.level < it.level → it.level ≤ a.level + 2 →
      it.skill_id ≤ 32767) :
    (ChangeExp env a m v true).1.level = a.level + 2 ∧
    (∀ it ∈ env.actor.skills, 0 < it.skill_id → a.level < it.level →
      it.level ≤ a.level + 2 →
      (ChangeExp env a m v true).1.skills.count it.skill_id = 1) ∧
    (∃ learned : List Int,
      learned.Nodup ∧
      (∀ id, id ∈ learned ↔ (id ∈ (ChangeExp env a m v true).1.skills ∧ id ∉ a.skills)) ∧
      (ChangeExp env a m v true).2.texts =
        m.texts ++
          (levelUpLine env a (a.level + 2) :: learned.map (skillLine env)).dropLast ++
          [(levelUpLine env a (a.level + 2) :: learned.map (skillLine env)).getLastD "" ++
            "\x0c"]) ∧
    (ChangeExp env a m v true).2.message_waiting = true ∧
    (ChangeExp env a m v false).1.level = a.level + 2 ∧
    (ChangeExp env a m v false).2 = m := by
  obtain ⟨r1, r2⟩ := hrange
  have hs : ∀ b, scannedLevel env a (min (max v 0) (max_exp_value env)) = a.level + 2 :=
    fun b => ChangeExp_two_levels env a m v b hwf hmono ⟨r1, r2⟩ hcons hL hv1 hv2
  have hclamp : min (max (a.level + 2) 1) (GetMaxLevel env) = a.level + 2 := by omega
  have hun : ∀ b, ChangeExp env a m v b =
      ChangeLevel env (SetExp env a (min (max v 0) (max_exp_value env))) m (a.level + 2) b := by
    intro b
    rw [ChangeExp_unfold, hs b, if_pos (by omega)]
  have hup : (SetExp env a (min (max v 0) (max_exp_value env))).level <
      min (max (a.level + 2) 1) (GetMaxLevel env) := by
    rw [hclamp]; show a.level < a.level + 2; omega
  have hlvl : ∀ b, (ChangeExp env a m v b).1.level = a.level + 2 := by
    intro b; rw [hun, ChangeLevel_level, hclamp]
  have hsk := ChangeLevel_skills_up env (SetExp env a (min (max v 0) (max_exp_value env))) m
    (a.level + 2) true hup
  have hmsg := ChangeLevel_msg_up env (SetExp env a (min (max v 0) (max_exp_value env))) m
    (a.level + 2) true hup
  have hmsg' := ChangeLevel_msg_up env (SetExp env a (min (max v 0) (max_exp_value env))) m
    (a.level + 2) false hup
  rw [hclamp] at hsk hmsg hmsg'
  obtain ⟨learned, q1, q2, q3, q4⟩ := levelUpLoop_announce env
    (SetLevel env (SetExp env a (min (max v 0) (max_exp_value env))) (a.level + 2)) m
    a.level (a.level + 2) hfit hnd
  refine ⟨hlvl true, ?_, ⟨learned, q3, ?_, ?_⟩, ?_, hlvl false, ?_⟩
  · intro it hit hpos h1 h2
    rw [hun, hsk]
    apply List.count_eq_one_of_mem q2
    exact levelUpLoop_learns env _ m _ _ true it hit h1 h2 hpos (hfit it hit h1 h2)
  · intro id
    rw [hun, hsk]
    exact q4 id
  · rw [hun, hmsg]
    exact congrArg Game_Message.texts q1
  · rw [hun, hmsg]
    exact congrArg Game_Message.message_waiting q1
  · rw [hun, hmsg']
    exact levelUpLoop_silent env _ m _ _

/-- C6 (amended), applied to `ChangeExp(25, true)` on a level-1 actor: the actor
ends at level 3 and the queue holds the level-up line and the lines of the two
learned skills, the last one terminated. -/
theorem C6_level_up_notification_witness :
    (ChangeExp schoolEnv heroActor {} 25 true).1.level = 3 ∧
    (ChangeExp schoolEnv heroActor {} 25 true).1.skills = [5, 7] ∧
    (ChangeExp schoolEnv heroActor {} 25 true).2.texts =
      ["Hero Lv 3 up!", "Heal learned", "Fire learned\x0c"] ∧
    (ChangeExp schoolEnv heroActor {} 25 true).2.message_waiting = true ∧
    (ChangeExp schoolEnv heroActor {} 25 false).2 = {} :=
  have h := C6_level_up_notification schoolEnv heroActor {} 25
    (by decide) (by decide) (by decide) (by decide) (by decide) (by decide) (by decide)
    (by decide) (by decide)
  ⟨h.1, by decide, by decide, h.2.2.2.1, h.2.2.2.2.2⟩

/-- C7: for an actor with five equipment slots whose effective archetype (the
class it changed to, else its actor entry) has the tables `p`, and for every
choice of the `mod` and `equip` flags: whenever the attack, defense, spirit or
agility table of `p` holds the value `t` for the level, the getter returns
`clamp(t + (modifier if mod) + (sum over the five slots of the bonus of every
id i with 0 < i <= item catalog size, if equip), 1, 999)`; maximum SP is
`clamp(t + (sp modifier if mod), 0, 999)` and maximum HP is
`clamp(t + (hp modifier if mod), 1, 999)` under RPG2k, with 9999 under RPG2k3.
A slot id beyond the catalog size contributes zero. -/
theorem C7_getters_are_clamped_layered_sums (env : Env) (a : Game_Actor) (mod equip : Bool)
    (p : Parameters) (hslots : a.equipped.length = 5)
    (harch : effectiveArchetypeSpec env a = some p) :
    (∀ t, tableValueSpec p.attack a.level = some t →
      GetBaseAtk env a mod equip =
        layeredStatSpec env a t a.attack_mod (fun i => i.atk_points1) mod equip 1 999) ∧
    (∀ t, tableValueSpec p.defense a.level = some t →
      GetBaseDef env a mod equip =
        layeredStatSpec env a t a.defense_mod (fun i => i.def_points1) mod equip 1 999) ∧
    (∀ t, tableValueSpec p.spirit a.level = some t →
      GetBaseSpi env a mod equip =
        layeredStatSpec env a t a.spirit_mod (fun i => i.spi_points1) mod equip 1 999) ∧
    (∀ t, tableValueSpec p.agility a.level = some t →
      GetBaseAgi env a mod equip =
        layeredStatSpec env a t a.agility_mod (fun i => i.agi_points1) mod equip 1 999) ∧
    (∀ t, tableValueSpec p.maxsp a.level = some t →
      GetBaseMaxSp env a mod = clampSpec (t + (if mod then a.sp_mod else 0)) 0 999) ∧
    (∀ t, tableValueSpec p.maxhp a.level = some t →
      GetBaseMaxHp env a mod =
        clampSpec (t + (if mod then a.hp_mod else 0)) 1
          (if env.is_rpg2k then 999 else 9999)) ∧
    ∀ (f : Item → Int) (item_id : Int), (env.items.length : Int) < item_id →
      slotBonusSpec env f item_id = 0 ∧ ∀ n, addEquipped env f [item_id] n = n := by
  have hp := effectiveArchetypeSpec_eq env a p harch
  refine ⟨?_, ?_, ?_, ?_, ?_, ?_, ?_⟩
  · intro t ht
    have hv := tableValueSpec_eq _ _ _ ht
    have h := layered_eq env a t a.attack_mod (fun i => i.atk_points1) mod equip 1 999
      (by decide) hslots
    rw [← h]
    unfold GetBaseAtk max_other_stat_value
    rw [hp, hv]
  · intro t ht
    have hv := tableValueSpec_eq _ _ _ ht
    have h := layered_eq env a t a.defense_mod (fun i => i.def_points1) mod equip 1 999
      (by decide) hslots
    rw [← h]
    unfold GetBaseDef max_other_stat_value
    rw [hp, hv]
  · intro t ht
    have hv := tableValueSpec_eq _ _ _ ht
    have h := layered_eq env a t a.spirit_mod (fun i => i.spi_points1) mod equip 1 999
      (by decide) hslots
    rw [← h]
    unfold GetBaseSpi max_other_stat_value
    rw [hp, hv]
  · intro t ht
    have hv := tableValueSpec_eq _ _ _ ht
    have h := layered_eq env a t a.agility_mod (fun i => i.agi_points1) mod equip 1 999
      (by decide) hslots
    rw [← h]
    unfold GetBaseAgi max_other_stat_value
    rw [hp, hv]
  · intro t ht
    have hv := tableValueSpec_eq _ _ _ ht
    unfold GetBaseMaxSp max_other_stat_value
    simp only
    rw [hp, hv, clampSpec_eq _ _ _ (by decide)]
    cases mod <;> simp
  · intro t ht
    have hv := tableValueSpec_eq _ _ _ ht
    unfold GetBaseMaxHp max_hp_value
    simp only
    rw [hp, hv, clampSpec_eq _ _ _ (by split_ifs <;> decide)]
    cases mod <;> simp
  · intro f item_id h
    have hz : slotBonusSpec env f item_id = 0 := by
      unfold slotBonusSpec
      rw [if_neg (by omega)]
    exact ⟨hz, fun n => by rw [addEquipped_eq_sum]; simp [hz]⟩

/-- C7, applied to an actor that has changed to class 1 and holds a sword
(attack +10), an id beyond the catalog and a charm (spirit +4): the values come
from the class tables, attack is `60 + 1 + 10 = 71`, spirit `12 + 4 = 16`,
maximum HP `200 + 5 = 205`; and applied to the unchanged actor of `gearEnv`,
whose attack `6 + 1 + 10 = 17` comes from the actor entry. -/
theorem C7_getters_are_clamped_layered_sums_witness :
    knightActor.equipped.length = 5 ∧
    effectiveArchetypeSpec guildEnv knightActor =
      some (vecGet guildEnv.classes 0).parameters ∧
    GetBaseAtk guildEnv knightActor true true = 71 ∧
    GetBaseAtk guildEnv knightActor false false = 60 ∧
    GetBaseSpi guildEnv knightActor true true = 16 ∧
    GetBaseMaxSp guildEnv knightActor true = 80 ∧
    GetBaseMaxHp guildEnv knightActor true = 205 ∧
    GetBaseAtk gearEnv gearedActor true true = 17 :=
  have h := C7_getters_are_clamped_layered_sums guildEnv knightActor true true
    (vecGet guildEnv.classes 0).parameters (by decide) (by decide)
  have h0 := C7_getters_are_clamped_layered_sums guildEnv knightActor false false
    (vecGet guildEnv.classes 0).parameters (by decide) (by decide)
  have g := C7_getters_are_clamped_layered_sums gearEnv gearedActor true true
    gearEnv.actor.parameters (by decide) (by decide)
  ⟨by decide, by decide, (h.1 60 (by decide)).trans (by decide),
    (h0.1 60 (by decide)).trans (by decide),
    (h.2.2.1 12 (by decide)).trans (by decide),
    (h.2.2.2.2.1 80 (by decide)).trans (by decide),
    (h.2.2.2.2.2.1 200 (by decide)).trans (by decide),
    (g.1 6 (by decide)).trans (by decide)⟩

/-- C8, as stated, fails: the actor holds the sword (attack +10) in slot 0;
equipping the charm there and emptying the slot leaves attack at 7, not at the
17 it had before. -/
theorem C8_counterexample :
    GetBaseAtk gearEnv gearedActor true true = 17 ∧
    GetBaseAtk gearEnv
      (SetEquipment gearEnv (SetEquipment gearEnv gearedActor 0 2).2 0 0).2 true true = 7 := by
  decide

/-- C8 (amended): for an actor with five slots, an in-range slot index `i`
whose slot holds no valid item before (its id is not in
`1 .. item catalog size`) and any item id `x`, `SetEquipment(i, x)` followed by
`SetEquipment(i, 0)` leaves `GetBaseAtk`, `GetBaseDef`, `GetBaseSpi` and
`GetBaseAgi` (modifier and equipment included) at their previous values. -/
theorem C8_equip_then_unequip (env : Env) (a : Game_Actor) (i x : Int)
    (hslots : a.equipped.length = 5) (h0 : 0 ≤ i) (h1 : i < 5)
    (hempty : ¬ (0 < vecGet a.equipped i ∧ vecGet a.equipped i ≤ (env.items.length : Int))) :
    GetBaseAtk env (SetEquipment env (SetEquipment env a i x).2 i 0).2 true true =
      GetBaseAtk env a true true ∧
    GetBaseDef env (SetEquipment env (SetEquipment env a i x).2 i 0).2 true true =
      GetBaseDef env a true true ∧
    GetBaseSpi env (SetEquipment env (SetEquipment env a i x).2 i 0).2 true true =
      GetBaseSpi env a true true ∧
    GetBaseAgi env (SetEquipment env (SetEquipment env a i x).2 i 0).2 true true =
      GetBaseAgi env a true true := by
  have hlen : i < (a.equipped.length : Int) := by omega
  rw [SetEquipment_twice env a i x h0 hlen]
  have key : ∀ f n, addEquipped env f (a.equipped.set i.toNat 0) n =
      addEquipped env f a.equipped n :=
    fun f n => addEquipped_set_empty env f a.equipped i n h0 hlen hempty
  have hp : effectiveParameters env { a with equipped := a.equipped.set i.toNat 0 } =
      effectiveParameters env a := rfl
  refine ⟨?_, ?_, ?_, ?_⟩
  · simp only [GetBaseAtk, hp, key, if_true]
  · simp only [GetBaseDef, hp, key, if_true]
  · simp only [GetBaseSpi, hp, key, if_true]
  · simp only [GetBaseAgi, hp, key, if_true]

/-- C8 (amended), applied to the empty armor slot of the geared actor. -/
theorem C8_equip_then_unequip_witness :
    gearedActor.equipped.length = 5 ∧
    GetBaseAtk gearEnv
      (SetEquipment gearEnv (SetEquipment gearEnv gearedActor 2 1).2 2 0).2 true true =
      GetBaseAtk gearEnv gearedActor true true :=
  ⟨by decide,
    (C8_equip_then_unequip gearEnv gearedActor 2 1 (by decide) (by decide) (by decide)
      (by decide)).1⟩

/-- C9, as stated, fails in its last part: with a catalog of 40000 items the id
40000 lies in `0 .. catalog size`, but `SetEquipment(0, 40000)` stores it through
`(short)` as -25536, which is what the following `GetEquipment(0)` returns. -/
theorem C9_counterexample :
    (0 : Int) ≤ 40000 ∧ (40000 : Int) ≤ (hugeCatalogEnv.items.length : Int) ∧
    GetEquipment hugeCatalogEnv (SetEquipment hugeCatalogEnv bareActor 0 40000).2 0 = -25536 := by
  have hl : hugeCatalogEnv.items.length = 40000 := List.length_replicate _ _
  refine ⟨by decide, by rw [hl]; decide, ?_⟩
  have h : (SetEquipment hugeCatalogEnv bareActor 0 40000).2 =
      { bareActor with equipped := [-25536, 0, 0, 0, 0] } := by decide
  rw [h]
  unfold GetEquipment
  rw [hl]
  decide

/-- C9 (amended): for an actor with five slots, an index `i < 0` or `i >= 5`
makes `GetEquipment(i)` and `SetEquipment(i, x)` return -1 and leaves the actor
unchanged; for `0 <= i < 5`, `SetEquipment(i, x)` returns what `GetEquipment(i)`
returned before (the stored id, or 0 when it exceeds the catalog size), leaves
the other four slots unchanged, and for every `x` with
`0 <= x <= catalog size` that fits the 16-bit slot (`x <= 32767`) a following
`GetEquipment(i)` returns `x`. -/
theorem C9_slot_access (env : Env) (a : Game_Actor) (i x : Int)
    (hslots : a.equipped.length = 5) :
    ((i < 0 ∨ i ≥ 5) →
      GetEquipment env a i = -1 ∧ SetEquipment env a i x = (-1, a)) ∧
    ((0 ≤ i ∧ i < 5) →
      (SetEquipment env a i x).1 = GetEquipment env a i ∧
      GetEquipment env a i =
        (if vecGet a.equipped i ≤ (env.items.length : Int) then vecGet a.equipped i else 0) ∧
      (∀ j, 0 ≤ j → j < 5 → j ≠ i →
        vecGet (SetEquipment env a i x).2.equipped j = vecGet a.equipped j) ∧
      (SetEquipment env a i x).2.equipped.length = 5 ∧
      (0 ≤ x → x ≤ (env.items.length : Int) → x ≤ 32767 →
        GetEquipment env (SetEquipment env a i x).2 i = x)) := by
  constructor
  · intro h
    have h' : i < 0 ∨ i ≥ (a.equipped.length : Int) := by omega
    exact ⟨by unfold GetEquipment; rw [if_pos h'], SetEquipment_out_of_range env a i x h'⟩
  · rintro ⟨h0, h1⟩
    have hlen : i < (a.equipped.length : Int) := by omega
    have hget : GetEquipment env a i =
        (if vecGet a.equipped i ≤ (env.items.length : Int) then vecGet a.equipped i else 0) := by
      unfold GetEquipment
      rw [if_neg (by omega)]
    rw [SetEquipment_in_range env a i x h0 hlen]
    refine ⟨?_, hget, ?_, by simp [hslots], ?_⟩
    · rw [hget]
      show (if vecGet a.equipped i > (env.items.length : Int) then 0 else vecGet a.equipped i) = _
      split_ifs <;> omega
    · intro j hj0 _ hne
      exact vecGet_set_other _ i j _ h0 hj0 hne
    · intro hx0 hx1 hx2
      unfold GetEquipment
      simp only [List.length_set]
      rw [if_neg (by omega)]
      simp only [vecGet_set_self _ i _ h0 hlen, toInt16_of_fits x (by omega) hx2]
      rw [if_pos hx1]

/-- C9 (amended), applied to the geared actor: slot 7 is refused, and putting the
charm into slot 0 returns the sword and is read back. -/
theorem C9_slot_access_witness :
    gearedActor.equipped.length = 5 ∧
    SetEquipment gearEnv gearedActor 7 2 = (-1, gearedActor) ∧
    (SetEquipment gearEnv gearedActor 0 2).1 = GetEquipment gearEnv gearedActor 0 ∧
    GetEquipment gearEnv (SetEquipment gearEnv gearedActor 0 2).2 0 = 2 :=
  ⟨by decide,
    ((C9_slot_access gearEnv gearedActor 7 2 (by decide)).1 (by decide)).2,
    ((C9_slot_access gearEnv gearedActor 0 2 (by decide)).2 (by decide)).1,
    ((C9_slot_access gearEnv gearedActor 0 2 (by decide)).2 (by decide)).2.2.2.2
      (by decide) (by decide) (by decide)⟩

/-- C10: for every registry and every id that fits the 16-bit storage
(`1 <= id <= 32767`), after one `LearnSkill(id)` a second `LearnSkill(id)`
returns false and leaves the registry unchanged; and for every id,
`LearnSkill(id)` returns true exactly when `id > 0` and the id was not learned
before, and returns false with the actor unchanged otherwise. -/
theorem C10_LearnSkill_twice (a : Game_Actor) (id : Int) :
    (1 ≤ id → id ≤ 32767 →
      LearnSkill (LearnSkill a id).2 id = (false, (LearnSkill a id).2)) ∧
    ((LearnSkill a id).1 = true ↔ (id > 0 ∧ IsSkillLearned a id = false)) ∧
    ((LearnSkill a id).1 = false → (LearnSkill a id).2 = a) := by
  refine ⟨?_, ?_, ?_⟩
  · intro h1 h2
    have hmem : id ∈ (LearnSkill a id).2.skills := by
      rw [LearnSkill_mem]
      by_cases h : id ∈ a.skills
      · exact Or.inl h
      · exact Or.inr ⟨by omega, h, (toInt16_of_fits id (by omega) h2).symm⟩
    exact LearnSkill_of_learned _ id hmem
  · unfold LearnSkill
    split_ifs with h
    · simp [h]
    · simp only [Bool.false_eq_true, false_iff]; exact h
  · unfold LearnSkill
    split_ifs with h
    · intro hc; simp at hc
    · intro _; rfl

/-- C10, applied to learning skill 5 on a registry holding 3 and 9. -/
theorem C10_LearnSkill_twice_witness :
    (LearnSkill skilledActor 5).2.skills = [3, 5, 9] ∧
    LearnSkill (LearnSkill skilledActor 5).2 5 = (false, (LearnSkill skilledActor 5).2) :=
  ⟨by decide, (C10_LearnSkill_twice skilledActor 5).1 (by decide) (by decide)⟩

/-- C11, as stated, fails for `LearnSkill`: on the strictly ascending registry
`[5]`, `LearnSkill(65541)` stores the id through `(int16_t)` as 5 and leaves
`[5, 5]`, which is not strictly ascending. -/
theorem C11_counterexample :
    StrictlyAscending oneSkillActor ∧
    (LearnSkill oneSkillActor 65541).2.skills = [5, 5] ∧
    ¬ StrictlyAscending (LearnSkill oneSkillActor 65541).2 := by
  decide

/-- C11 (amended): for every strictly ascending registry, the registry after
`LearnSkill(id)` is strictly ascending for every id that fits the 16-bit
storage (`id <= 32767`), and for every integer id the registry after
`UnlearnSkill(id)` is strictly ascending, the id is no longer learned, the
return value tells whether it was learned before, and the membership of every
other id is unchanged. -/
theorem C11_registry_strictly_ascending (a : Game_Actor) (id : Int)
    (h : StrictlyAscending a) :
    (id ≤ 32767 → StrictlyAscending (LearnSkill a id).2) ∧
    StrictlyAscending (UnlearnSkill a id).2 ∧
    IsSkillLearned (UnlearnSkill a id).2 id = false ∧
    (UnlearnSkill a id).1 = IsSkillLearned a id ∧
    ∀ other, other ≠ id →
      IsSkillLearned (UnlearnSkill a id).2 other = IsSkillLearned a other :=
  ⟨fun hfit => LearnSkill_ascending a id h hfit, UnlearnSkill_spec a id h⟩

/-- C11 (amended), applied to the registry `[3, 9]`: learning 5 gives
`[3, 5, 9]`, unlearning 3 gives `[9]`. -/
theorem C11_registry_strictly_ascending_witness :
    StrictlyAscending skilledActor ∧
    StrictlyAscending (LearnSkill skilledActor 5).2 ∧
    (LearnSkill skilledActor 5).2.skills = [3, 5, 9] ∧
    StrictlyAscending (UnlearnSkill skilledActor 3).2 ∧
    (UnlearnSkill skilledActor 3).2.skills = [9] ∧
    (UnlearnSkill skilledActor 3).1 = IsSkillLearned skilledActor 3 :=
  have h5 := C11_registry_strictly_ascending skilledActor 5 (by decide)
  have h3 := C11_registry_strictly_ascending skilledActor 3 (by decide)
  ⟨by decide, h5.1 (by decide), by decide, h3.2.1, by decide, h3.2.2.2.1⟩

/-- C12: under Variant B (RPG2k3), for every base, inflation, correction and
level `n >= 0` for which no 32-bit overflow occurs in the loop,
`CalculateExp(n) = min(n*(base + correction) + inflation*n*(n+1)/2, 9999999)`;
and the table `MakeExpList` builds (on a new actor, or over a table it built
before) has `exp_list[0] = 0` and `exp_list[i] = CalculateExp(i)` for
`1 <= i < maxLevel`. -/
theorem C12_variant_B_closed_form (env : Env) (a : Game_Actor)
    (hv : env.is_rpg2k = false) :
    (∀ n : Int, 0 ≤ n → CalculateExpInRange env a n →
      CalculateExp env a n =
        min (n * (expBase env a + expCorrection env a) +
          expInflation env a * n * (n + 1) / 2) 9999999) ∧
    (1 ≤ GetMaxLevel env → (a.exp_list = [] ∨ a.exp_list.head? = some 0) →
      vecGet (MakeExpList env a).exp_list 0 = 0 ∧
      ∀ i : Int, 1 ≤ i → i < GetMaxLevel env →
        vecGet (MakeExpList env a).exp_list i = CalculateExp env a i) := by
  refine ⟨?_, fun hfinal hold => MakeExpList_entries env a hfinal hold⟩
  intro n hn hno
  rw [CalculateExp_eq_min, expCurve_rpg2k3 env a n hv hn hno]
  simp [max_exp_value, hv]

/-- C12, applied to base 10, inflation 3, correction 1: level 3 needs
`3*11 + 3*3*4/2 = 51` and the five-level table is `[0, 14, 31, 51, 74]`. -/
theorem C12_variant_B_closed_form_witness :
    curveEnv.is_rpg2k = false ∧
    CalculateExpInRange curveEnv newActor 3 ∧
    CalculateExp curveEnv newActor 3 = 51 ∧
    (MakeExpList curveEnv newActor).exp_list = [0, 14, 31, 51, 74] ∧
    vecGet (MakeExpList curveEnv newActor).exp_list 3 = CalculateExp curveEnv newActor 3 :=
  have h := C12_variant_B_closed_form curveEnv newActor (by decide)
  ⟨by decide, by decide, (h.1 3 (by decide) (by decide)).trans (by decide), by decide,
    (h.2 (by decide) (by decide)).2 3 (by decide) (by decide)⟩

/-- C13, as stated, fails: for the RPG2k3 archetype with base 2000000000,
inflation 0, correction 0 and four levels the second accumulation overflows
the 32-bit `result`, the table is `[0, 9999999, -294967296, 9999999]`, so the
threshold of level 3 is below the threshold of level 2 and negative. -/
theorem C13_counterexample :
    steepEnv.is_rpg2k = false ∧ 1 ≤ GetMaxLevel steepEnv ∧
    0 ≤ expBase steepEnv newActor ∧ 0 ≤ expInflation steepEnv newActor ∧
    0 ≤ expCorrection steepEnv newActor ∧
    (MakeExpList steepEnv newActor).exp_list = [0, 9999999, -294967296, 9999999] ∧
    ¬ (minExpForLevel (MakeExpList steepEnv newActor) 2 ≤
      minExpForLevel (MakeExpList steepEnv newActor) 3) ∧
    minExpForLevel (MakeExpList steepEnv newActor) 3 < 0 := by
  decide

/-- C13 (amended): for every archetype with non-negative base, inflation and
correction and `maxLevel >= 1`, when no 32-bit overflow occurs in
`CalculateExp(L)` for the levels `1 <= L < maxLevel` the table stores, the
table `MakeExpList` builds (on a new actor, or over a table it built before)
satisfies `minExpForLevel(L) <= minExpForLevel(L+1)` for all `L` in
`[1, maxLevel - 1]`, `minExpForLevel(1) = 0`, and every entry lies in
`[0, maxExperience]`: under Variant B (RPG2k3) in integer arithmetic and under
Variant A (RPG2k) over the `double` recurrence. -/
theorem C13_table_non_decreasing (env : Env) (a : Game_Actor)
    (hfinal : 1 ≤ GetMaxLevel env)
    (hold : a.exp_list = [] ∨ a.exp_list.head? = some 0)
    (hb : 0 ≤ expBase env a) (hf : 0 ≤ expInflation env a) (hc : 0 ≤ expCorrection env a)
    (hno : ∀ L : Int, 1 ≤ L → L < GetMaxLevel env → CalculateExpInRange env a L) :
    (∀ L : Int, 1 ≤ L → L ≤ GetMaxLevel env - 1 →
      minExpForLevel (MakeExpList env a) L ≤ minExpForLevel (MakeExpList env a) (L + 1)) ∧
    minExpForLevel (MakeExpList env a) 1 = 0 ∧
    ∀ L : Int, 1 ≤ L → L ≤ GetMaxLevel env →
      0 ≤ minExpForLevel (MakeExpList env a) L ∧
      minExpForLevel (MakeExpList env a) L ≤ max_exp_value env :=
  MakeExpList_nonDecreasing env a hfinal hold
    (CurveNonDecreasing_of_inRange env a hb hf hc hno)

/-- C13 (amended), applied to the RPG2k3 archetype with base 10, inflation 3,
correction 1 and five levels, whose table is `[0, 14, 31, 51, 74]`, and to the
RPG2k archetype with base 40, inflation 30, correction 0 and five levels,
whose table is `[0, 40, 112, 230, 410]`. -/
theorem C13_table_non_decreasing_witness :
    (1 ≤ GetMaxLevel curveEnv ∧ 0 ≤ expBase curveEnv newActor ∧
      0 ≤ expInflation curveEnv newActor ∧ 0 ≤ expCorrection curveEnv newActor ∧
      (∀ L : Int, 1 ≤ L → L < GetMaxLevel curveEnv → CalculateExpInRange curveEnv newActor L) ∧
      (MakeExpList curveEnv newActor).exp_list = [0, 14, 31, 51, 74] ∧
      (∀ L : Int, 1 ≤ L → L ≤ GetMaxLevel curveEnv - 1 →
        minExpForLevel (MakeExpList curveEnv newActor) L ≤
          minExpForLevel (MakeExpList curveEnv newActor) (L + 1)) ∧
      minExpForLevel (MakeExpList curveEnv newActor) 1 = 0) ∧
    (goldenEnv.is_rpg2k = true ∧ 1 ≤ GetMaxLevel goldenEnv ∧
      0 ≤ expBase goldenEnv newActor ∧ 0 ≤ expInflation goldenEnv newActor ∧
      0 ≤ expCorrection goldenEnv newActor ∧
      (∀ L : Int, 1 ≤ L → L < GetMaxLevel goldenEnv →
        CalculateExpInRange goldenEnv newActor L) ∧
      (MakeExpList goldenEnv newActor).exp_list = [0, 40, 112, 230, 410] ∧
      (∀ L : Int, 1 ≤ L → L ≤ GetMaxLevel goldenEnv - 1 →
        minExpForLevel (MakeExpList goldenEnv newActor) L ≤
          minExpForLevel (MakeExpList goldenEnv newActor) (L + 1))) :=
  have hB : ∀ L : Int, 1 ≤ L → L < GetMaxLevel curveEnv →
      CalculateExpInRange curveEnv newActor L := by
    intro L h1 h2
    have h5 : GetMaxLevel curveEnv = 5 := rfl
    rw [h5] at h2
    have hL : L = 1 ∨ L = 2 ∨ L = 3 ∨ L = 4 := by omega
    rcases hL with rfl | rfl | rfl | rfl <;> decide
  have h := C13_table_non_decreasing curveEnv newActor (by decide) (by decide) (by decide)
    (by decide) (by decide) hB
  have g := C13_table_non_decreasing goldenEnv newActor (by decide) (by decide) (by decide)
    (by decide) (by decide) golden_inRange
  ⟨⟨by decide, by decide, by decide, by decide, hB, by decide, h.1, h.2.1⟩,
    ⟨by decide, by decide, by decide, by decide, by decide, golden_inRange, golden_table, g.1⟩⟩

/-- C14: for the RPG2k archetype with base 40, inflation 30 and correction 0,
the table has threshold 0 for level 1, and its level-5 threshold
`exp_list[4] = CalculateExp(4)` is 410: the loop run with target 4 starts from
`inflation = 1.5 + 30 * 0.01` and accumulates the truncated `correction + base`
four times, `result` being 40, 112, 230 and 410 after the first, second, third
and fourth iteration, that is the terms 40, 72, 118 and 180; `base` is
multiplied by `inflation` and `inflation` becomes
`((4+1) * 0.002 + 0.8) * (inflation - 1) + 1` between them, in binary64
arithmetic. -/
theorem C14_variant_A_golden_vector :
    goldenEnv.is_rpg2k = true ∧ expBase goldenEnv newActor = 40 ∧
    expInflation goldenEnv newActor = 30 ∧ expCorrection goldenEnv newActor = 0 ∧
    minExpForLevel (MakeExpList goldenEnv newActor) 1 = 0 ∧
    vecGet (MakeExpList goldenEnv newActor).exp_list 0 = 0 ∧
    vecGet (MakeExpList goldenEnv newActor).exp_list 4 = CalculateExp goldenEnv newActor 4 ∧
    CalculateExp goldenEnv newActor 4 = 410 ∧
    expLoopRpg2k 4 (intToDouble 0) 1 0 (intToDouble 40)
      (dadd (toDouble (15 / 10)) (dmul (intToDouble 30) (toDouble (1 / 100)))) = 40 ∧
    expLoopRpg2k 4 (intToDouble 0) 2 0 (intToDouble 40)
      (dadd (toDouble (15 / 10)) (dmul (intToDouble 30) (toDouble (1 / 100)))) = 40 + 72 ∧
    expLoopRpg2k 4 (intToDouble 0) 3 0 (intToDouble 40)
      (dadd (toDouble (15 / 10)) (dmul (intToDouble 30) (toDouble (1 / 100)))) =
        40 + 72 + 118 ∧
    expLoopRpg2k 4 (intToDouble 0) 4 0 (intToDouble 40)
      (dadd (toDouble (15 / 10)) (dmul (intToDouble 30) (toDouble (1 / 100)))) =
        40 + 72 + 118 + 180 := by
  have hent := MakeExpList_entries goldenEnv newActor (by decide) (by decide)
  have h4 := CalculateExp_goldenEnv 4 410 golden_trace_4.1
  refine ⟨by decide, by decide, by decide, by decide, ?_, hent.1, hent.2 4 (by decide) (by decide),
    h4.trans (by decide), golden_partial_4_1.1, golden_partial_4_2.1, golden_partial_4_3.1,
    golden_trace_4.1⟩
  unfold minExpForLevel
  exact hent.1

/-- C15: for an item id within the catalog, `UseItem` returns false and changes
nothing when the actor is dead and the item is not medicine; otherwise a book
returns exactly the result of `LearnSkill(item.skill_id)`; otherwise a material
returns true and raises the hp, sp, attack, defense, agility and spirit
modifiers by exactly the item's point values, leaving level, experience,
equipment and skills unchanged; any other item returns what the generic battler
path returns. -/
theorem C15_UseItem_dispatch (env : Env)
    (battlerUseItem : Game_Actor → Int → Bool × Game_Actor) (a : Game_Actor) (item_id : Int)
    (h1 : 1 ≤ item_id) (h2 : item_id ≤ (env.items.length : Int)) :
    ((IsDead a = true ∧ (vecGet env.items (item_id - 1)).type ≠ ItemType.Type_medicine) →
      UseItem env battlerUseItem a item_id = some (false, a)) ∧
    (¬ (IsDead a = true ∧ (vecGet env.items (item_id - 1)).type ≠ ItemType.Type_medicine) →
      ((vecGet env.items (item_id - 1)).type = ItemType.Type_book →
        UseItem env battlerUseItem a item_id =
          some (LearnSkill a (vecGet env.items (item_id - 1)).skill_id)) ∧
      ((vecGet env.items (item_id - 1)).type = ItemType.Type_material →
        ∃ b, UseItem env battlerUseItem a item_id = some (true, b) ∧
          ModsRaised a b (vecGet env.items (item_id - 1)).max_hp_points
            (vecGet env.items (item_id - 1)).max_sp_points
            (vecGet env.items (item_id - 1)).atk_points2
            (vecGet env.items (item_id - 1)).def_points2
            (vecGet env.items (item_id - 1)).agi_points2
            (vecGet env.items (item_id - 1)).spi_points2) ∧
      ((vecGet env.items (item_id - 1)).type ≠ ItemType.Type_book →
        (vecGet env.items (item_id - 1)).type ≠ ItemType.Type_material →
        UseItem env battlerUseItem a item_id = some (battlerUseItem a item_id))) := by
  have hguard : ¬ (item_id < 1 ∨ item_id > (env.items.length : Int)) := by omega
  refine ⟨?_, ?_⟩
  · intro hd
    unfold UseItem
    rw [if_neg hguard]
    simp only
    rw [if_pos hd]
  · intro hd
    refine ⟨?_, ?_, ?_⟩
    · intro hb
      unfold UseItem
      rw [if_neg hguard]
      simp only
      rw [if_neg hd, if_pos hb]
    · intro hm
      have hnb : (vecGet env.items (item_id - 1)).type ≠ ItemType.Type_book := by
        rw [hm]; decide
      unfold UseItem
      rw [if_neg hguard]
      simp only
      rw [if_neg hd, if_neg hnb, if_pos hm]
      refine ⟨_, rfl, ?_⟩
      have h :=
        ModsRaised_spi env (vecGet env.items (item_id - 1)).spi_points2
          (ModsRaised_agi env (vecGet env.items (item_id - 1)).agi_points2
            (ModsRaised_defense env (vecGet env.items (item_id - 1)).def_points2
              (ModsRaised_atk env (vecGet env.items (item_id - 1)).atk_points2
                (ModsRaised_maxsp env (vecGet env.items (item_id - 1)).max_sp_points
                  (ModsRaised_maxhp env (vecGet env.items (item_id - 1)).max_hp_points
                    (ModsRaised_start a))))))
      simpa only [zero_add] using h
    · intro hnb hnm
      unfold UseItem
      rw [if_neg hguard]
      simp only
      rw [if_neg hd, if_neg hnb, if_neg hnm]

/-- C15, applied to the seed (item 3) used by a living actor: the call succeeds
and the six modifiers rise by 5, 1, 3, 2, 4 and 6. -/
theorem C15_UseItem_dispatch_witness :
    (1 : Int) ≤ 3 ∧ (3 : Int) ≤ (shopEnv.items.length : Int) ∧
    ∃ b, UseItem shopEnv idleBattler aliveActor 3 = some (true, b) ∧
      ModsRaised aliveActor b 5 1 3 2 4 6 :=
  ⟨by decide, by decide,
    ((C15_UseItem_dispatch shopEnv idleBattler aliveActor 3 (by decide) (by decide)).2
      (by decide)).2.1 (by decide)⟩

/-- C16: the code breaks the claimed bound. With one learned skill (`[5]`, a
valid id) and `rand()` returning 1, the index is `1 % (1 + 1) = 1`, equal to the
number of learned skills and so outside the registry; for every registry the
value `rand() = size` yields the index `size`. -/
theorem C16_random_skill_index_out_of_bounds :
    oneSkillActor.skills ≠ [] ∧
    (∀ id ∈ oneSkillActor.skills, 1 ≤ id ∧ id ≤ (schoolEnv.skills.length : Int)) ∧
    randomSkillIndex oneSkillActor 1 = oneSkillActor.skills.length ∧
    GetRandomSkill schoolEnv oneSkillActor 1 = none ∧
    ∀ a : Game_Actor, randomSkillIndex a a.skills.length = a.skills.length := by
  refine ⟨by decide, by decide, by decide, by decide, ?_⟩
  intro a
  unfold randomSkillIndex
  exact Nat.mod_eq_of_lt (Nat.lt_succ_self _)

/-- C17: for an item id within the catalog and an actor id in `1 .. INT_MAX`,
`IsEquippable` is false when the two-weapon flag is set and the item is
shield-type; otherwise it is true when the item's per-actor mask has no entry
for the actor (mask length `<= ID - 1`) and equals the mask entry `ID - 1`
otherwise. In particular a shield without mask entry is rejected with the style
enabled and accepted with it disabled. -/
theorem C17_equip_legality (env : Env) (a : Game_Actor) (item_id : Int)
    (h1 : 1 ≤ item_id) (h2 : item_id ≤ (env.items.length : Int))
    (hid1 : 1 ≤ a.ID) (hid2 : a.ID ≤ 2147483647) :
    ((a.two_weapon = true ∧ (vecGet env.items (item_id - 1)).type = ItemType.Type_shield) →
      IsEquippable env a item_id = some false) ∧
    (¬ (a.two_weapon = true ∧ (vecGet env.items (item_id - 1)).type = ItemType.Type_shield) →
      (((vecGet env.items (item_id - 1)).actor_set.length : Int) ≤ a.ID - 1 →
        IsEquippable env a item_id = some true) ∧
      (a.ID - 1 < ((vecGet env.items (item_id - 1)).actor_set.length : Int) →
        IsEquippable env a item_id =
          some (vecGet (vecGet env.items (item_id - 1)).actor_set (a.ID - 1)))) ∧
    ((vecGet env.items (item_id - 1)).type = ItemType.Type_shield →
      ((vecGet env.items (item_id - 1)).actor_set.length : Int) ≤ a.ID - 1 →
      IsEquippable env { a with two_weapon := true } item_id = some false ∧
      IsEquippable env { a with two_weapon := false } item_id = some true) := by
  have hguard : ¬ (item_id < 1 ∨ item_id > (env.items.length : Int)) := by omega
  have hcast : toUInt32 (a.ID - 1) = a.ID - 1 := by unfold toUInt32; omega
  have husable : ∀ b : Game_Actor, b.ID = a.ID →
      IsItemUsable env b item_id =
        if ((vecGet env.items (item_id - 1)).actor_set.length : Int) ≤ a.ID - 1 then some true
        else some (vecGet (vecGet env.items (item_id - 1)).actor_set (a.ID - 1)) := by
    intro b hb
    unfold IsItemUsable
    rw [if_neg hguard, hb, hcast]
  refine ⟨?_, ?_, ?_⟩
  · intro hs
    unfold IsEquippable
    rw [if_neg hguard, if_pos hs]
  · intro hs
    have he : IsEquippable env a item_id = IsItemUsable env a item_id := by
      unfold IsEquippable
      rw [if_neg hguard, if_neg hs]
    rw [he, husable a rfl]
    exact ⟨fun h => by rw [if_pos h], fun h => by rw [if_neg (by omega)]⟩
  · intro hsh hmask
    constructor
    · unfold IsEquippable
      rw [if_neg hguard, if_pos ⟨rfl, hsh⟩]
    · unfold IsEquippable
      rw [if_neg hguard, if_neg (by simp)]
      exact (husable _ rfl).trans (if_pos hmask)

/-- C17, applied to actor 2: the shield is rejected with the two-weapon style
and accepted without it, and the sword follows its mask entry (false). -/
theorem C17_equip_legality_witness :
    (1 : Int) ≤ dualWielder.ID ∧ dualWielder.ID ≤ 2147483647 ∧
    IsEquippable armoryEnv dualWielder 1 = some false ∧
    IsEquippable armoryEnv { dualWielder with two_weapon := false } 1 = some true ∧
    IsEquippable armoryEnv dualWielder 2 = some false :=
  have h1 := C17_equip_legality armoryEnv dualWielder 1 (by decide) (by decide) (by decide)
    (by decide)
  have h2 := C17_equip_legality armoryEnv dualWielder 2 (by decide) (by decide) (by decide)
    (by decide)
  ⟨by decide, by decide, h1.1 (by decide), (h1.2.2 (by decide) (by decide)).2,
    ((h2.2.1 (by decide)).2 (by decide)).trans (by decide)⟩

/-- C20: the code breaks the claimed no-op. For the out-of-range slot 5 and item
1, `SetEquipment` reports -1 and leaves the slots alone, but `ChangeEquipment`
takes -1 for the previous occupant and still consumes the new item: it calls
`AddItem(-1, 1)` and `RemoveItem(1, 1)` on the party. -/
theorem C20_out_of_range_slot_touches_party :
    (ChangeEquipment gearEnv bareActor 5 1).1 = bareActor ∧
    (ChangeEquipment gearEnv bareActor 5 1).2 =
      [PartyCall.AddItem (-1) 1, PartyCall.RemoveItem 1 1] ∧
    (ChangeEquipment gearEnv bareActor (-1) 1).2 =
      [PartyCall.AddItem (-1) 1, PartyCall.RemoveItem 1 1] := by
  decide

/-- C18: the code breaks the claimed size-3 placement. For a party of three the
`switch` falls from `case 3` into `case 4`, so ordinal 1 ends at two thirds of
the band (x = 90, y = 120 on bands of 60 starting at 50 and 100) instead of the
midpoint (x = 80, y = 130), and ordinal 2 ends at one third (x = 70) instead of
the near edge (x = 50). -/
theorem C18_size_three_falls_through :
    battleXPosition trioScene {} = 90 ∧
    battleLeft {} + (battleRight trioScene {} - battleLeft {}) / 2 = 80 ∧
    battleYPosition trioScene = 120 ∧
    battleTop trioScene + (battleBottom trioScene - battleTop trioScene) / 2 = 130 ∧
    battleXPosition { trioScene with party_pos := 2 } {} = 70 ∧
    battleLeft {} = 50 := by
  refine ⟨?_, ?_, ?_, ?_, ?_, ?_⟩ <;>
    norm_num [battleXPosition, battleYPosition, battleLeft, battleRight, battleTop,
      battleBottom, trioScene, GetBattleRow, Int.tdiv]

/-- C19: under automatic placement (or `battle_x == 0`), for party size 2 and
ordinal 0, for every terrain and every row stored in the actor (`data.row`),
`GetBattleX` returns the raw right band edge `left + grid_c / 1103` (`int`
division, `left` = 25 when the stored row is 1 and 50 otherwise) in the
BackAttack mode, and `SCREEN_TARGET_WIDTH` minus that value in the Normal,
Initiative, Pincer and Surround modes. -/
theorem C19_back_attack_not_mirrored (sc : BattleScene) (env : Env) (a : Game_Actor)
    (hauto : env.actor.battle_x = 0 ∨ sc.placement_automatic = true)
    (hsize : sc.party_size = 2) (hpos : sc.party_pos = 0) :
    (sc.battle_mode = BattleMode.BattleBackAttack →
      GetBattleX sc env a =
        (if a.row = 1 then 25 else 50) + Int.tdiv sc.terrain.grid_c 1103) ∧
    (sc.battle_mode ≠ BattleMode.BattleBackAttack →
      GetBattleX sc env a =
        sc.SCREEN_TARGET_WIDTH -
          ((if a.row = 1 then 25 else 50) + Int.tdiv sc.terrain.grid_c 1103)) := by
  have hp := battleXPosition_pair_first sc a hsize hpos
  have hr := battleRight_eq sc a
  have hmirror : truncToInt ((sc.SCREEN_TARGET_WIDTH : ℚ) - battleXPosition sc a) =
      sc.SCREEN_TARGET_WIDTH -
        ((if a.row = 1 then 25 else 50) + Int.tdiv sc.terrain.grid_c 1103) := by
    rw [hp, hr, ← Int.cast_sub, truncToInt_intCast]
  have hraw : truncToInt (battleXPosition sc a) =
      (if a.row = 1 then 25 else 50) + Int.tdiv sc.terrain.grid_c 1103 := by
    rw [hp, hr, truncToInt_intCast]
  unfold GetBattleX
  rw [if_pos hauto]
  constructor
  · intro hm
    rw [hm]
    exact hraw
  · intro hm
    cases hmode : sc.battle_mode with
    | BattleBackAttack => exact absurd hmode hm
    | BattleNormal => exact hmirror
    | BattleInitiative => exact hmirror
    | BattlePincer => exact hmirror
    | BattleSurround => exact hmirror

/-- C19, applied to a band of width 60: in the front row (row 0) 110 in a back
attack and `320 - 110 = 210` in a normal battle; in row 1, where `left` is 25,
85 in a back attack and `320 - 85 = 235` in a normal battle. -/
theorem C19_back_attack_not_mirrored_witness :
    ambushScene.party_size = 2 ∧ ambushScene.party_pos = 0 ∧
    GetBattleX ambushScene {} {} = 110 ∧
    GetBattleX { ambushScene with battle_mode := BattleMode.BattleNormal } {} {} = 210 ∧
    backRowActor.row = 1 ∧
    GetBattleX ambushScene {} backRowActor = 85 ∧
    GetBattleX { ambushScene with battle_mode := BattleMode.BattleNormal } {}
      backRowActor = 235 :=
  ⟨by decide, by decide,
    ((C19_back_attack_not_mirrored ambushScene {} {} (by decide) (by decide) (by decide)).1
      (by decide)).trans (by decide),
    ((C19_back_attack_not_mirrored { ambushScene with battle_mode := BattleMode.BattleNormal }
      {} {} (by decide) (by decide) (by decide)).2 (by decide)).trans (by decide),
    by decide,
    ((C19_back_attack_not_mirrored ambushScene {} backRowActor (by decide) (by decide)
      (by decide)).1 (by decide)).trans (by decide),
    ((C19_back_attack_not_mirrored { ambushScene with battle_mode := BattleMode.BattleNormal }
      {} backRowActor (by decide) (by decide) (by decide)).2 (by decide)).trans (by decide)⟩

/-- C21: for every actor with `maxLevel >= 1`, `1 <= level <= maxLevel` and
`0 <= experience <= maxExperience`, each of `SetLevel`, `SetExp`, `ChangeLevel`
and `ChangeExp` yields a state within the same ranges; with non-negative table
entries `GetNextExp(L)` returns -1 exactly when `L <= 0` or `L >= maxLevel`; and
`ChangeExp` on an actor at `maxLevel` with a larger target leaves the level at
`maxLevel`. -/
theorem C21_level_and_experience_stay_in_range (env : Env) (a : Game_Actor)
    (m : Game_Message) (hM : 1 ≤ GetMaxLevel env) (h : LevelExpInRange env a) :
    (∀ n, LevelExpInRange env (SetLevel env a n)) ∧
    (∀ e, LevelExpInRange env (SetExp env a e)) ∧
    (∀ (n : Int) (announce : Bool), LevelExpInRange env (ChangeLevel env a m n announce).1) ∧
    (∀ (v : Int) (announce : Bool), LevelExpInRange env (ChangeExp env a m v announce).1) ∧
    ((∀ x ∈ a.exp_list, 0 ≤ x) →
      ∀ L : Int, GetNextExp env a L = -1 ↔ (L ≤ 0 ∨ L ≥ GetMaxLevel env)) ∧
    (a.level = GetMaxLevel env →
      ∀ (v : Int) (announce : Bool), a.exp < v →
        (ChangeExp env a m v announce).1.level = GetMaxLevel env) := by
  have hMx := max_exp_value_pos env
  obtain ⟨h1, h2, h3, h4⟩ := h
  refine ⟨?_, ?_, ?_, ?_, ?_, ?_⟩
  · intro n
    refine ⟨?_, ?_, h3, h4⟩
    · show 1 ≤ min (max n 1) (GetMaxLevel env); omega
    · show min (max n 1) (GetMaxLevel env) ≤ GetMaxLevel env; omega
  · intro e
    refine ⟨h1, h2, ?_, ?_⟩
    · show 0 ≤ min (max e 0) (max_exp_value env); omega
    · show min (max e 0) (max_exp_value env) ≤ max_exp_value env; omega
  · intro n b
    exact ChangeLevel_in_range env a m n b hM ⟨h1, h2, h3, h4⟩
  · intro v b
    obtain ⟨el, ee, -⟩ := ChangeExp_level_exp env a m v b h1 h2
    obtain ⟨r1, r2⟩ := scannedLevel_range env a (min (max v 0) (max_exp_value env)) h1 h2
    unfold LevelExpInRange
    rw [el, ee]
    exact ⟨r1, r2, by omega, by omega⟩
  · intro hnn L
    exact GetNextExp_sentinel_iff env a hnn L
  · intro hmax v b hv
    obtain ⟨el, -, -⟩ := ChangeExp_level_exp env a m v b h1 h2
    rw [el]
    unfold scannedLevel
    have hk : (GetMaxLevel env - a.level).toNat = 0 := by omega
    split_ifs with c1 c2
    · rw [hk]; simp [scanUp, hmax]
    · omega
    · exact hmax

/-- C21, applied to the level-3 actor with experience 30 over `[0, 10, 20]`:
a higher target keeps level 3, and the next threshold of level 3 is absent. -/
theorem C21_level_and_experience_stay_in_range_witness :
    1 ≤ GetMaxLevel threeLevelEnv ∧ LevelExpInRange threeLevelEnv topActor ∧
    LevelExpInRange threeLevelEnv (ChangeExp threeLevelEnv topActor {} 5000000 true).1 ∧
    LevelExpInRange threeLevelEnv (ChangeLevel threeLevelEnv topActor {} (-4) true).1 ∧
    (ChangeExp threeLevelEnv topActor {} 50 true).1.level = GetMaxLevel threeLevelEnv ∧
    GetNextExp threeLevelEnv topActor 3 = -1 :=
  have h := C21_level_and_experience_stay_in_range threeLevelEnv topActor {}
    (by decide) (by decide)
  ⟨by decide, by decide, h.2.2.2.1 5000000 true, h.2.2.1 (-4) true,
    h.2.2.2.2.2 (by decide) 50 true (by decide),
    (h.2.2.2.2.1 (by decide) 3).mpr (by decide)⟩

/-- C22, as stated, fails: with attack 990 from the table and a sword of +50 the
getter is saturated at 999; `SetBaseAtk(500)` lowers the modifier by 499 only,
and `GetBaseAtk()` then returns 541, not 500. -/
theorem C22_counterexample :
    GetBaseAtk strongEnv strongActor true true = 999 ∧
    (1 : Int) ≤ 500 ∧ (500 : Int) ≤ 999 ∧
    GetBaseAtk strongEnv (SetBaseAtk strongEnv strongActor 500) true true = 541 := by
  decide

/-- C22 (amended): for every actor state and every value `v` within the stat's
clamp range, after the setter the getter (modifier and equipment included)
returns `v` exactly when the stat's unclamped sum before the call lies within
the clamp range, or lies above it and `v` is the ceiling, or lies below it and
`v` is the floor; for `SetBaseAtk`, `SetBaseDef`, `SetBaseSpi`, `SetBaseAgi`
with range `[1, 999]`, `SetBaseMaxSp` with `[0, 999]` and `SetBaseMaxHp` with
`[1, max_hp_value()]`. -/
theorem C22_setters_round_trip (env : Env) (a : Game_Actor) (v : Int) :
    (1 ≤ v → v ≤ 999 →
      (GetBaseAtk env (SetBaseAtk env a v) true true = v ↔
        RoundTrips (unclampedAtk env a) v 1 999)) ∧
    (1 ≤ v → v ≤ 999 →
      (GetBaseDef env (SetBaseDef env a v) true true = v ↔
        RoundTrips (unclampedDef env a) v 1 999)) ∧
    (1 ≤ v → v ≤ 999 →
      (GetBaseSpi env (SetBaseSpi env a v) true true = v ↔
        RoundTrips (unclampedSpi env a) v 1 999)) ∧
    (1 ≤ v → v ≤ 999 →
      (GetBaseAgi env (SetBaseAgi env a v) true true = v ↔
        RoundTrips (unclampedAgi env a) v 1 999)) ∧
    (0 ≤ v → v ≤ 999 →
      (GetBaseMaxSp env (SetBaseMaxSp env a v) true = v ↔
        RoundTrips (unclampedMaxSp env a) v 0 999)) ∧
    (1 ≤ v → v ≤ max_hp_value env →
      (GetBaseMaxHp env (SetBaseMaxHp env a v) true = v ↔
        RoundTrips (unclampedMaxHp env a) v 1 (max_hp_value env))) := by
  refine ⟨?_, ?_, ?_, ?_, ?_, ?_⟩
  · intro h1 h2
    rw [GetBaseAtk_unclamped, unclampedAtk_SetBaseAtk, GetBaseAtk_unclamped]
    exact clamp_round_trip _ v 1 999 h1 h2
  · intro h1 h2
    rw [GetBaseDef_unclamped, unclampedDef_SetBaseDef, GetBaseDef_unclamped]
    exact clamp_round_trip _ v 1 999 h1 h2
  · intro h1 h2
    rw [GetBaseSpi_unclamped, unclampedSpi_SetBaseSpi, GetBaseSpi_unclamped]
    exact clamp_round_trip _ v 1 999 h1 h2
  · intro h1 h2
    rw [GetBaseAgi_unclamped, unclampedAgi_SetBaseAgi, GetBaseAgi_unclamped]
    exact clamp_round_trip _ v 1 999 h1 h2
  · intro h1 h2
    rw [GetBaseMaxSp_unclamped, unclampedMaxSp_SetBaseMaxSp, GetBaseMaxSp_unclamped]
    exact clamp_round_trip _ v 0 999 h1 h2
  · intro h1 h2
    rw [GetBaseMaxHp_unclamped, unclampedMaxHp_SetBaseMaxHp, GetBaseMaxHp_unclamped]
    exact clamp_round_trip _ v 1 (max_hp_value env) h1 h2

/-- C22 (amended), applied to the geared actor, whose attack sum 17 is within
the clamp range: after `SetBaseAtk(100)` the getter returns 100. -/
theorem C22_setters_round_trip_witness :
    (1 : Int) ≤ 100 ∧ (100 : Int) ≤ 999 ∧ RoundTrips (unclampedAtk gearEnv gearedActor) 100 1 999 ∧
    GetBaseAtk gearEnv (SetBaseAtk gearEnv gearedActor 100) true true = 100 :=
  ⟨by decide, by decide, by decide,
    ((C22_setters_round_trip gearEnv gearedActor 100).1 (by decide) (by decide)).mpr
      (by decide)⟩

end GameActor
